import Mathlib

/-!
# Raktlink: donor matching and the blood-request lifecycle

A shallow embedding of `server/models/BloodRequest.js`, `server/models/User.js`,
`server/controllers/bloodRequestController.js` and the guards of the respond
route (`server/middleware/authMiddleware.js`, `server/routes/bloodRequests.js`).

Conventions of the embedding.

* A `Date` is a number of milliseconds since the epoch (`Int`).  The helpers
  that move a date by local-time hours or days (`setHours`, `setDate`) are
  embedded twice: over an arbitrary `TimeZone` (`getExpiryDateIn`,
  `checkDonationEligibilityIn`), where the move is made on the local wall
  clock, and for a server time zone whose UTC offset does not change
  (`getExpiryDate`, `checkDonationEligibility`), where one hour is 3 600 000 ms
  and one day is 86 400 000 ms; the two agree when the offset is the same
  before and after the move.  The controllers are embedded for the second.
* An `ObjectId` is an abstract identifier (`Nat`); `a.toString() === b.toString()`
  on identifiers is equality.
* Every controller reads the clock several times during one call; the embedding
  gives a call one instant, the field `now` of its `Ctx`.
* A controller is a function from the stored document (and the caller's
  arguments) to the HTTP status code, the stored document after the call and the
  socket events emitted.  The controllers are embedded for a request that
  exists (the `404` branch of `findById` is the absence of the argument).
* JavaScript strings stay strings where the source compares or looks them up
  (`bloodGroup`, `urgency`, `response`); the two `status` fields, which the
  controllers only ever assign from literals of the schema `enum`, are
  enumerations.
-/

namespace Raktlink

/-! ## Values -/

abbrev ObjectId := Nat

abbrev Date := Int

/-- Milliseconds in one hour. -/
def msPerHour : Int := 3600000

/-- Milliseconds in one day. -/
def msPerDay : Int := 86400000

/-- Coordinates `[longitude, latitude]` of a GeoJSON point, in fixed-point units. -/
abbrev Coordinates := Int × Int

/-- What a property read on the `compatibility` object literal can evaluate to:
`undefined`, one of the literal string arrays, or a member inherited from
`Object.prototype` (a function, or the prototype object itself for `__proto__`). -/
inductive JsValue where
  | undefined
  | array (items : List String)
  | inherited (key : String)
  deriving DecidableEq, Repr

/-- JavaScript truthiness of a `JsValue`: `undefined` is falsy; arrays (also the
empty one), functions and objects are truthy. -/
def JsValue.truthy : JsValue → Bool
  | .undefined => false
  | .array _ => true
  | .inherited _ => true

/-- Truthiness of an optional string (`undefined`, or a string): only a
non-empty string is truthy. -/
def truthyStr : Option String → Bool
  | some s => s != ""
  | none => false

/-- Truthiness of an optional number: only a non-zero number is truthy. -/
def truthyNat : Option Nat → Bool
  | some n => n != 0
  | none => false

/-- The expression `a || b` for an optional string `a`. -/
def orStr (a : Option String) (b : String) : String :=
  match a with
  | some s => if s != "" then s else b
  | none => b

/-- The expression `a || b` for an optional number `a`. -/
def orNat (a : Option Nat) (b : Nat) : Nat :=
  match a with
  | some n => if n != 0 then n else b
  | none => b

/-- The expression `a || b` for an optional object `a` (an object is truthy). -/
def orObj {α : Type} (a : Option α) (b : α) : α :=
  match a with
  | some x => x
  | none => b

/-! ## Data model (`models/BloodRequest.js`, `models/User.js`) -/

inductive RequestStatus where
  | active
  | fulfilled
  | cancelled
  | expired
  deriving DecidableEq, Repr

inductive DonorStatus where
  | pending
  | accepted
  | declined
  | completed
  deriving DecidableEq, Repr

/-- One element of `BloodRequestSchema.donors`. -/
structure DonorEntry where
  donor : ObjectId
  status : DonorStatus
  respondedAt : Date
  completedAt : Option Date
  deriving DecidableEq, Repr

structure Patient where
  name : String
  age : Nat
  gender : String
  deriving DecidableEq, Repr

structure Hospital where
  name : String
  coordinates : Coordinates
  address : String
  deriving DecidableEq, Repr

structure BloodRequest where
  _id : ObjectId
  requester : ObjectId
  patient : Patient
  bloodGroup : String
  units : Nat
  urgency : String
  hospital : Hospital
  reason : String
  status : RequestStatus
  donors : List DonorEntry
  notifiedDonors : List ObjectId
  expiresAt : Date
  additionalNotes : String
  createdAt : Date
  deriving DecidableEq, Repr

/-- One element of `UserSchema.donationHistory`. -/
structure DonationRecord where
  requestId : ObjectId
  donatedAt : Date
  recipientId : ObjectId
  deriving DecidableEq, Repr

/-- One element of `UserSchema.requestHistory`; `status` is one of the strings
`pending`, `fulfilled`, `cancelled`. -/
structure RequestRecord where
  requestId : ObjectId
  requestedAt : Date
  status : String
  deriving DecidableEq, Repr

structure User where
  _id : ObjectId
  bloodGroup : String
  coordinates : Coordinates
  isDonor : Bool
  lastDonation : Option Date
  donationHistory : List DonationRecord
  requestHistory : List RequestRecord
  isEligibleToDonate : Bool
  deriving DecidableEq, Repr

/-- The `enum` of both `bloodGroup` paths. -/
def bloodGroups : List String :=
  ["A+", "A-", "B+", "B-", "AB+", "AB-", "O+", "O-"]

/-- The `enum` of `urgency`. -/
def urgencies : List String := ["critical", "high", "medium", "low"]

/-- The `enum` of `patient.gender`. -/
def genders : List String := ["male", "female", "other"]

/-! ## Model methods -/

/-- The object literal `compatibility` of `getCompatibleDonors`: its own
properties, in source order. -/
def compatibility : List (String × List String) :=
  [ ("A+", ["A+", "A-", "O+", "O-"]),
    ("A-", ["A-", "O-"]),
    ("B+", ["B+", "B-", "O+", "O-"]),
    ("B-", ["B-", "O-"]),
    ("AB+", ["A+", "A-", "B+", "B-", "AB+", "AB-", "O+", "O-"]),
    ("AB-", ["A-", "B-", "AB-", "O-"]),
    ("O+", ["O+", "O-"]),
    ("O-", ["O-"]) ]

/-- The string-keyed properties of `Object.prototype`, which every object
literal inherits. -/
def objectPrototypeKeys : List String :=
  [ "constructor", "__defineGetter__", "__defineSetter__", "hasOwnProperty",
    "__lookupGetter__", "__lookupSetter__", "isPrototypeOf",
    "propertyIsEnumerable", "toString", "valueOf", "__proto__",
    "toLocaleString" ]

/-- The property read `compatibility[bloodGroup]`: an own property if there is
one, else the member inherited from `Object.prototype`, else `undefined`. -/
def compatibilityGet (bloodGroup : String) : JsValue :=
  match compatibility.lookup bloodGroup with
  | some groups => .array groups
  | none =>
    if bloodGroup ∈ objectPrototypeKeys then .inherited bloodGroup else .undefined

/-- `BloodRequestSchema.statics.getCompatibleDonors`:
`return compatibility[bloodGroup] || []`. -/
def getCompatibleDonors (bloodGroup : String) : JsValue :=
  let found := compatibilityGet bloodGroup
  if found.truthy then found else .array []

/-- `BloodRequestSchema.methods.isExpired`. -/
def isExpired (now : Date) (r : BloodRequest) : Bool :=
  decide (r.expiresAt ≤ now) || r.status == RequestStatus.expired

/-- `BloodRequestSchema.methods.getFulfilledUnits`. -/
def getFulfilledUnits (r : BloodRequest) : Nat :=
  (r.donors.filter (fun d => d.status == DonorStatus.completed)).length

/-- The `pre('save')` hook of `BloodRequestSchema`. -/
def preSave (now : Date) (r : BloodRequest) : BloodRequest :=
  if isExpired now r && r.status == RequestStatus.active then
    { r with status := RequestStatus.expired }
  else r

/-- `UserSchema.methods.checkDonationEligibility`, for a server time zone whose
UTC offset does not change (`checkDonationEligibilityIn` is the method over an
arbitrary zone). -/
def checkDonationEligibility (now : Date) (u : User) : Bool :=
  match u.lastDonation with
  | none => true
  | some last =>
    let threeMonthsAgo : Date := now - 90 * msPerDay
    decide (last < threeMonthsAgo)

/-! ## Controller helpers -/

/-- Helper `getExpiryDate`, for a server time zone whose UTC offset does not
change (`getExpiryDateIn` is the helper over an arbitrary zone); the argument is
a string or `undefined`. -/
def getExpiryDate (now : Date) (urgency : Option String) : Date :=
  match urgency with
  | some "critical" => now + 3 * msPerHour
  | some "high" => now + 6 * msPerHour
  | some "medium" => now + 12 * msPerHour
  | _ => now + 24 * msPerHour

/-- Helper `getRadiusByUrgency`, in kilometres. -/
def getRadiusByUrgency (urgency : Option String) : Nat :=
  match urgency with
  | some "critical" => 10
  | some "high" => 7
  | some "medium" => 5
  | _ => 3

/-- The per-call environment of a controller: the clock, and whether the
socket server has been started (`getIO()` returns `null` before `init`). -/
structure Ctx where
  now : Date
  ioReady : Bool
  deriving DecidableEq, Repr

/-- A socket event `io.to(room).emit(name, payload)`. -/
inductive Event where
  | newBloodRequest (room : ObjectId) (requestId : ObjectId) (bloodGroup : String)
      (urgency : String) (hospitalName : String) (address : String) (expiresAt : Date)
  | donorResponse (room : ObjectId) (requestId : ObjectId) (donorId : ObjectId)
      (response : String)
  | requestCancelled (room : ObjectId) (requestId : ObjectId)
  deriving DecidableEq, Repr

/-- The result of a controller acting on one stored request. -/
structure Outcome where
  code : Nat
  request : BloodRequest
  events : List Event
  deriving DecidableEq, Repr

/-- Replace the first element satisfying `p` by its image under `f`
(a mutation through the reference returned by `Array.prototype.find`, or an
update of the one document `findByIdAndUpdate` selects). -/
def updateFirst {α : Type} (p : α → Bool) (f : α → α) : List α → List α
  | [] => []
  | x :: xs => if p x then f x :: xs else x :: updateFirst p f xs

/-- The operand of `$in` in `User.find`: an array of strings is a membership
test.  For any other operand the outcome lies with the database driver (a cast
of the operand or a failed query) and is not embedded. -/
def inOperand : JsValue → Option (List String)
  | .array groups => some groups
  | _ => none

/-- Helper `findPotentialDonors` over the user collection `users`, with
`dist a b` the distance in metres the geospatial index computes between two
points.  `$near` returns the matches nearest first; `none` stands for a query
whose `$in` operand is not an array. -/
def findPotentialDonors (users : List User) (dist : Coordinates → Coordinates → Nat)
    (bloodGroup : String) (coordinates : Coordinates) (maxDistance : Nat) :
    Option (List User) :=
  let compatibleGroups := getCompatibleDonors bloodGroup
  match inOperand compatibleGroups with
  | none => none
  | some groups =>
    some ((users.filter (fun u =>
        decide (u.bloodGroup ∈ groups) && u.isDonor && u.isEligibleToDonate &&
        decide (dist u.coordinates coordinates ≤ maxDistance * 1000))).insertionSort
      (fun a b => dist a.coordinates coordinates ≤ dist b.coordinates coordinates))

/-- Helper `notifyDonors`. -/
def notifyDonors (ctx : Ctx) (donors : List User) (r : BloodRequest) : List Event :=
  if ctx.ioReady then
    donors.map (fun d => Event.newBloodRequest d._id r._id r.bloodGroup r.urgency
      r.hospital.name r.hospital.address r.expiresAt)
  else []

/-- Helper `notifyRequesterOfResponse`. -/
def notifyRequesterOfResponse (ctx : Ctx) (r : BloodRequest) (donorId : ObjectId)
    (response : String) : List Event :=
  if ctx.ioReady then [Event.donorResponse r.requester r._id donorId response] else []

/-- Helper `notifyDonorsOfCancellation`. -/
def notifyDonorsOfCancellation (ctx : Ctx) (r : BloodRequest) : List Event :=
  if ctx.ioReady then r.notifiedDonors.map (fun d => Event.requestCancelled d r._id)
  else []

/-! ## Schema validation

`save` validates the paths a controller has modified before the `pre('save')`
hook runs.  `respondToBloodRequest`, `cancelBloodRequest` and `completeDonation`
assign only `status`, `donors` entries and `notifiedDonors`, always from valid
literals, so only `create` and `updateBloodRequest` can fail validation. -/

def validPatient (p : Patient) : Bool :=
  p.name != "" && decide (p.gender ∈ genders)

def validHospital (h : Hospital) : Bool :=
  h.name != "" && h.address != ""

def validUnits (n : Nat) : Bool :=
  decide (1 ≤ n) && decide (n ≤ 10)

/-- Validators of the paths of a new or edited document. -/
def validate (r : BloodRequest) : Bool :=
  validPatient r.patient && decide (r.bloodGroup ∈ bloodGroups) && validUnits r.units &&
  decide (r.urgency ∈ urgencies) && validHospital r.hospital && r.reason != ""

/-! ## Controllers (`controllers/bloodRequestController.js`) -/

/-- The body of `POST /api/requests`.  `urgency` and `additionalNotes` have
schema defaults and may be absent. -/
structure CreateBody where
  patient : Patient
  bloodGroup : String
  units : Nat
  urgency : Option String
  hospital : Hospital
  reason : String
  additionalNotes : Option String
  deriving DecidableEq, Repr

/-- The result of `createBloodRequest`: the status code, the stored document
(if `BloodRequest.create` stored one), the `potentialDonorsCount` of the answer
and the events emitted. -/
structure CreateOutcome where
  code : Nat
  request : Option BloodRequest
  potentialDonorsCount : Nat
  events : List Event
  deriving DecidableEq, Repr

/-- The document `BloodRequest.create` builds from the body, schema defaults
applied; `newId` is the identifier the store assigns. -/
def newDocument (ctx : Ctx) (newId : ObjectId) (caller : ObjectId) (body : CreateBody) :
    BloodRequest :=
  { _id := newId
    requester := caller
    patient := body.patient
    bloodGroup := body.bloodGroup
    units := body.units
    urgency := body.urgency.getD "medium"
    hospital := body.hospital
    reason := body.reason
    status := RequestStatus.active
    donors := []
    notifiedDonors := []
    expiresAt := getExpiryDate ctx.now body.urgency
    additionalNotes := body.additionalNotes.getD ""
    createdAt := ctx.now }

/-- Controller `createBloodRequest`. -/
def createBloodRequest (ctx : Ctx) (users : List User)
    (dist : Coordinates → Coordinates → Nat) (newId : ObjectId) (caller : ObjectId)
    (body : CreateBody) : CreateOutcome :=
  let doc := newDocument ctx newId caller body
  if !validate doc then
    { code := 500, request := none, potentialDonorsCount := 0, events := [] }
  else
    let bloodRequest := preSave ctx.now doc
    match findPotentialDonors users dist body.bloodGroup body.hospital.coordinates
        (getRadiusByUrgency body.urgency) with
    | none =>
      { code := 500, request := some bloodRequest, potentialDonorsCount := 0, events := [] }
    | some potentialDonors =>
      let saved := preSave ctx.now
        { bloodRequest with notifiedDonors := potentialDonors.map (fun d => d._id) }
      { code := 201
        request := some saved
        potentialDonorsCount := potentialDonors.length
        events := notifyDonors ctx potentialDonors saved }

/-- The body of `PUT /api/requests/:id`; every field may be absent. -/
structure UpdateBody where
  patient : Option Patient
  bloodGroup : Option String
  units : Option Nat
  urgency : Option String
  hospital : Option Hospital
  reason : Option String
  additionalNotes : Option String
  deriving DecidableEq, Repr

/-- The field assignments of `updateBloodRequest` (`x = req.body.x || x`),
followed by the re-derivation of `expiresAt`, whose test reads the `urgency`
just assigned. -/
def applyUpdate (ctx : Ctx) (body : UpdateBody) (r : BloodRequest) : BloodRequest :=
  let r1 : BloodRequest :=
    { r with
      patient := orObj body.patient r.patient
      bloodGroup := orStr body.bloodGroup r.bloodGroup
      units := orNat body.units r.units
      urgency := orStr body.urgency r.urgency
      hospital := orObj body.hospital r.hospital
      reason := orStr body.reason r.reason
      additionalNotes := orStr body.additionalNotes r.additionalNotes }
  if truthyStr body.urgency && body.urgency != some r1.urgency then
    { r1 with expiresAt := getExpiryDate ctx.now body.urgency }
  else r1

/-- Validation of the paths an update has assigned from the body. -/
def validateUpdate (body : UpdateBody) (r : BloodRequest) : Bool :=
  (body.patient.isNone || validPatient r.patient) &&
  (!truthyStr body.bloodGroup || decide (r.bloodGroup ∈ bloodGroups)) &&
  (!truthyNat body.units || validUnits r.units) &&
  (!truthyStr body.urgency || decide (r.urgency ∈ urgencies)) &&
  (body.hospital.isNone || validHospital r.hospital)

/-- Controller `updateBloodRequest`. -/
def updateBloodRequest (ctx : Ctx) (caller : ObjectId) (body : UpdateBody)
    (r : BloodRequest) : Outcome :=
  if r.requester ≠ caller then
    { code := 401, request := r, events := [] }
  else if r.status = RequestStatus.fulfilled ∨ r.status = RequestStatus.cancelled ∨
      r.status = RequestStatus.expired then
    { code := 400, request := r, events := [] }
  else
    let edited := applyUpdate ctx body r
    if !validateUpdate body edited then
      { code := 500, request := r, events := [] }
    else
      { code := 200, request := preSave ctx.now edited, events := [] }

/-- Controller `cancelBloodRequest`. -/
def cancelBloodRequest (ctx : Ctx) (caller : ObjectId) (r : BloodRequest) : Outcome :=
  if r.requester ≠ caller then
    { code := 401, request := r, events := [] }
  else if r.status = RequestStatus.fulfilled ∨ r.status = RequestStatus.cancelled then
    { code := 400, request := r, events := [] }
  else
    let updatedRequest := preSave ctx.now { r with status := RequestStatus.cancelled }
    { code := 200
      request := updatedRequest
      events := notifyDonorsOfCancellation ctx updatedRequest }

/-- The donor status a response is recorded as:
`response === 'accept' ? 'accepted' : 'declined'`. -/
def responseStatus (response : String) : DonorStatus :=
  if response = "accept" then DonorStatus.accepted else DonorStatus.declined

/-- The upsert of `respondToBloodRequest`: the first entry of the donor is
overwritten in place, or a new entry is pushed. -/
def upsertResponse (now : Date) (donorId : ObjectId) (response : String)
    (donors : List DonorEntry) : List DonorEntry :=
  match donors.find? (fun d => d.donor == donorId) with
  | some _ =>
    updateFirst (fun d => d.donor == donorId)
      (fun d => { d with status := responseStatus response, respondedAt := now }) donors
  | none =>
    donors ++ [{ donor := donorId, status := responseStatus response,
                 respondedAt := now, completedAt := none }]

/-- The filter `d.status === 'accepted' || d.status === 'completed'`. -/
def acceptedDonors (donors : List DonorEntry) : List DonorEntry :=
  donors.filter (fun d => d.status == DonorStatus.accepted || d.status == DonorStatus.completed)

/-- Controller `respondToBloodRequest`; `user` is the caller's user document. -/
def respondToBloodRequest (ctx : Ctx) (user : User) (response : String)
    (r : BloodRequest) : Outcome :=
  if response ∉ ["accept", "decline"] then
    { code := 400, request := r, events := [] }
  else if r.status ≠ RequestStatus.active then
    { code := 400, request := r, events := [] }
  else if response = "accept" ∧ checkDonationEligibility ctx.now user = false then
    { code := 400, request := r, events := [] }
  else
    let r1 : BloodRequest :=
      { r with donors := upsertResponse ctx.now user._id response r.donors }
    let r2 : BloodRequest :=
      if response = "accept" ∧ r1.units ≤ (acceptedDonors r1.donors).length then
        { r1 with status := RequestStatus.fulfilled }
      else r1
    let saved := preSave ctx.now r2
    { code := 200
      request := saved
      events := notifyRequesterOfResponse ctx saved user._id response }

/-- The result of `completeDonation`: it also writes to the user collection. -/
structure CompleteOutcome where
  code : Nat
  request : BloodRequest
  users : List User
  deriving DecidableEq, Repr

/-- The `findIndex` predicate of `completeDonation`. -/
def isAcceptedBy (donorId : ObjectId) (d : DonorEntry) : Bool :=
  d.donor == donorId && d.status == DonorStatus.accepted

/-- Controller `completeDonation`. -/
def completeDonation (ctx : Ctx) (users : List User) (caller : ObjectId)
    (donorId : ObjectId) (r : BloodRequest) : CompleteOutcome :=
  if r.requester ≠ caller then
    { code := 401, request := r, users := users }
  else if !r.donors.any (isAcceptedBy donorId) then
    { code := 404, request := r, users := users }
  else
    let donors1 := updateFirst (isAcceptedBy donorId)
      (fun d => { d with status := DonorStatus.completed, completedAt := some ctx.now })
      r.donors
    let r1 : BloodRequest := { r with donors := donors1 }
    let users1 := updateFirst (fun u => u._id == donorId)
      (fun u => { u with
        lastDonation := some ctx.now,
        donationHistory := u.donationHistory ++
          [{ requestId := r._id, donatedAt := ctx.now, recipientId := r.requester }] })
      users
    let users2 := updateFirst (fun u => u._id == r.requester)
      (fun u => { u with
        requestHistory := u.requestHistory ++
          [{ requestId := r._id, requestedAt := ctx.now, status := "fulfilled" }] })
      users1
    let completedDonations :=
      (r1.donors.filter (fun d => d.status == DonorStatus.completed)).length
    let r2 : BloodRequest :=
      if r1.units ≤ completedDonations then { r1 with status := RequestStatus.fulfilled }
      else r1
    { code := 200, request := preSave ctx.now r2, users := users2 }

/-- The answer of a controller that only reads: the status code and the JSON
body. -/
structure ReadOutcome where
  code : Nat
  body : Option BloodRequest
  deriving DecidableEq, Repr

/-- The query `BloodRequest.findById` over the stored requests. -/
def BloodRequest.findById (requests : List BloodRequest) (id : ObjectId) :
    Option BloodRequest :=
  requests.find? (fun r => r._id == id)

/-- The query `User.findById` over the user collection. -/
def User.findById (users : List User) (id : ObjectId) : Option User :=
  users.find? (fun u => u._id == id)

/-- Controller `getBloodRequestById`: it answers with the document it found
(the populated references are not embedded); it reads no clock and saves
nothing. -/
def getBloodRequestById (requests : List BloodRequest) (id : ObjectId) : ReadOutcome :=
  match BloodRequest.findById requests id with
  | some bloodRequest => { code := 200, body := some bloodRequest }
  | none => { code := 404, body := none }

/-! ## Route guards (`middleware/authMiddleware.js`, `routes/bloodRequests.js`)

`reqUser` is `req.user` as `protect` leaves it after a valid token: the user
document, or `null` when the user no longer exists. -/

/-- Middleware `isDonor`: `req.user && req.user.isDonor`. -/
def authMiddleware.isDonor (reqUser : Option User) : Bool :=
  match reqUser with
  | some user => user.isDonor
  | none => false

/-- Middleware `isEligibleToDonate`: `req.user && req.user.checkDonationEligibility()`. -/
def authMiddleware.isEligibleToDonate (now : Date) (reqUser : Option User) : Bool :=
  match reqUser with
  | some user => checkDonationEligibility now user
  | none => false

/-- The route `POST /:id/respond`: `protect, isDonor, isEligibleToDonate,
respondToBloodRequest`, from the point where `protect` has accepted the token. -/
def respondRoute (ctx : Ctx) (reqUser : Option User) (response : String)
    (r : BloodRequest) : Outcome :=
  if !authMiddleware.isDonor reqUser then
    { code := 403, request := r, events := [] }
  else if !authMiddleware.isEligibleToDonate ctx.now reqUser then
    { code := 403, request := r, events := [] }
  else
    match reqUser with
    | some user => respondToBloodRequest ctx user response r
    | none => { code := 403, request := r, events := [] }

/-- The room an event is addressed to. -/
def Event.room : Event → ObjectId
  | .newBloodRequest room _ _ _ _ _ _ => room
  | .donorResponse room _ _ _ => room
  | .requestCancelled room _ => room

/-- The name an event is emitted under. -/
def Event.name : Event → String
  | .newBloodRequest _ _ _ _ _ _ _ => "new_blood_request"
  | .donorResponse _ _ _ _ => "donor_response"
  | .requestCancelled _ _ => "request_cancelled"

/-! ## Local time

`Date.prototype.setHours` and `setDate` work on local time: the time value is
taken to local time (`LocalTime`), the hour or the day of the month is replaced
(`MakeTime`, `MakeDay`, which carry an overflowing field arithmetically), and
the result is taken back to UTC (`UTC`). -/

/-- A time zone: the UTC offset in force at a UTC instant, and the offset with
which a local time value is read back (for a local time that a clock change
skips or repeats, the offset in force before the change). -/
structure TimeZone where
  offsetAt : Date → Int
  offsetOfLocal : Int → Int

/-- The abstract operation `LocalTime(t)`. -/
def TimeZone.localTime (zone : TimeZone) (t : Date) : Int :=
  t + zone.offsetAt t

/-- The abstract operation `UTC(t)` on a local time value. -/
def TimeZone.utc (zone : TimeZone) (wall : Int) : Date :=
  wall - zone.offsetOfLocal wall

/-- The date `d` after `d.setHours(d.getHours() + hours)`. -/
def addLocalHours (zone : TimeZone) (d : Date) (hours : Int) : Date :=
  zone.utc (zone.localTime d + hours * msPerHour)

/-- The date `d` after `d.setDate(d.getDate() + days)`. -/
def addLocalDays (zone : TimeZone) (d : Date) (days : Int) : Date :=
  zone.utc (zone.localTime d + days * msPerDay)

/-- Helper `getExpiryDate` in the server time zone `zone`. -/
def getExpiryDateIn (zone : TimeZone) (now : Date) (urgency : Option String) : Date :=
  match urgency with
  | some "critical" => addLocalHours zone now 3
  | some "high" => addLocalHours zone now 6
  | some "medium" => addLocalHours zone now 12
  | _ => addLocalHours zone now 24

/-- `UserSchema.methods.checkDonationEligibility` in the server time zone
`zone`. -/
def checkDonationEligibilityIn (zone : TimeZone) (now : Date) (u : User) : Bool :=
  match u.lastDonation with
  | none => true
  | some last =>
    let threeMonthsAgo : Date := addLocalDays zone now (-90)
    decide (last < threeMonthsAgo)

/-- The difference between the offset in force at `now` and the offset with
which the local time moved by `delta` milliseconds is read back. -/
def offsetShift (zone : TimeZone) (now : Date) (delta : Int) : Int :=
  zone.offsetAt now - zone.offsetOfLocal (zone.localTime now + delta)

/-! ## Derived definitions used in the statements -/

/-- The document `respondToBloodRequest` hands to `save` on its success path. -/
def respondedDocument (ctx : Ctx) (user : User) (response : String) (r : BloodRequest) :
    BloodRequest :=
  let r1 : BloodRequest :=
    { r with donors := upsertResponse ctx.now user._id response r.donors }
  if response = "accept" ∧ r1.units ≤ (acceptedDonors r1.donors).length then
    { r1 with status := RequestStatus.fulfilled }
  else r1

/-- The overwrite of `upsertResponse` keeps the donor of an entry. -/
def overwrite (now : Date) (response : String) (d : DonorEntry) : DonorEntry :=
  { d with status := responseStatus response, respondedAt := now }

/-- A run of accepts: each step is a call of `respondToBloodRequest` with
response `accept`, by the given user at the given instant, on the document the
previous step stored. -/
def acceptAll (steps : List (Ctx × User)) (r : BloodRequest) : BloodRequest :=
  steps.foldl (fun acc s => (respondToBloodRequest s.1 s.2 "accept" acc).request) r

/-- One call of a controller that writes to a stored request, with its
arguments. -/
inductive Op where
  | respond (ctx : Ctx) (user : User) (response : String)
  | complete (ctx : Ctx) (users : List User) (caller : ObjectId) (donorId : ObjectId)
  | update (ctx : Ctx) (caller : ObjectId) (body : UpdateBody)
  | cancel (ctx : Ctx) (caller : ObjectId)

/-- The stored request after one call. -/
def Op.apply : Op → BloodRequest → BloodRequest
  | .respond ctx user response, r => (respondToBloodRequest ctx user response r).request
  | .complete ctx users caller donorId, r => (completeDonation ctx users caller donorId r).request
  | .update ctx caller body, r => (updateBloodRequest ctx caller body r).request
  | .cancel ctx caller, r => (cancelBloodRequest ctx caller r).request

/-- The stored request after a sequence of calls, executed one at a time. -/
def run (ops : List Op) (r : BloodRequest) : BloodRequest :=
  ops.foldl (fun acc op => op.apply acc) r

/-- The invariant the controllers maintain: a fulfilled request has at least
`units` entries that are accepted or completed. -/
def QuotaMet (r : BloodRequest) : Prop :=
  r.status = RequestStatus.fulfilled → r.units ≤ (acceptedDonors r.donors).length

/-- The query predicate of `findPotentialDonors` for an array `groups` of
compatible groups, hospital point `p` and radius `km`. -/
def isCandidate (dist : Coordinates → Coordinates → Nat) (groups : List String)
    (p : Coordinates) (km : Nat) (u : User) : Bool :=
  decide (u.bloodGroup ∈ groups) && u.isDonor && u.isEligibleToDonate &&
    decide (dist u.coordinates p ≤ km * 1000)

/-- The assignment of `completeDonation` to the entry it found. -/
def markCompleted (now : Date) (d : DonorEntry) : DonorEntry :=
  { d with status := DonorStatus.completed, completedAt := some now }

/-- The document `completeDonation` hands to `save` on its success path. -/
def completedDocument (ctx : Ctx) (donorId : ObjectId) (r : BloodRequest) : BloodRequest :=
  let r1 : BloodRequest :=
    { r with donors := updateFirst (isAcceptedBy donorId) (markCompleted ctx.now) r.donors }
  if r1.units ≤ (r1.donors.filter (fun d => d.status == DonorStatus.completed)).length then
    { r1 with status := RequestStatus.fulfilled }
  else r1

/-- The update `completeDonation` applies to the donor's user document. -/
def recordDonation (now : Date) (r : BloodRequest) (u : User) : User :=
  { u with
    lastDonation := some now,
    donationHistory := u.donationHistory ++
      [{ requestId := r._id, donatedAt := now, recipientId := r.requester }] }

/-- The update `completeDonation` applies to the requester's user document. -/
def recordRequest (now : Date) (r : BloodRequest) (u : User) : User :=
  { u with
    requestHistory := u.requestHistory ++
      [{ requestId := r._id, requestedAt := now, status := "fulfilled" }] }

/-- The user collection after the two `findByIdAndUpdate` calls of
`completeDonation`. -/
def completedUsers (ctx : Ctx) (users : List User) (donorId : ObjectId) (r : BloodRequest) :
    List User :=
  updateFirst (fun u => u._id == r.requester) (recordRequest ctx.now r)
    (updateFirst (fun u => u._id == donorId) (recordDonation ctx.now r) users)

/-- The event `notifyDonors` emits to one donor. -/
def newRequestEvent (r : BloodRequest) (d : User) : Event :=
  Event.newBloodRequest d._id r._id r.bloodGroup r.urgency r.hospital.name
    r.hospital.address r.expiresAt

/-- The relation `d` can donate to `r`: `d` is in `getCompatibleDonors(r)`. -/
def canDonate (d r : String) : Bool :=
  match getCompatibleDonors r with
  | .array groups => decide (d ∈ groups)
  | _ => false

/-- Whether a call is an edit (`updateBloodRequest`). -/
def Op.isUpdate : Op → Bool
  | .update _ _ _ => true
  | _ => false

/-- The number of donor entries whose status is accepted or completed. -/
def acceptedCount (r : BloodRequest) : Nat := (acceptedDonors r.donors).length

/-- The quota invariant of a request that is never edited: the accepted or
completed entries are exactly `units` when it is fulfilled and fewer otherwise. -/
def QuotaExact (r : BloodRequest) : Prop :=
  (r.status = RequestStatus.fulfilled → acceptedCount r = r.units) ∧
  (r.status ≠ RequestStatus.fulfilled → acceptedCount r < r.units)

/-- The fields of a user document the query of `findPotentialDonors` reads. -/
def selection (u : User) : ObjectId × String × Coordinates × Bool × Bool :=
  (u._id, u.bloodGroup, u.coordinates, u.isDonor, u.isEligibleToDonate)

/-- The query predicate of `findPotentialDonors`, on the fields it reads. -/
def selected (dist : Coordinates → Coordinates → Nat) (groups : List String)
    (p : Coordinates) (km : Nat) (t : ObjectId × String × Coordinates × Bool × Bool) : Bool :=
  decide (t.2.1 ∈ groups) && t.2.2.2.1 && t.2.2.2.2 &&
    decide (dist t.2.2.1 p ≤ km * 1000)

/-! ## Sample data -/

def samplePatient : Patient := { name := "P", age := 30, gender := "other" }

def sampleHospital : Hospital := { name := "H", coordinates := (0, 0), address := "Road 1" }

/-- A donor with group `O-` who has never donated. -/
def donorA : User :=
  { _id := 1, bloodGroup := "O-", coordinates := (0, 0), isDonor := true,
    lastDonation := none, donationHistory := [], requestHistory := [],
    isEligibleToDonate := true }

/-- A second donor, group `A+`, who has never donated. -/
def donorB : User :=
  { _id := 2, bloodGroup := "A+", coordinates := (0, 0), isDonor := true,
    lastDonation := none, donationHistory := [], requestHistory := [],
    isEligibleToDonate := true }

/-- A request body for one unit. -/
def sampleBody1 : CreateBody :=
  { patient := samplePatient, bloodGroup := "A+", units := 1, urgency := some "critical",
    hospital := sampleHospital, reason := "surgery", additionalNotes := none }

/-- A request body for two units. -/
def sampleBody2 : CreateBody := { sampleBody1 with units := 2 }

/-- A distance function for the samples: every point is at distance zero. -/
def zeroDist : Coordinates → Coordinates → Nat := fun _ _ => 0

/-- The stored request a controller finds, for the samples: requester `9`,
status `active`, expiring at instant `100`. -/
def sampleRequest : BloodRequest :=
  { _id := 7, requester := 9, patient := samplePatient, bloodGroup := "A+", units := 1,
    urgency := "critical", hospital := sampleHospital, reason := "surgery",
    status := RequestStatus.active, donors := [], notifiedDonors := [1, 2],
    expiresAt := 100, additionalNotes := "", createdAt := 0 }

/-- The environment of a call at instant `t`, with the socket server started. -/
def ctxAt (t : Date) : Ctx := { now := t, ioReady := true }

/-- The document `createBloodRequest` stores for `sampleBody1` at instant `0`. -/
def sampleCreated1 : BloodRequest :=
  { _id := 7, requester := 9, patient := samplePatient, bloodGroup := "A+", units := 1,
    urgency := "critical", hospital := sampleHospital, reason := "surgery",
    status := RequestStatus.active, donors := [], notifiedDonors := [1, 2],
    expiresAt := 10800000, additionalNotes := "", createdAt := 0 }

/-- The document `createBloodRequest` stores for `sampleBody2` at instant `0`. -/
def sampleCreated2 : BloodRequest := { sampleCreated1 with units := 2 }

/-- Donor A accepts at instant `5`, donor B at instant `6`. -/
def sampleSteps : List (Ctx × User) := [(ctxAt 5, donorA), (ctxAt 6, donorB)]

/-- An edit that carries only a new urgency, `high`. -/
def sampleUrgencyEdit : UpdateBody :=
  { patient := none, bloodGroup := none, units := none, urgency := some "high",
    hospital := none, reason := none, additionalNotes := none }

/-- The sample request after donor A has accepted it at instant `5`; the status is
left to the caller. -/
def sampleAccepted (status : RequestStatus) : BloodRequest :=
  { sampleRequest with
    status := status
    donors := [{ donor := 1, status := DonorStatus.accepted, respondedAt := 5,
                 completedAt := none }] }

/-- Donor A after a donation at instant `0`. -/
def recentDonor : User := { donorA with lastDonation := some 0 }

/-- A donor of group `AB+`, whom the sample requests do not notify. -/
def donorC : User :=
  { _id := 3, bloodGroup := "AB+", coordinates := (0, 0), isDonor := true,
    lastDonation := none, donationHistory := [], requestHistory := [],
    isEligibleToDonate := true }

/-- The requester of the sample requests; not a donor. -/
def requesterU : User :=
  { _id := 9, bloodGroup := "B+", coordinates := (0, 0), isDonor := false,
    lastDonation := none, donationHistory := [], requestHistory := [],
    isEligibleToDonate := true }

/-- A request for two units on which donor A's entry is accepted. -/
def sampleAccepted2 : BloodRequest :=
  { sampleAccepted RequestStatus.active with units := 2 }

/-- A request for two units on which donor A's donation was completed at
instant `6`. -/
def sampleCompleted2 : BloodRequest :=
  { sampleRequest with
    units := 2
    donors := [{ donor := 1, status := DonorStatus.completed, respondedAt := 5,
                 completedAt := some 6 }] }

/-- Donor A's user document after that donation. -/
def donorAfterDonation : User :=
  { donorA with
    lastDonation := some 6
    donationHistory := [{ requestId := 7, donatedAt := 6, recipientId := 9 }] }

/-- The instant 91 days after instant `6`. -/
def ninetyOneDaysLater : Date := 6 + 91 * msPerDay

/-- A request body that omits the urgency. -/
def sampleBodyNoUrgency : CreateBody := { sampleBody1 with urgency := none }

/-- A distance function for the samples: every point is 4 km away. -/
def fourKm : Coordinates → Coordinates → Nat := fun _ _ => 4000

/-- The document `createBloodRequest` stores for `sampleBodyNoUrgency` at
instant `0` when every donor is 4 km away. -/
def sampleCreatedNoUrgency : BloodRequest :=
  { sampleCreated1 with urgency := "medium", expiresAt := 86400000, notifiedDonors := [] }

/-- A time zone with the same UTC offset at all times. -/
def fixedZone (offset : Int) : TimeZone :=
  { offsetAt := fun _ => offset, offsetOfLocal := fun _ => offset }

/-- A time zone that moves its clocks forward by one hour at UTC instant 5 h:
the offset is -5 h before and -4 h from then on, so the local clock jumps from
0 h to 1 h. -/
def springForwardZone : TimeZone :=
  { offsetAt := fun t => if t < 5 * msPerHour then -5 * msPerHour else -4 * msPerHour
    offsetOfLocal := fun wall =>
      if wall < 1 * msPerHour then -5 * msPerHour else -4 * msPerHour }

/-- The instant 20:00 local time on the evening before the clock change of
`springForwardZone`. -/
def eveningBefore : Date := 1 * msPerHour

/-- An instant 30 days after the clock change of `springForwardZone`. -/
def thirtyDaysAfter : Date := 5 * msPerHour + 30 * msPerDay

/-! ## Theorems -/

/-! ## The compatibility table -/

/-- C7: `getCompatibleDonors` returns the fixed table on the eight canonical
recipient groups; `O-` is in the result for each of the eight groups, and the
result for `AB+` contains all eight donor groups. -/
theorem getCompatibleDonors_table :
    getCompatibleDonors "A+" = JsValue.array ["A+", "A-", "O+", "O-"] ∧
    getCompatibleDonors "A-" = JsValue.array ["A-", "O-"] ∧
    getCompatibleDonors "B+" = JsValue.array ["B+", "B-", "O+", "O-"] ∧
    getCompatibleDonors "B-" = JsValue.array ["B-", "O-"] ∧
    getCompatibleDonors "AB+" =
      JsValue.array ["A+", "A-", "B+", "B-", "AB+", "AB-", "O+", "O-"] ∧
    getCompatibleDonors "AB-" = JsValue.array ["A-", "B-", "AB-", "O-"] ∧
    getCompatibleDonors "O+" = JsValue.array ["O+", "O-"] ∧
    getCompatibleDonors "O-" = JsValue.array ["O-"] ∧
    (∀ g ∈ bloodGroups, ∃ donors, getCompatibleDonors g = JsValue.array donors ∧
      "O-" ∈ donors) ∧
    (∃ donors, getCompatibleDonors "AB+" = JsValue.array donors ∧
      ∀ d ∈ bloodGroups, d ∈ donors) := by
  refine ⟨by decide, by decide, by decide, by decide, by decide, by decide, by decide,
    by decide, ?_, ?_⟩
  · intro g hg
    simp only [bloodGroups, List.mem_cons, List.mem_singleton, List.not_mem_nil,
      or_false] at hg
    rcases hg with h | h | h | h | h | h | h | h <;> subst h
    · exact ⟨_, rfl, by decide⟩
    · exact ⟨_, rfl, by decide⟩
    · exact ⟨_, rfl, by decide⟩
    · exact ⟨_, rfl, by decide⟩
    · exact ⟨_, rfl, by decide⟩
    · exact ⟨_, rfl, by decide⟩
    · exact ⟨_, rfl, by decide⟩
    · exact ⟨_, rfl, by decide⟩
  · exact ⟨_, rfl, by decide⟩

/-- C8, evaluated on the code: on the string `constructor`, which is no blood
group, the lookup finds the member inherited from `Object.prototype`, which is
truthy, so `getCompatibleDonors` returns it and not the empty list; the same
holds for `toString`.  On the empty string and on a lower-case variant the
result is the empty list. -/
theorem getCompatibleDonors_constructor :
    getCompatibleDonors "constructor" = JsValue.inherited "constructor" ∧
    getCompatibleDonors "constructor" ≠ JsValue.array [] ∧
    getCompatibleDonors "toString" ≠ JsValue.array [] ∧
    "constructor" ∉ bloodGroups ∧
    getCompatibleDonors "" = JsValue.array [] ∧
    getCompatibleDonors "a+" = JsValue.array [] := by
  decide

/-! ## Lists updated in place -/

theorem updateFirst_length {α : Type} (p : α → Bool) (f : α → α) (l : List α) :
    (updateFirst p f l).length = l.length := by
  induction l with
  | nil => rfl
  | cons x xs ih =>
    by_cases hx : p x = true <;> simp [updateFirst, hx, ih]

theorem updateFirst_map {α β : Type} (p : α → Bool) (f : α → α) (g : α → β)
    (hg : ∀ x, g (f x) = g x) (l : List α) :
    (updateFirst p f l).map g = l.map g := by
  induction l with
  | nil => rfl
  | cons x xs ih =>
    by_cases hx : p x = true <;> simp [updateFirst, hx, ih, hg]

theorem updateFirst_filter_eq {α : Type} (p q : α → Bool) (f : α → α)
    (hq : ∀ x, p x = true → q x = false ∧ q (f x) = false) (l : List α) :
    (updateFirst p f l).filter q = l.filter q := by
  induction l with
  | nil => rfl
  | cons x xs ih =>
    by_cases hx : p x = true
    · simp [updateFirst, hx, List.filter_cons, (hq x hx).1, (hq x hx).2]
    · simp [updateFirst, hx, List.filter_cons, ih]

theorem updateFirst_filter_length {α : Type} (p q : α → Bool) (f : α → α)
    (hq : ∀ x, p x = true → q (f x) = q x) (l : List α) :
    ((updateFirst p f l).filter q).length = (l.filter q).length := by
  induction l with
  | nil => rfl
  | cons x xs ih =>
    by_cases hx : p x = true
    · by_cases hqx : q x = true <;> simp [updateFirst, hx, List.filter_cons, hq x hx, hqx]
    · by_cases hqx : q x = true <;> simp [updateFirst, hx, List.filter_cons, ih, hqx]

theorem updateFirst_of_none {α : Type} (p : α → Bool) (f : α → α) (l : List α)
    (h : ∀ x ∈ l, p x = false) : updateFirst p f l = l := by
  induction l with
  | nil => rfl
  | cons x xs ih =>
    have hx : p x = false := h x (List.mem_cons_self _ _)
    have hxs : ∀ y ∈ xs, p y = false := fun y hy => h y (List.mem_cons_of_mem _ hy)
    simp [updateFirst, hx, ih hxs]

theorem updateFirst_getElem? {α : Type} (p : α → Bool) (f : α → α) (l : List α)
    (i : Nat) (x : α) (hx : l[i]? = some x) (hp : p x = false) :
    (updateFirst p f l)[i]? = some x := by
  induction l generalizing i with
  | nil => simp at hx
  | cons y ys ih =>
    cases i with
    | zero =>
      simp at hx
      subst hx
      simp [updateFirst, hp]
    | succ j =>
      simp at hx
      by_cases hy : p y = true
      · simp [updateFirst, hy, hx]
      · simp [updateFirst, hy, ih j hx]

/-- In a list without two entries for one donor, the entries of donor `d` after
an in-place update of the first of them are that updated entry alone. -/
theorem filter_updateFirst_donor (d : ObjectId) (f : DonorEntry → DonorEntry)
    (hf : ∀ x, (f x).donor = x.donor) (l : List DonorEntry)
    (hnd : (l.map (fun e => e.donor)).Nodup) (hex : ∃ x ∈ l, x.donor = d) :
    ∃ x ∈ l, x.donor = d ∧
      (updateFirst (fun e => e.donor == d) f l).filter (fun e => e.donor == d) = [f x] := by
  induction l with
  | nil => simp at hex
  | cons y ys ih =>
    simp only [List.map_cons, List.nodup_cons] at hnd
    by_cases hy : y.donor = d
    · refine ⟨y, List.mem_cons_self _ _, hy, ?_⟩
      have hnone : ys.filter (fun e => e.donor == d) = [] := by
        rw [List.filter_eq_nil_iff]
        intro a ha hda
        apply hnd.1
        simp only [beq_iff_eq] at hda
        rw [hy, ← hda]
        exact List.mem_map_of_mem _ ha
      simp [updateFirst, hy, List.filter_cons, hf, hnone]
    · have hex2 : ∃ x ∈ ys, x.donor = d := by
        obtain ⟨x, hx, hxd⟩ := hex
        rcases List.mem_cons.mp hx with h | h
        · exact absurd (h ▸ hxd) hy
        · exact ⟨x, h, hxd⟩
      obtain ⟨x, hx, hxd, hfil⟩ := ih hnd.2 hex2
      refine ⟨x, List.mem_cons_of_mem _ hx, hxd, ?_⟩
      simp [updateFirst, hy, List.filter_cons, hfil]

/-! ## `respondToBloodRequest` -/

theorem preSave_donors (now : Date) (r : BloodRequest) : (preSave now r).donors = r.donors := by
  unfold preSave
  split <;> rfl

theorem preSave_units (now : Date) (r : BloodRequest) : (preSave now r).units = r.units := by
  unfold preSave
  split <;> rfl

theorem preSave_expiresAt (now : Date) (r : BloodRequest) :
    (preSave now r).expiresAt = r.expiresAt := by
  unfold preSave
  split <;> rfl

theorem preSave_of_not_active (now : Date) (r : BloodRequest)
    (h : r.status ≠ RequestStatus.active) : preSave now r = r := by
  unfold preSave
  simp [h]

theorem preSave_of_live (now : Date) (r : BloodRequest) (h : now < r.expiresAt)
    (hs : r.status = RequestStatus.active) : preSave now r = r := by
  unfold preSave isExpired
  simp [hs, not_le.mpr h]

theorem preSave_of_stale (now : Date) (r : BloodRequest) (h : r.expiresAt ≤ now)
    (hs : r.status = RequestStatus.active) :
    preSave now r = { r with status := RequestStatus.expired } := by
  unfold preSave isExpired
  simp [hs, h]

theorem respondedDocument_donors (ctx : Ctx) (user : User) (response : String)
    (r : BloodRequest) :
    (respondedDocument ctx user response r).donors =
      upsertResponse ctx.now user._id response r.donors := by
  unfold respondedDocument
  simp only
  split <;> rfl

/-- The success path of `respondToBloodRequest`. -/
theorem respond_success (ctx : Ctx) (user : User) (response : String) (r : BloodRequest)
    (hresp : response = "accept" ∨ response = "decline")
    (hact : r.status = RequestStatus.active)
    (helig : response = "accept" → checkDonationEligibility ctx.now user = true) :
    respondToBloodRequest ctx user response r =
      { code := 200
        request := preSave ctx.now (respondedDocument ctx user response r)
        events := notifyRequesterOfResponse ctx
          (preSave ctx.now (respondedDocument ctx user response r)) user._id response } := by
  have h1 : ¬ response ∉ ["accept", "decline"] := by
    rcases hresp with h | h <;> simp [h]
  have h3 : ¬ (response = "accept" ∧ checkDonationEligibility ctx.now user = false) := by
    rintro ⟨ha, hb⟩
    rw [helig ha] at hb
    exact Bool.noConfusion hb
  unfold respondToBloodRequest respondedDocument
  rw [if_neg h1, if_neg (not_not.mpr hact), if_neg h3]

/-- A response answered with `200` was a well-formed response to an active
request, from an eligible donor if it was an accept. -/
theorem respond_code_200 (ctx : Ctx) (user : User) (response : String) (r : BloodRequest)
    (h : (respondToBloodRequest ctx user response r).code = 200) :
    (response = "accept" ∨ response = "decline") ∧ r.status = RequestStatus.active ∧
      (response = "accept" → checkDonationEligibility ctx.now user = true) := by
  unfold respondToBloodRequest at h
  split at h
  · simp at h
  · split at h
    · simp at h
    · split at h
      · simp at h
      · rename_i h1 h2 h3
        refine ⟨?_, not_not.mp h2, ?_⟩
        · have h1b : ¬ response = "accept" → response = "decline" := by simpa using h1
          by_cases ha : response = "accept"
          · exact Or.inl ha
          · exact Or.inr (h1b ha)
        · intro ha
          by_contra hc
          exact h3 ⟨ha, by simpa using hc⟩

/-- A request that is not active rejects every response and is not written. -/
theorem respond_of_not_active (ctx : Ctx) (user : User) (response : String)
    (r : BloodRequest) (hna : r.status ≠ RequestStatus.active) :
    respondToBloodRequest ctx user response r = { code := 400, request := r, events := [] } := by
  unfold respondToBloodRequest
  by_cases h1 : response ∉ ["accept", "decline"]
  · rw [if_pos h1]
  · rw [if_neg h1, if_pos hna]

/-- C5: a request whose status is fulfilled, cancelled or expired rejects every
response with `400`; the stored request is unchanged and no event is emitted. -/
theorem respond_terminal_rejected (ctx : Ctx) (user : User) (response : String)
    (r : BloodRequest)
    (hs : r.status = RequestStatus.fulfilled ∨ r.status = RequestStatus.cancelled ∨
      r.status = RequestStatus.expired) :
    respondToBloodRequest ctx user response r = { code := 400, request := r, events := [] } := by
  apply respond_of_not_active
  rcases hs with h | h | h <;> simp [h]

theorem upsertResponse_of_mem (now : Date) (donorId : ObjectId) (response : String)
    (l : List DonorEntry) (h : ∃ x ∈ l, x.donor = donorId) :
    upsertResponse now donorId response l =
      updateFirst (fun d => d.donor == donorId) (overwrite now response) l := by
  unfold upsertResponse
  cases hf : l.find? (fun d => d.donor == donorId) with
  | some _ => rfl
  | none =>
    obtain ⟨x, hx, hxd⟩ := h
    have := List.find?_eq_none.mp hf x hx
    simp [hxd] at this

theorem upsertResponse_of_not_mem (now : Date) (donorId : ObjectId) (response : String)
    (l : List DonorEntry) (h : ∀ x ∈ l, x.donor ≠ donorId) :
    upsertResponse now donorId response l =
      l ++ [{ donor := donorId, status := responseStatus response,
              respondedAt := now, completedAt := none }] := by
  unfold upsertResponse
  cases hf : l.find? (fun d => d.donor == donorId) with
  | none => rfl
  | some y =>
    have hy := List.find?_some hf
    have hmem := List.mem_of_find?_eq_some hf
    simp only [beq_iff_eq] at hy
    exact absurd hy (h y hmem)

/-- What the upsert does to a donors list without two entries for one donor. -/
theorem upsertResponse_spec (now : Date) (donorId : ObjectId) (response : String)
    (l : List DonorEntry) (hnd : (l.map (fun e => e.donor)).Nodup) :
    ((upsertResponse now donorId response l).map (fun e => e.donor)).Nodup ∧
    (∃ e, (upsertResponse now donorId response l).filter (fun e => e.donor == donorId) = [e] ∧
      e.status = responseStatus response) ∧
    (upsertResponse now donorId response l).filter (fun e => e.donor != donorId) =
      l.filter (fun e => e.donor != donorId) ∧
    (∀ (i : Nat) (x : DonorEntry), l[i]? = some x → x.donor ≠ donorId →
      (upsertResponse now donorId response l)[i]? = some x) ∧
    ((∃ x ∈ l, x.donor = donorId) →
      (upsertResponse now donorId response l).map (fun e => e.donor) =
        l.map (fun e => e.donor) ∧
      (upsertResponse now donorId response l).length = l.length) ∧
    ((∀ x ∈ l, x.donor ≠ donorId) →
      (upsertResponse now donorId response l).map (fun e => e.donor) =
        l.map (fun e => e.donor) ++ [donorId] ∧
      (upsertResponse now donorId response l).length = l.length + 1) := by
  by_cases hex : ∃ x ∈ l, x.donor = donorId
  · rw [upsertResponse_of_mem now donorId response l hex]
    have hmap : (updateFirst (fun d => d.donor == donorId) (overwrite now response) l).map
        (fun e => e.donor) = l.map (fun e => e.donor) :=
      updateFirst_map (fun d => d.donor == donorId) (overwrite now response)
        (fun e => e.donor) (fun _ => rfl) l
    refine ⟨by rw [hmap]; exact hnd, ?_, ?_, ?_, ?_, ?_⟩
    · obtain ⟨x, _, _, hfil⟩ :=
        filter_updateFirst_donor donorId (overwrite now response) (fun _ => rfl) l hnd hex
      exact ⟨_, hfil, rfl⟩
    · apply updateFirst_filter_eq
      intro x hx
      simp only [beq_iff_eq] at hx
      simp [overwrite, hx]
    · intro i x hx hxd
      apply updateFirst_getElem? _ _ _ _ _ hx
      simpa using hxd
    · intro _
      exact ⟨hmap, updateFirst_length _ _ _⟩
    · intro hno
      obtain ⟨x, hx, hxd⟩ := hex
      exact absurd hxd (hno x hx)
  · have hno : ∀ x ∈ l, x.donor ≠ donorId := fun x hx hxd => hex ⟨x, hx, hxd⟩
    rw [upsertResponse_of_not_mem now donorId response l hno]
    have hfil0 : l.filter (fun e => e.donor == donorId) = [] := by
      rw [List.filter_eq_nil_iff]
      intro a ha
      simpa using hno a ha
    refine ⟨?_, ?_, ?_, ?_, ?_, ?_⟩
    · rw [List.map_append, List.nodup_append]
      refine ⟨hnd, by simp, ?_⟩
      intro a ha hb
      simp only [List.map_cons, List.map_nil, List.mem_singleton] at hb
      obtain ⟨x, hx, hxa⟩ := List.mem_map.mp ha
      exact hno x hx (hxa.trans hb)
    · exact ⟨{ donor := donorId, status := responseStatus response,
               respondedAt := now, completedAt := none },
        by simp [List.filter_append, hfil0, List.filter_cons], rfl⟩
    · simp [List.filter_append, List.filter_cons]
    · intro i x hx _
      have hlt : i < l.length := by
        by_contra hge
        rw [List.getElem?_eq_none (not_lt.mp hge)] at hx
        exact Option.noConfusion hx
      rw [List.getElem?_append_left hlt]
      exact hx
    · intro h
      exact absurd h hex
    · intro _
      simp

/-- C6: a successful response by donor `d` on a donors list with at most one
entry per donor leaves at most one entry per donor and exactly one entry for
`d`, with status accepted for `accept` and declined for `decline`; the entries
of the other donors keep their value, position and relative order; the list of
donor ids is unchanged when `d` had an entry (overwrite in place, length + 0)
and is extended by `d` at the end otherwise (length + 1). -/
theorem respond_upsert_keyed_by_donor (ctx : Ctx) (user : User) (response : String)
    (r : BloodRequest)
    (hnd : (r.donors.map (fun e => e.donor)).Nodup)
    (hok : (respondToBloodRequest ctx user response r).code = 200) :
    (((respondToBloodRequest ctx user response r).request.donors).map
      (fun e => e.donor)).Nodup ∧
    (∃ e, ((respondToBloodRequest ctx user response r).request.donors).filter
        (fun e => e.donor == user._id) = [e] ∧
      (response = "accept" → e.status = DonorStatus.accepted) ∧
      (response = "decline" → e.status = DonorStatus.declined)) ∧
    ((respondToBloodRequest ctx user response r).request.donors).filter
        (fun e => e.donor != user._id) =
      r.donors.filter (fun e => e.donor != user._id) ∧
    (∀ (i : Nat) (x : DonorEntry), r.donors[i]? = some x → x.donor ≠ user._id →
      ((respondToBloodRequest ctx user response r).request.donors)[i]? = some x) ∧
    ((∃ x ∈ r.donors, x.donor = user._id) →
      ((respondToBloodRequest ctx user response r).request.donors).map (fun e => e.donor) =
        r.donors.map (fun e => e.donor) ∧
      ((respondToBloodRequest ctx user response r).request.donors).length =
        r.donors.length) ∧
    ((∀ x ∈ r.donors, x.donor ≠ user._id) →
      ((respondToBloodRequest ctx user response r).request.donors).map (fun e => e.donor) =
        r.donors.map (fun e => e.donor) ++ [user._id] ∧
      ((respondToBloodRequest ctx user response r).request.donors).length =
        r.donors.length + 1) := by
  obtain ⟨hresp, hact, helig⟩ := respond_code_200 ctx user response r hok
  have hd : (respondToBloodRequest ctx user response r).request.donors =
      upsertResponse ctx.now user._id response r.donors := by
    rw [respond_success ctx user response r hresp hact helig]
    simp only [preSave_donors, respondedDocument_donors]
  rw [hd]
  obtain ⟨h1, ⟨e, he, hst⟩, h3, h4, h5, h6⟩ :=
    upsertResponse_spec ctx.now user._id response r.donors hnd
  refine ⟨h1, ⟨e, he, ?_, ?_⟩, h3, h4, h5, h6⟩
  · intro ha
    rw [hst, ha]
    rfl
  · intro hdec
    rw [hst, hdec]
    rfl

/-! ## The unit quota on accept -/

theorem getExpiryDate_gt (now : Date) (urgency : Option String) :
    now < getExpiryDate now urgency := by
  unfold getExpiryDate
  split <;> simp [msPerHour]

/-- What `createBloodRequest` stores, whenever it stores a document. -/
theorem create_stored (ctx : Ctx) (users : List User)
    (dist : Coordinates → Coordinates → Nat) (newId caller : ObjectId) (body : CreateBody)
    (r0 : BloodRequest)
    (h : (createBloodRequest ctx users dist newId caller body).request = some r0) :
    r0.status = RequestStatus.active ∧ r0.donors = [] ∧ r0.units = body.units ∧
      1 ≤ r0.units ∧ r0.units ≤ 10 ∧
      r0.expiresAt = getExpiryDate ctx.now body.urgency ∧ ctx.now < r0.expiresAt := by
  have hlive : preSave ctx.now (newDocument ctx newId caller body) =
      newDocument ctx newId caller body :=
    preSave_of_live _ _ (getExpiryDate_gt _ _) rfl
  unfold createBloodRequest at h
  simp only [hlive] at h
  split at h
  · simp at h
  · rename_i hv
    have hu : validUnits body.units = true := by
      simp only [validate, newDocument, Bool.not_eq_true', Bool.not_eq_false,
        Bool.and_eq_true] at hv
      exact hv.1.1.1.2
    simp only [validUnits, Bool.and_eq_true, decide_eq_true_eq] at hu
    split at h
    · simp only [Option.some.injEq] at h
      subst h
      exact ⟨rfl, rfl, rfl, hu.1, hu.2, rfl, getExpiryDate_gt _ _⟩
    · simp only [Option.some.injEq] at h
      subst h
      rw [preSave_of_live _ _ (getExpiryDate_gt _ _) rfl]
      exact ⟨rfl, rfl, rfl, hu.1, hu.2, rfl, getExpiryDate_gt _ _⟩

theorem respondedDocument_units (ctx : Ctx) (user : User) (response : String)
    (r : BloodRequest) : (respondedDocument ctx user response r).units = r.units := by
  unfold respondedDocument
  simp only
  split <;> rfl

theorem respondedDocument_expiresAt (ctx : Ctx) (user : User) (response : String)
    (r : BloodRequest) : (respondedDocument ctx user response r).expiresAt = r.expiresAt := by
  unfold respondedDocument
  simp only
  split <;> rfl

/-- The status `respondToBloodRequest` hands to `save` for an accept on an
active request. -/
theorem respondedDocument_accept_status (ctx : Ctx) (user : User) (r : BloodRequest)
    (hact : r.status = RequestStatus.active) :
    (respondedDocument ctx user "accept" r).status =
      if r.units ≤ (acceptedDonors (upsertResponse ctx.now user._id "accept" r.donors)).length
      then RequestStatus.fulfilled else RequestStatus.active := by
  unfold respondedDocument
  simp only [true_and]
  split
  · rfl
  · exact hact

/-- An accept on a live request: the answer, the donors list and the status. -/
theorem accept_live (ctx : Ctx) (user : User) (r : BloodRequest)
    (hact : r.status = RequestStatus.active) (hlive : ctx.now < r.expiresAt)
    (helig : checkDonationEligibility ctx.now user = true) :
    (respondToBloodRequest ctx user "accept" r).code = 200 ∧
    (respondToBloodRequest ctx user "accept" r).request.donors =
      upsertResponse ctx.now user._id "accept" r.donors ∧
    (respondToBloodRequest ctx user "accept" r).request.units = r.units ∧
    (respondToBloodRequest ctx user "accept" r).request.expiresAt = r.expiresAt ∧
    (respondToBloodRequest ctx user "accept" r).request.status =
      if r.units ≤ (acceptedDonors (upsertResponse ctx.now user._id "accept" r.donors)).length
      then RequestStatus.fulfilled else RequestStatus.active := by
  rw [respond_success ctx user "accept" r (Or.inl rfl) hact (fun _ => helig)]
  refine ⟨rfl, ?_, ?_, ?_, ?_⟩
  · simp only [preSave_donors, respondedDocument_donors]
  · simp only [preSave_units, respondedDocument_units]
  · simp only [preSave_expiresAt, respondedDocument_expiresAt]
  · have hst := respondedDocument_accept_status ctx user r hact
    by_cases hq : r.units ≤
        (acceptedDonors (upsertResponse ctx.now user._id "accept" r.donors)).length
    · rw [if_pos hq] at hst ⊢
      rw [preSave_of_not_active _ _ (by rw [hst]; decide)]
      exact hst
    · rw [if_neg hq] at hst ⊢
      rw [preSave_of_live _ _ (by rw [respondedDocument_expiresAt]; exact hlive) hst]
      exact hst

theorem acceptedDonors_all (l : List DonorEntry)
    (h : ∀ d ∈ l, d.status = DonorStatus.accepted) : acceptedDonors l = l := by
  unfold acceptedDonors
  rw [List.filter_eq_self]
  intro d hd
  simp [h d hd]

/-- A run of accepts by new, distinct, eligible donors on a live request whose
entries are all accepted and which has room for every one of them. -/
theorem acceptAll_spec (steps : List (Ctx × User)) :
    ∀ r : BloodRequest, r.status = RequestStatus.active →
      (∀ d ∈ r.donors, d.status = DonorStatus.accepted) →
      (r.donors.map (fun e => e.donor) ++ steps.map (fun s => s.2._id)).Nodup →
      (∀ s ∈ steps, s.1.now < r.expiresAt ∧ checkDonationEligibility s.1.now s.2 = true) →
      r.donors.length + steps.length ≤ r.units →
      (r.donors.length + steps.length < r.units →
        (acceptAll steps r).status = RequestStatus.active) ∧
      (steps ≠ [] → r.donors.length + steps.length = r.units →
        (acceptAll steps r).status = RequestStatus.fulfilled) := by
  induction steps with
  | nil =>
    intro r hact _ _ _ _
    exact ⟨fun _ => hact, fun h => absurd rfl h⟩
  | cons s rest ih =>
    intro r hact hall hnd hsteps hroom
    have hs := hsteps s (List.mem_cons_self _ _)
    obtain ⟨_, hdon, hunits, hexp, hstat⟩ := accept_live s.1 s.2 r hact hs.1 hs.2
    have hnew : ∀ x ∈ r.donors, x.donor ≠ s.2._id := by
      intro x hx hxd
      rw [List.nodup_append] at hnd
      exact hnd.2.2 (List.mem_map_of_mem _ hx) (by simp [hxd])
    rw [upsertResponse_of_not_mem _ _ _ _ hnew] at hdon hstat
    have hall1 : ∀ d ∈ (respondToBloodRequest s.1 s.2 "accept" r).request.donors,
        d.status = DonorStatus.accepted := by
      intro d hd
      rw [hdon, List.mem_append] at hd
      rcases hd with hd | hd
      · exact hall d hd
      · rw [List.mem_singleton] at hd
        rw [hd]
        rfl
    rw [← hdon, acceptedDonors_all _ hall1, hdon] at hstat
    simp only [List.length_append, List.length_cons, List.length_nil, Nat.zero_add]
      at hstat hroom ⊢
    have hrun : acceptAll (s :: rest) r =
        acceptAll rest (respondToBloodRequest s.1 s.2 "accept" r).request := rfl
    rw [hrun]
    by_cases hfull : r.units ≤ r.donors.length + 1
    · have hrest : rest = [] := by
        apply List.eq_nil_of_length_eq_zero
        omega
      subst hrest
      rw [if_pos hfull] at hstat
      refine ⟨fun hlt => ?_, fun _ _ => hstat⟩
      simp only [List.length_nil] at hlt
      omega
    · rw [if_neg hfull] at hstat
      have hnd1 : ((respondToBloodRequest s.1 s.2 "accept" r).request.donors.map
          (fun e => e.donor) ++ rest.map (fun s => s.2._id)).Nodup := by
        rw [hdon]
        simpa using hnd
      have hsteps1 : ∀ t ∈ rest,
          t.1.now < (respondToBloodRequest s.1 s.2 "accept" r).request.expiresAt ∧
            checkDonationEligibility t.1.now t.2 = true := by
        intro t ht
        rw [hexp]
        exact hsteps t (List.mem_cons_of_mem _ ht)
      have hlen1 : (respondToBloodRequest s.1 s.2 "accept" r).request.donors.length =
          r.donors.length + 1 := by
        rw [hdon]
        simp
      have := ih (respondToBloodRequest s.1 s.2 "accept" r).request hstat hall1 hnd1 hsteps1
        (by rw [hlen1, hunits]; omega)
      rw [hlen1, hunits] at this
      refine ⟨fun hlt => this.1 (by omega), fun _ heq => this.2 ?_ (by omega)⟩
      intro hnil
      subst hnil
      simp only [List.length_nil] at heq
      omega

/-- C1: an accept by an eligible donor on an active, not-yet-expired request is
answered with success and leaves the request fulfilled if, after the upsert,
the number of accepted or completed entries is at least `units`, and active
otherwise.  On a freshly created request with `units = n`, accepts by `n`
distinct eligible donors before expiry leave it active after each of the first
`n - 1` and fulfilled after the `n`-th. -/
theorem accept_quota_rule :
    (∀ (ctx : Ctx) (user : User) (r : BloodRequest),
      r.status = RequestStatus.active → ctx.now < r.expiresAt →
      checkDonationEligibility ctx.now user = true →
      (respondToBloodRequest ctx user "accept" r).code = 200 ∧
      (respondToBloodRequest ctx user "accept" r).request.donors =
        upsertResponse ctx.now user._id "accept" r.donors ∧
      (respondToBloodRequest ctx user "accept" r).request.status =
        if r.units ≤
          (acceptedDonors (respondToBloodRequest ctx user "accept" r).request.donors).length
        then RequestStatus.fulfilled else RequestStatus.active) ∧
    (∀ (ctx : Ctx) (users : List User) (dist : Coordinates → Coordinates → Nat)
      (newId caller : ObjectId) (body : CreateBody) (r0 : BloodRequest)
      (steps : List (Ctx × User)),
      (createBloodRequest ctx users dist newId caller body).request = some r0 →
      (steps.map (fun s => s.2._id)).Nodup →
      (∀ s ∈ steps, s.1.now < r0.expiresAt ∧ checkDonationEligibility s.1.now s.2 = true) →
      steps.length = r0.units →
      1 ≤ r0.units ∧
      (∀ k, k < r0.units → (acceptAll (steps.take k) r0).status = RequestStatus.active) ∧
      (acceptAll steps r0).status = RequestStatus.fulfilled) := by
  constructor
  · intro ctx user r hact hlive helig
    obtain ⟨hc, hd, _, _, hs⟩ := accept_live ctx user r hact hlive helig
    refine ⟨hc, hd, ?_⟩
    rw [hs, hd]
  · intro ctx users dist newId caller body r0 steps hcreate hnd hsteps hlen
    obtain ⟨hact, hdon, _, hpos, _, _, _⟩ :=
      create_stored ctx users dist newId caller body r0 hcreate
    refine ⟨hpos, ?_, ?_⟩
    · intro k hk
      have hndk : (r0.donors.map (fun e => e.donor) ++
          (steps.take k).map (fun s => s.2._id)).Nodup := by
        rw [hdon]
        simp only [List.map_nil, List.nil_append, List.map_take]
        exact (List.take_sublist k _).nodup hnd
      have hlk : (steps.take k).length = k := by
        rw [List.length_take]
        omega
      refine (acceptAll_spec (steps.take k) r0 hact (by simp [hdon]) hndk
        (fun s hs => hsteps s (List.mem_of_mem_take hs)) ?_).1 ?_
      · rw [hdon, hlk]
        simp only [List.length_nil]
        omega
      · rw [hdon, hlk]
        simp only [List.length_nil]
        omega
    · have hne : steps ≠ [] := by
        intro hnil
        subst hnil
        simp only [List.length_nil] at hlen
        omega
      refine (acceptAll_spec steps r0 hact (by simp [hdon]) (by simpa [hdon] using hnd)
        hsteps ?_).2 hne ?_
      · rw [hdon, hlen]
        simp
      · rw [hdon, hlen]
        simp

/-- Witness for C1: on the request created for two units, the
accept of donor A leaves it active and the accept of donor B fulfils it. -/
theorem accept_quota_rule_witness :
    ((respondToBloodRequest (ctxAt 5) donorA "accept" sampleRequest).code = 200 ∧
      (respondToBloodRequest (ctxAt 5) donorA "accept" sampleRequest).request.status =
        RequestStatus.fulfilled) ∧
    (∀ k, k < sampleCreated2.units →
      (acceptAll (sampleSteps.take k) sampleCreated2).status = RequestStatus.active) ∧
    (acceptAll sampleSteps sampleCreated2).status = RequestStatus.fulfilled := by
  constructor
  · have h := accept_quota_rule.1 (ctxAt 5) donorA sampleRequest (by decide) (by decide)
      (by decide)
    exact ⟨h.1, by decide⟩
  · exact (accept_quota_rule.2 (ctxAt 0) [donorA, donorB] zeroDist 7 9 sampleBody2
      sampleCreated2 sampleSteps (by decide) (by decide) (by decide) (by decide)).2

/-! ## Fulfilment and the quota -/

theorem preSave_fulfilled (now : Date) (r : BloodRequest)
    (h : (preSave now r).status = RequestStatus.fulfilled) : preSave now r = r := by
  unfold preSave at h ⊢
  split
  · rename_i hc
    rw [if_pos hc] at h
    exact RequestStatus.noConfusion h
  · rfl

theorem applyUpdate_status (ctx : Ctx) (body : UpdateBody) (r : BloodRequest) :
    (applyUpdate ctx body r).status = r.status := by
  unfold applyUpdate
  simp only
  split <;> rfl

theorem respond_quotaMet (ctx : Ctx) (user : User) (response : String) (r : BloodRequest)
    (h : QuotaMet r) : QuotaMet (respondToBloodRequest ctx user response r).request := by
  unfold respondToBloodRequest
  split
  · exact h
  · split
    · exact h
    · split
      · exact h
      · rename_i _ hact _
        intro hf
        simp only at hf ⊢
        have hp := preSave_fulfilled _ _ hf
        rw [hp] at hf ⊢
        split at hf
        · rename_i hq
          rw [if_pos hq]
          exact hq.2
        · simp only at hf
          rw [not_not.mp hact] at hf
          exact RequestStatus.noConfusion hf

theorem update_quotaMet (ctx : Ctx) (caller : ObjectId) (body : UpdateBody)
    (r : BloodRequest) (h : QuotaMet r) :
    QuotaMet (updateBloodRequest ctx caller body r).request := by
  unfold updateBloodRequest
  split
  · exact h
  · split
    · exact h
    · dsimp only
      split
      · exact h
      · rename_i _ hterm _
        intro hf
        simp only at hf
        have hp := preSave_fulfilled _ _ hf
        rw [hp, applyUpdate_status] at hf
        exact absurd (Or.inl hf) hterm

theorem cancel_quotaMet (ctx : Ctx) (caller : ObjectId) (r : BloodRequest)
    (h : QuotaMet r) : QuotaMet (cancelBloodRequest ctx caller r).request := by
  unfold cancelBloodRequest
  split
  · exact h
  · split
    · exact h
    · intro hf
      simp only at hf
      rw [preSave_of_not_active _ _ (by simp)] at hf
      exact RequestStatus.noConfusion hf

/-- Completing an accepted entry keeps the number of accepted-or-completed
entries. -/
theorem acceptedDonors_complete (now : Date) (donorId : ObjectId) (l : List DonorEntry) :
    (acceptedDonors (updateFirst (isAcceptedBy donorId)
      (fun d => { d with status := DonorStatus.completed, completedAt := some now }) l)).length =
      (acceptedDonors l).length := by
  unfold acceptedDonors
  apply updateFirst_filter_length
  intro x hx
  simp only [isAcceptedBy, Bool.and_eq_true, beq_iff_eq] at hx
  simp [hx.2]

theorem completed_le_accepted (l : List DonorEntry) :
    (l.filter (fun d => d.status == DonorStatus.completed)).length ≤
      (acceptedDonors l).length := by
  unfold acceptedDonors
  apply List.Sublist.length_le
  apply List.monotone_filter_right
  intro a ha
  simp only [beq_iff_eq] at ha
  simp [ha]

theorem complete_quotaMet (ctx : Ctx) (users : List User) (caller donorId : ObjectId)
    (r : BloodRequest) (h : QuotaMet r) :
    QuotaMet (completeDonation ctx users caller donorId r).request := by
  unfold completeDonation
  split
  · exact h
  · split
    · exact h
    · intro hf
      simp only at hf ⊢
      have hp := preSave_fulfilled _ _ hf
      rw [hp] at hf ⊢
      split at hf
      · rename_i hq
        rw [if_pos hq]
        simp only at hq ⊢
        exact le_trans hq (completed_le_accepted _)
      · rename_i hq
        rw [if_neg hq]
        simp only at hf ⊢
        rw [acceptedDonors_complete]
        exact h hf

theorem apply_quotaMet (op : Op) (r : BloodRequest) (h : QuotaMet r) :
    QuotaMet (op.apply r) := by
  cases op with
  | respond ctx user response => exact respond_quotaMet ctx user response r h
  | complete ctx users caller donorId => exact complete_quotaMet ctx users caller donorId r h
  | update ctx caller body => exact update_quotaMet ctx caller body r h
  | cancel ctx caller => exact cancel_quotaMet ctx caller r h

theorem run_quotaMet (ops : List Op) : ∀ r : BloodRequest, QuotaMet r → QuotaMet (run ops r) := by
  induction ops with
  | nil => exact fun _ h => h
  | cons op rest ih => exact fun r h => ih (op.apply r) (apply_quotaMet op r h)

/-- C2, as stated, fails: the request created for one unit is fulfilled by one
accept, with no completed entry. -/
theorem fulfilled_without_completed_entry :
    (createBloodRequest (ctxAt 0) [donorA, donorB] zeroDist 7 9 sampleBody1).request =
      some sampleCreated1 ∧
    (run [Op.respond (ctxAt 5) donorA "accept"] sampleCreated1).status =
      RequestStatus.fulfilled ∧
    getFulfilledUnits (run [Op.respond (ctxAt 5) donorA "accept"] sampleCreated1) = 0 ∧
    (run [Op.respond (ctxAt 5) donorA "accept"] sampleCreated1).units = 1 := by
  decide

/-- C2, amended: in every state reachable from `createBloodRequest` by respond,
complete, edit and cancel calls, a fulfilled request has at least `units` donor
entries whose status is accepted or completed. -/
theorem fulfilled_implies_accepted_quota (ctx : Ctx) (users : List User)
    (dist : Coordinates → Coordinates → Nat) (newId caller : ObjectId) (body : CreateBody)
    (r0 : BloodRequest) (ops : List Op)
    (hcreate : (createBloodRequest ctx users dist newId caller body).request = some r0)
    (hf : (run ops r0).status = RequestStatus.fulfilled) :
    (run ops r0).units ≤ (acceptedDonors (run ops r0).donors).length := by
  have h0 : QuotaMet r0 := by
    intro hful
    rw [(create_stored ctx users dist newId caller body r0 hcreate).1] at hful
    exact RequestStatus.noConfusion hful
  exact run_quotaMet ops r0 h0 hf

/-- Witness for C2, amended: the sample request after one
accept. -/
theorem fulfilled_implies_accepted_quota_witness :
    (run [Op.respond (ctxAt 5) donorA "accept"] sampleCreated1).units ≤
      (acceptedDonors (run [Op.respond (ctxAt 5) donorA "accept"] sampleCreated1).donors).length :=
  fulfilled_implies_accepted_quota (ctxAt 0) [donorA, donorB] zeroDist 7 9 sampleBody1
    sampleCreated1 [Op.respond (ctxAt 5) donorA "accept"] (by decide) (by decide)

/-! ## Terminal states -/

/-- Witness for C5: an accept on a cancelled request. -/
theorem respond_terminal_rejected_witness :
    respondToBloodRequest (ctxAt 5) donorA "accept"
      { sampleRequest with status := RequestStatus.cancelled } =
      { code := 400, request := { sampleRequest with status := RequestStatus.cancelled },
        events := [] } :=
  respond_terminal_rejected (ctxAt 5) donorA "accept"
    { sampleRequest with status := RequestStatus.cancelled } (Or.inr (Or.inl rfl))

/-- Witness for C6: donor A declines and then
accepts; the list keeps one entry, now accepted. -/
theorem respond_upsert_keyed_by_donor_witness :
    ∃ e, ((respondToBloodRequest (ctxAt 6) donorA "accept"
        { sampleRequest with
          donors := [{ donor := 1, status := DonorStatus.declined, respondedAt := 5,
                       completedAt := none }] }).request.donors).filter
        (fun e => e.donor == donorA._id) = [e] ∧
      (("accept" : String) = "accept" → e.status = DonorStatus.accepted) ∧
      (("accept" : String) = "decline" → e.status = DonorStatus.declined) :=
  (respond_upsert_keyed_by_donor (ctxAt 6) donorA "accept"
    { sampleRequest with
      donors := [{ donor := 1, status := DonorStatus.declined, respondedAt := 5,
                   completedAt := none }] } (by decide) (by decide)).2.1

/-! ## A response after the expiry date -/

/-- C4, as stated, fails: an accept on an active request at its expiry instant
is answered with success, changes the donors list and leaves the request
fulfilled. -/
theorem stale_accept_fulfils :
    sampleRequest.status = RequestStatus.active ∧
    sampleRequest.expiresAt ≤ (ctxAt 100).now ∧
    (respondToBloodRequest (ctxAt 100) donorA "accept" sampleRequest).code = 200 ∧
    (respondToBloodRequest (ctxAt 100) donorA "accept" sampleRequest).request.donors ≠
      sampleRequest.donors ∧
    (respondToBloodRequest (ctxAt 100) donorA "accept" sampleRequest).request.status =
      RequestStatus.fulfilled := by
  decide

/-- C4, amended: on a request with stored status active and `expiresAt <= now`,
a decline, or an accept by an eligible donor, is answered with success and
upserts the donor entry as on a live request; the request is stored with status
expired, unless the response is an accept that brings the number of accepted or
completed entries to `units`, in which case it is stored fulfilled.  An accept
by an ineligible donor is rejected with `400` and the stored request is
unchanged. -/
theorem respond_stale (ctx : Ctx) (user : User) (response : String) (r : BloodRequest)
    (hact : r.status = RequestStatus.active) (hstale : r.expiresAt ≤ ctx.now)
    (hresp : response = "accept" ∨ response = "decline") :
    ((response = "accept" → checkDonationEligibility ctx.now user = true) →
      (respondToBloodRequest ctx user response r).code = 200 ∧
      (respondToBloodRequest ctx user response r).request.donors =
        upsertResponse ctx.now user._id response r.donors ∧
      (respondToBloodRequest ctx user response r).request.status =
        if response = "accept" ∧ r.units ≤
          (acceptedDonors (respondToBloodRequest ctx user response r).request.donors).length
        then RequestStatus.fulfilled else RequestStatus.expired) ∧
    (response = "accept" → checkDonationEligibility ctx.now user = false →
      respondToBloodRequest ctx user response r =
        { code := 400, request := r, events := [] }) := by
  constructor
  · intro helig
    rw [respond_success ctx user response r hresp hact helig]
    refine ⟨rfl, ?_, ?_⟩
    · simp only [preSave_donors, respondedDocument_donors]
    · simp only [preSave_donors, respondedDocument_donors]
      by_cases hq : response = "accept" ∧
          r.units ≤ (acceptedDonors (upsertResponse ctx.now user._id response r.donors)).length
      · have hst : (respondedDocument ctx user response r).status =
            RequestStatus.fulfilled := by
          unfold respondedDocument
          simp only
          rw [if_pos hq]
        rw [if_pos hq, preSave_of_not_active _ _ (by rw [hst]; decide)]
        exact hst
      · have hst : (respondedDocument ctx user response r).status = RequestStatus.active := by
          unfold respondedDocument
          simp only
          rw [if_neg hq]
          exact hact
        rw [if_neg hq, preSave_of_stale _ _
          (by rw [respondedDocument_expiresAt]; exact hstale) hst]
  · intro ha hne
    have h1 : ¬ response ∉ ["accept", "decline"] := by simp [ha]
    unfold respondToBloodRequest
    rw [if_neg h1, if_neg (not_not.mpr hact), if_pos ⟨ha, hne⟩]

/-- Witness for C4, amended: a decline at the expiry instant succeeds and the
request is stored expired. -/
theorem respond_stale_witness :
    (respondToBloodRequest (ctxAt 100) donorA "decline" sampleRequest).code = 200 ∧
    (respondToBloodRequest (ctxAt 100) donorA "decline" sampleRequest).request.status =
      RequestStatus.expired := by
  have h := (respond_stale (ctxAt 100) donorA "decline" sampleRequest (by decide)
    (by decide) (Or.inr rfl)).1 (by decide)
  exact ⟨h.1, by decide⟩

/-! ## The Donor Locator -/

theorem getCompatibleDonors_canonical (g : String) (hg : g ∈ bloodGroups) :
    ∃ groups, getCompatibleDonors g = JsValue.array groups := by
  simp only [bloodGroups, List.mem_cons, List.mem_singleton, List.not_mem_nil,
    or_false] at hg
  rcases hg with h | h | h | h | h | h | h | h <;> subst h <;> exact ⟨_, rfl⟩

theorem findPotentialDonors_of_array (users : List User)
    (dist : Coordinates → Coordinates → Nat) (g : String) (p : Coordinates) (km : Nat)
    (groups : List String) (hg : getCompatibleDonors g = JsValue.array groups) :
    findPotentialDonors users dist g p km =
      some ((users.filter (isCandidate dist groups p km)).insertionSort
        (fun a b => dist a.coordinates p ≤ dist b.coordinates p)) := by
  unfold findPotentialDonors
  simp only [hg, inOperand]
  rfl

theorem preSave_notifiedDonors (now : Date) (r : BloodRequest) :
    (preSave now r).notifiedDonors = r.notifiedDonors := by
  unfold preSave
  split <;> rfl

/-- The success path of `createBloodRequest`. -/
theorem create_of_found (ctx : Ctx) (users : List User)
    (dist : Coordinates → Coordinates → Nat) (newId caller : ObjectId) (body : CreateBody)
    (found : List User) (hvalid : validate (newDocument ctx newId caller body) = true)
    (hfind : findPotentialDonors users dist body.bloodGroup body.hospital.coordinates
      (getRadiusByUrgency body.urgency) = some found) :
    createBloodRequest ctx users dist newId caller body =
      { code := 201
        request := some (preSave ctx.now
          { preSave ctx.now (newDocument ctx newId caller body) with
            notifiedDonors := found.map (fun d => d._id) })
        potentialDonorsCount := found.length
        events := notifyDonors ctx found (preSave ctx.now
          { preSave ctx.now (newDocument ctx newId caller body) with
            notifiedDonors := found.map (fun d => d._id) }) } := by
  unfold createBloodRequest
  simp only [hvalid, hfind]
  rfl

/-- C9: when `createBloodRequest` succeeds, the candidates it computes are
exactly the users with `isDonor`, `isEligibleToDonate`, a blood group in
`getCompatibleDonors` of the requested group, and a distance to the hospital
point of at most `getRadiusByUrgency(urgency) * 1000` metres, where the radius
is 10, 7, 5, 3 km for critical, high, medium, low; the list is a permutation of
all the matching users (no cap) and becomes `notifiedDonors`; for group `O-`
every candidate has group `O-`. -/
theorem donor_locator_candidates (ctx : Ctx) (users : List User)
    (dist : Coordinates → Coordinates → Nat) (newId caller : ObjectId) (body : CreateBody)
    (hok : (createBloodRequest ctx users dist newId caller body).code = 201) :
    ∃ (groups : List String) (found : List User) (r0 : BloodRequest),
      getCompatibleDonors body.bloodGroup = JsValue.array groups ∧
      findPotentialDonors users dist body.bloodGroup body.hospital.coordinates
        (getRadiusByUrgency body.urgency) = some found ∧
      (createBloodRequest ctx users dist newId caller body).request = some r0 ∧
      r0.notifiedDonors = found.map (fun d => d._id) ∧
      (createBloodRequest ctx users dist newId caller body).potentialDonorsCount =
        found.length ∧
      (∀ u : User, u ∈ found ↔
        (u ∈ users ∧ u.isDonor = true ∧ u.isEligibleToDonate = true ∧
          u.bloodGroup ∈ groups ∧
          dist u.coordinates body.hospital.coordinates ≤
            getRadiusByUrgency body.urgency * 1000)) ∧
      found.Perm (users.filter (isCandidate dist groups body.hospital.coordinates
        (getRadiusByUrgency body.urgency))) ∧
      (body.bloodGroup = "O-" → ∀ u ∈ found, u.bloodGroup = "O-") ∧
      getRadiusByUrgency (some "critical") = 10 ∧ getRadiusByUrgency (some "high") = 7 ∧
      getRadiusByUrgency (some "medium") = 5 ∧ getRadiusByUrgency (some "low") = 3 := by
  have hvalid : validate (newDocument ctx newId caller body) = true := by
    by_contra hv
    unfold createBloodRequest at hok
    simp only [hv] at hok
    simp at hok
  have hgroup : body.bloodGroup ∈ bloodGroups := by
    simp only [validate, newDocument, Bool.and_eq_true, decide_eq_true_eq] at hvalid
    exact hvalid.1.1.1.1.2
  obtain ⟨groups, hgroups⟩ := getCompatibleDonors_canonical body.bloodGroup hgroup
  have hfind := findPotentialDonors_of_array users dist body.bloodGroup
    body.hospital.coordinates (getRadiusByUrgency body.urgency) groups hgroups
  have hperm := List.perm_insertionSort
    (fun a b : User => dist a.coordinates body.hospital.coordinates ≤
      dist b.coordinates body.hospital.coordinates)
    (users.filter (isCandidate dist groups body.hospital.coordinates
      (getRadiusByUrgency body.urgency)))
  have hmem : ∀ u : User,
      u ∈ (users.filter (isCandidate dist groups body.hospital.coordinates
        (getRadiusByUrgency body.urgency))).insertionSort
        (fun a b => dist a.coordinates body.hospital.coordinates ≤
          dist b.coordinates body.hospital.coordinates) ↔
      (u ∈ users ∧ u.isDonor = true ∧ u.isEligibleToDonate = true ∧
        u.bloodGroup ∈ groups ∧
        dist u.coordinates body.hospital.coordinates ≤
          getRadiusByUrgency body.urgency * 1000) := by
    intro u
    rw [hperm.mem_iff, List.mem_filter]
    simp only [isCandidate, Bool.and_eq_true, decide_eq_true_eq]
    tauto
  have hcreate := create_of_found ctx users dist newId caller body _ hvalid hfind
  refine ⟨groups, _, _, hgroups, hfind, congrArg CreateOutcome.request hcreate, ?_,
    congrArg CreateOutcome.potentialDonorsCount hcreate, hmem, hperm, ?_, rfl, rfl, rfl, rfl⟩
  · rw [preSave_notifiedDonors]
  · intro hO u hu
    rw [hO] at hgroups
    have hg2 : groups = ["O-"] := by
      have : getCompatibleDonors "O-" = JsValue.array ["O-"] := by decide
      rw [this] at hgroups
      exact (JsValue.array.inj hgroups).symm
    have := ((hmem u).mp hu).2.2.2.1
    rw [hg2] at this
    simpa using this

/-- Witness for C9: the request for group `O-`. -/
theorem donor_locator_candidates_witness :
    ∃ (groups : List String) (found : List User) (r0 : BloodRequest),
      getCompatibleDonors "O-" = JsValue.array groups ∧
      findPotentialDonors [donorA, donorB] zeroDist "O-" (0, 0) 10 = some found ∧
      (createBloodRequest (ctxAt 0) [donorA, donorB] zeroDist 7 9
        { sampleBody1 with bloodGroup := "O-" }).request = some r0 ∧
      r0.notifiedDonors = found.map (fun d => d._id) ∧
      (∀ u ∈ found, u.bloodGroup = "O-") := by
  obtain ⟨groups, found, r0, h1, h2, h3, h4, _, _, _, h8, _⟩ :=
    donor_locator_candidates (ctxAt 0) [donorA, donorB] zeroDist 7 9
      { sampleBody1 with bloodGroup := "O-" } (by decide)
  exact ⟨groups, found, r0, h1, h2, h3, h4, h8 rfl⟩

/-! ## Edits -/

theorem applyUpdate_expiresAt (ctx : Ctx) (body : UpdateBody) (r : BloodRequest) :
    (applyUpdate ctx body r).expiresAt = r.expiresAt := by
  unfold applyUpdate
  simp only
  split
  · rename_i hc
    exfalso
    simp only [Bool.and_eq_true, bne_iff_ne, ne_eq] at hc
    obtain ⟨ht, hne⟩ := hc
    apply hne
    cases hb : body.urgency with
    | none => simp [hb, truthyStr] at ht
    | some u =>
      simp only [hb, truthyStr, bne_iff_ne, ne_eq] at ht
      simp [orStr, ht]
  · rfl

/-- C13, evaluated on the code: the requester edits an active request of
urgency `critical`, expiring at instant `100`, at instant `5` with urgency `high`.
The edit succeeds and stores urgency `high`, but `expiresAt` stays `100` and is
not `5` plus six hours: the test `req.body.urgency !== bloodRequest.urgency`
runs after `bloodRequest.urgency` has been assigned.  No edit changes
`expiresAt`. -/
theorem update_never_rederives_expiry :
    (updateBloodRequest (ctxAt 5) 9 sampleUrgencyEdit sampleRequest).code = 200 ∧
    sampleRequest.urgency = "critical" ∧
    (updateBloodRequest (ctxAt 5) 9 sampleUrgencyEdit sampleRequest).request.urgency = "high" ∧
    (updateBloodRequest (ctxAt 5) 9 sampleUrgencyEdit sampleRequest).request.expiresAt = 100 ∧
    getExpiryDate (ctxAt 5).now (some "high") = 21600005 ∧
    (∀ (ctx : Ctx) (caller : ObjectId) (body : UpdateBody) (r : BloodRequest),
      (updateBloodRequest ctx caller body r).request.expiresAt = r.expiresAt) := by
  refine ⟨by decide, by decide, by decide, by decide, by decide, ?_⟩
  intro ctx caller body r
  unfold updateBloodRequest
  split
  · rfl
  · split
    · rfl
    · dsimp only
      split
      · rfl
      · simp only [preSave_expiresAt, applyUpdate_expiresAt]

/-! ## Reading a request -/

/-- C14, as stated, fails: a stored request with status active whose expiry
date has passed is returned with status active. -/
theorem read_returns_stale_active :
    sampleRequest.status = RequestStatus.active ∧
    sampleRequest.expiresAt ≤ (ctxAt 200).now ∧
    isExpired (ctxAt 200).now sampleRequest = true ∧
    getBloodRequestById [sampleRequest] 7 = { code := 200, body := some sampleRequest } := by
  decide

/-- C14, amended: `getBloodRequestById` returns every stored request it finds
as it is stored, so the returned status equals the stored status whatever the
expiry date; an active request past its expiry date is returned with status
active. -/
theorem read_returns_stored (requests : List BloodRequest) (id : ObjectId)
    (r : BloodRequest) (hfound : BloodRequest.findById requests id = some r) :
    getBloodRequestById requests id = { code := 200, body := some r } ∧
    (∀ now : Date, r.status = RequestStatus.active → r.expiresAt ≤ now →
      ∃ b, (getBloodRequestById requests id).body = some b ∧
        b.status = RequestStatus.active) := by
  have h : getBloodRequestById requests id = { code := 200, body := some r } := by
    unfold getBloodRequestById
    rw [hfound]
  refine ⟨h, ?_⟩
  intro now hact _
  exact ⟨r, by rw [h], hact⟩

/-- Witness for C14, amended: the sample request read after its expiry date. -/
theorem read_returns_stored_witness :
    ∃ b, (getBloodRequestById [sampleRequest] 7).body = some b ∧
      b.status = RequestStatus.active :=
  (read_returns_stored [sampleRequest] 7 sampleRequest (by decide)).2 200
    (by decide) (by decide)

/-! ## Owner-only operations and state conflicts -/

/-- C18: for a caller who is not the requester, `updateBloodRequest`,
`cancelBloodRequest` and `completeDonation` answer `401`; the stored request and
the user collection are unchanged and no event is emitted. -/
theorem not_owner_rejected (ctx : Ctx) (users : List User) (caller donorId : ObjectId)
    (body : UpdateBody) (r : BloodRequest) (hne : caller ≠ r.requester) :
    updateBloodRequest ctx caller body r = { code := 401, request := r, events := [] } ∧
    cancelBloodRequest ctx caller r = { code := 401, request := r, events := [] } ∧
    completeDonation ctx users caller donorId r =
      { code := 401, request := r, users := users } := by
  have h : r.requester ≠ caller := Ne.symm hne
  refine ⟨?_, ?_, ?_⟩
  · unfold updateBloodRequest
    rw [if_pos h]
  · unfold cancelBloodRequest
    rw [if_pos h]
  · unfold completeDonation
    rw [if_pos h]

/-- Witness for C18: donor A, who is not the requester, tries to cancel. -/
theorem not_owner_rejected_witness :
    cancelBloodRequest (ctxAt 5) 1 sampleRequest =
      { code := 401, request := sampleRequest, events := [] } :=
  (not_owner_rejected (ctxAt 5) [donorA] 1 1 sampleUrgencyEdit sampleRequest (by decide)).2.1

/-- C19: `cancelBloodRequest` by the requester on a fulfilled or already
cancelled request, and `updateBloodRequest` by the requester on a fulfilled,
cancelled or expired request, answer `400`; the stored request is unchanged and
no event is emitted. -/
theorem state_conflict_rejected (ctx : Ctx) (body : UpdateBody) (r : BloodRequest) :
    ((r.status = RequestStatus.fulfilled ∨ r.status = RequestStatus.cancelled) →
      cancelBloodRequest ctx r.requester r = { code := 400, request := r, events := [] }) ∧
    ((r.status = RequestStatus.fulfilled ∨ r.status = RequestStatus.cancelled ∨
        r.status = RequestStatus.expired) →
      updateBloodRequest ctx r.requester body r =
        { code := 400, request := r, events := [] }) := by
  constructor
  · intro hs
    unfold cancelBloodRequest
    rw [if_neg (not_not.mpr rfl), if_pos hs]
  · intro hs
    unfold updateBloodRequest
    rw [if_neg (not_not.mpr rfl), if_pos hs]

/-- Witness for C19: a second cancel, and an edit of an expired request. -/
theorem state_conflict_rejected_witness :
    cancelBloodRequest (ctxAt 5) 9 (sampleAccepted RequestStatus.cancelled) =
      { code := 400, request := sampleAccepted RequestStatus.cancelled, events := [] } ∧
    updateBloodRequest (ctxAt 5) 9 sampleUrgencyEdit (sampleAccepted RequestStatus.expired) =
      { code := 400, request := sampleAccepted RequestStatus.expired, events := [] } :=
  ⟨(state_conflict_rejected (ctxAt 5) sampleUrgencyEdit
      (sampleAccepted RequestStatus.cancelled)).1 (Or.inr rfl),
   (state_conflict_rejected (ctxAt 5) sampleUrgencyEdit
      (sampleAccepted RequestStatus.expired)).2 (Or.inr (Or.inr rfl))⟩

/-! ## `completeDonation` -/

/-- The entry an in-place update changes: the first one that satisfies the test;
every other position keeps its element. -/
theorem updateFirst_at {α : Type} (p : α → Bool) (f : α → α) (l : List α)
    (h : ∃ x ∈ l, p x = true) :
    ∃ (i : Nat) (e : α), l[i]? = some e ∧ p e = true ∧
      (∀ (j : Nat) (x : α), j < i → l[j]? = some x → p x = false) ∧
      (updateFirst p f l)[i]? = some (f e) ∧
      (∀ j : Nat, j ≠ i → (updateFirst p f l)[j]? = l[j]?) := by
  induction l with
  | nil => simp at h
  | cons y ys ih =>
    by_cases hy : p y = true
    · refine ⟨0, y, by simp, hy, ?_, by simp [updateFirst, hy], ?_⟩
      · intro j x hj
        exact absurd hj (Nat.not_lt_zero j)
      · intro j hj
        cases j with
        | zero => exact absurd rfl hj
        | succ k => simp [updateFirst, hy]
    · have hex : ∃ x ∈ ys, p x = true := by
        obtain ⟨x, hx, hpx⟩ := h
        rcases List.mem_cons.mp hx with hxy | hxy
        · exact absurd (hxy ▸ hpx) hy
        · exact ⟨x, hxy, hpx⟩
      obtain ⟨i, e, hi, hpe, hbefore, hat, hother⟩ := ih hex
      refine ⟨i + 1, e, by simpa using hi, hpe, ?_, by simpa [updateFirst, hy] using hat, ?_⟩
      · intro j x hj hjx
        cases j with
        | zero =>
          simp only [List.getElem?_cons_zero, Option.some.injEq] at hjx
          rw [← hjx]
          simpa using hy
        | succ k =>
          simp only [List.getElem?_cons_succ] at hjx
          exact hbefore k x (by omega) hjx
      · intro j hj
        cases j with
        | zero => simp [updateFirst, hy]
        | succ k =>
          simp only [updateFirst, hy, Bool.false_eq_true, if_false, List.getElem?_cons_succ]
          exact hother k (by omega)

theorem any_isAcceptedBy (donorId : ObjectId) (l : List DonorEntry) :
    l.any (isAcceptedBy donorId) = true ↔
      ∃ e ∈ l, e.donor = donorId ∧ e.status = DonorStatus.accepted := by
  simp [List.any_eq_true, isAcceptedBy]

/-- The success path of `completeDonation`. -/
theorem complete_success (ctx : Ctx) (users : List User) (donorId : ObjectId)
    (r : BloodRequest) (hex : r.donors.any (isAcceptedBy donorId) = true) :
    completeDonation ctx users r.requester donorId r =
      { code := 200
        request := preSave ctx.now (completedDocument ctx donorId r)
        users := completedUsers ctx users donorId r } := by
  unfold completeDonation
  rw [if_neg (not_not.mpr rfl), hex]
  rfl

/-- The rejection of `completeDonation` for a donor without an accepted entry. -/
theorem complete_not_accepted (ctx : Ctx) (users : List User) (donorId : ObjectId)
    (r : BloodRequest) (hno : r.donors.any (isAcceptedBy donorId) = false) :
    completeDonation ctx users r.requester donorId r =
      { code := 404, request := r, users := users } := by
  unfold completeDonation
  rw [if_neg (not_not.mpr rfl), hno]
  rfl

theorem completedDocument_donors (ctx : Ctx) (donorId : ObjectId) (r : BloodRequest) :
    (completedDocument ctx donorId r).donors =
      updateFirst (isAcceptedBy donorId) (markCompleted ctx.now) r.donors := by
  unfold completedDocument
  simp only
  split <;> rfl

theorem completedDocument_units (ctx : Ctx) (donorId : ObjectId) (r : BloodRequest) :
    (completedDocument ctx donorId r).units = r.units := by
  unfold completedDocument
  simp only
  split <;> rfl

theorem completedDocument_expiresAt (ctx : Ctx) (donorId : ObjectId) (r : BloodRequest) :
    (completedDocument ctx donorId r).expiresAt = r.expiresAt := by
  unfold completedDocument
  simp only
  split <;> rfl

/-- C15: called by the requester for donor `d`, `completeDonation` succeeds
exactly when the donors list has an entry of `d` with status accepted;
otherwise it answers `404` and the request and the user collection are
unchanged.  On success the first such entry, and no other, becomes completed
with `completedAt = now`; every other position keeps its entry, so length and
order are unchanged. -/
theorem completeDonation_entry_rule (ctx : Ctx) (users : List User) (donorId : ObjectId)
    (r : BloodRequest) :
    ((completeDonation ctx users r.requester donorId r).code = 200 ↔
      ∃ e ∈ r.donors, e.donor = donorId ∧ e.status = DonorStatus.accepted) ∧
    ((¬ ∃ e ∈ r.donors, e.donor = donorId ∧ e.status = DonorStatus.accepted) →
      completeDonation ctx users r.requester donorId r =
        { code := 404, request := r, users := users }) ∧
    ((∃ e ∈ r.donors, e.donor = donorId ∧ e.status = DonorStatus.accepted) →
      (completeDonation ctx users r.requester donorId r).request.donors.length =
        r.donors.length ∧
      ∃ (i : Nat) (e : DonorEntry), r.donors[i]? = some e ∧ e.donor = donorId ∧
        e.status = DonorStatus.accepted ∧
        (∀ (j : Nat) (x : DonorEntry), j < i → r.donors[j]? = some x →
          ¬ (x.donor = donorId ∧ x.status = DonorStatus.accepted)) ∧
        (completeDonation ctx users r.requester donorId r).request.donors[i]? =
          some { e with status := DonorStatus.completed, completedAt := some ctx.now } ∧
        (∀ j : Nat, j ≠ i →
          (completeDonation ctx users r.requester donorId r).request.donors[j]? =
            r.donors[j]?)) := by
  by_cases hex : r.donors.any (isAcceptedBy donorId) = true
  · have hex2 := (any_isAcceptedBy donorId r.donors).mp hex
    rw [complete_success ctx users donorId r hex]
    refine ⟨⟨fun _ => hex2, fun _ => rfl⟩, fun hno => absurd hex2 hno, fun _ => ?_⟩
    simp only [preSave_donors, completedDocument_donors]
    refine ⟨updateFirst_length _ _ _, ?_⟩
    obtain ⟨i, e, hi, hpe, hbefore, hat, hother⟩ :=
      updateFirst_at (isAcceptedBy donorId) (markCompleted ctx.now) r.donors
        (by simpa [List.any_eq_true] using hex)
    simp only [isAcceptedBy, Bool.and_eq_true, beq_iff_eq] at hpe
    refine ⟨i, e, hi, hpe.1, hpe.2, ?_, hat, hother⟩
    intro j x hj hjx hx
    have := hbefore j x hj hjx
    simp [isAcceptedBy, hx.1, hx.2] at this
  · have hno : r.donors.any (isAcceptedBy donorId) = false := by simpa using hex
    have hno2 : ¬ ∃ e ∈ r.donors, e.donor = donorId ∧ e.status = DonorStatus.accepted :=
      fun h => hex ((any_isAcceptedBy donorId r.donors).mpr h)
    rw [complete_not_accepted ctx users donorId r hno]
    refine ⟨⟨fun h => ?_, fun h => absurd h hno2⟩, fun _ => rfl, fun h => absurd h hno2⟩
    simp at h

/-- Witness for C15: the requester completes the donation of donor A, whose
entry is accepted. -/
theorem completeDonation_entry_rule_witness :
    (completeDonation (ctxAt 6) [donorA] 9 1 (sampleAccepted RequestStatus.active)).code =
      200 ∧
    completeDonation (ctxAt 6) [donorA] 9 2 (sampleAccepted RequestStatus.active) =
      { code := 404, request := sampleAccepted RequestStatus.active, users := [donorA] } :=
  ⟨(completeDonation_entry_rule (ctxAt 6) [donorA] 1
      (sampleAccepted RequestStatus.active)).1.mpr (by decide),
   (completeDonation_entry_rule (ctxAt 6) [donorA] 2
      (sampleAccepted RequestStatus.active)).2.1 (by decide)⟩

theorem completedDocument_status (ctx : Ctx) (donorId : ObjectId) (r : BloodRequest) :
    (completedDocument ctx donorId r).status =
      if r.units ≤ getFulfilledUnits (completedDocument ctx donorId r)
      then RequestStatus.fulfilled else r.status := by
  unfold getFulfilledUnits
  rw [completedDocument_donors]
  unfold completedDocument
  simp only
  split <;> rfl

theorem preSave_getFulfilledUnits (now : Date) (r : BloodRequest) :
    getFulfilledUnits (preSave now r) = getFulfilledUnits r := by
  unfold getFulfilledUnits
  rw [preSave_donors]

/-- C16: after a successful completion on an active, not-yet-expired request
the status is fulfilled if the number of completed entries, the new one
counted, is at least `units`, and active otherwise. -/
theorem completeDonation_status_rule (ctx : Ctx) (users : List User) (donorId : ObjectId)
    (r : BloodRequest) (hact : r.status = RequestStatus.active)
    (hlive : ctx.now < r.expiresAt)
    (hex : ∃ e ∈ r.donors, e.donor = donorId ∧ e.status = DonorStatus.accepted) :
    (completeDonation ctx users r.requester donorId r).code = 200 ∧
    (completeDonation ctx users r.requester donorId r).request.units = r.units ∧
    ((completeDonation ctx users r.requester donorId r).request.status =
        RequestStatus.fulfilled ↔
      r.units ≤ getFulfilledUnits (completeDonation ctx users r.requester donorId r).request) ∧
    (¬ r.units ≤ getFulfilledUnits (completeDonation ctx users r.requester donorId r).request →
      (completeDonation ctx users r.requester donorId r).request.status =
        RequestStatus.active) := by
  rw [complete_success ctx users donorId r ((any_isAcceptedBy donorId r.donors).mpr hex)]
  have hst := completedDocument_status ctx donorId r
  refine ⟨rfl, by simp only [preSave_units, completedDocument_units], ?_, ?_⟩
  · simp only [preSave_getFulfilledUnits]
    by_cases hq : r.units ≤ getFulfilledUnits (completedDocument ctx donorId r)
    · rw [if_pos hq] at hst
      rw [preSave_of_not_active _ _ (by rw [hst]; decide)]
      exact ⟨fun _ => hq, fun _ => hst⟩
    · rw [if_neg hq, hact] at hst
      rw [preSave_of_live _ _ (by rw [completedDocument_expiresAt]; exact hlive) hst]
      refine ⟨fun h => ?_, fun h => absurd h hq⟩
      rw [hst] at h
      exact RequestStatus.noConfusion h
  · simp only [preSave_getFulfilledUnits]
    intro hq
    rw [if_neg hq, hact] at hst
    rw [preSave_of_live _ _ (by rw [completedDocument_expiresAt]; exact hlive) hst]
    exact hst

/-- Witness for C16: the one unit of the sample request is completed. -/
theorem completeDonation_status_rule_witness :
    (completeDonation (ctxAt 6) [donorA] 9 1 (sampleAccepted RequestStatus.active)).code =
      200 ∧
    (completeDonation (ctxAt 6) [donorA] 9 1
      (sampleAccepted RequestStatus.active)).request.status = RequestStatus.fulfilled := by
  have h := completeDonation_status_rule (ctxAt 6) [donorA] 1
    (sampleAccepted RequestStatus.active) (by decide) (by decide) (by decide)
  exact ⟨h.1, h.2.2.1.mpr (by decide)⟩

theorem findById_updateFirst_same (users : List User) (k : ObjectId) (f : User → User)
    (hf : ∀ u, (f u)._id = u._id) :
    User.findById (updateFirst (fun u => u._id == k) f users) k =
      (User.findById users k).map f := by
  unfold User.findById
  induction users with
  | nil => rfl
  | cons y ys ih =>
    by_cases hy : y._id = k
    · simp [updateFirst, hy, List.find?_cons, hf]
    · simp [updateFirst, hy, List.find?_cons, ih]

theorem findById_updateFirst_other (users : List User) (k k2 : ObjectId) (f : User → User)
    (hf : ∀ u, (f u)._id = u._id) (hne : k2 ≠ k) :
    User.findById (updateFirst (fun u => u._id == k) f users) k2 =
      User.findById users k2 := by
  unfold User.findById
  induction users with
  | nil => rfl
  | cons y ys ih =>
    by_cases hy : y._id = k
    · have hk : ¬ k = k2 := fun h => hne h.symm
      simp [updateFirst, hy, List.find?_cons, hf, hk]
    · by_cases hy2 : y._id = k2
      · have hyk : (y._id == k) = false := by simpa using hy
        simp only [updateFirst, hyk, Bool.false_eq_true, if_false, List.find?_cons]
        simp [hy2]
      · simp [updateFirst, hy, List.find?_cons, hy2, ih]

/-- The donor's user document after a successful `completeDonation`. -/
theorem completedUsers_donor (ctx : Ctx) (users : List User) (donorId : ObjectId)
    (r : BloodRequest) (u : User) (hu : User.findById users donorId = some u) :
    ∃ v, User.findById (completedUsers ctx users donorId r) donorId = some v ∧
      v.lastDonation = some ctx.now ∧
      v.donationHistory = u.donationHistory ++
        [{ requestId := r._id, donatedAt := ctx.now, recipientId := r.requester }] := by
  unfold completedUsers
  have h1 : User.findById
      (updateFirst (fun u => u._id == donorId) (recordDonation ctx.now r) users) donorId =
      some (recordDonation ctx.now r u) := by
    rw [findById_updateFirst_same users donorId (recordDonation ctx.now r) (fun _ => rfl), hu]
    rfl
  by_cases hsame : donorId = r.requester
  · refine ⟨recordRequest ctx.now r (recordDonation ctx.now r u), ?_, rfl, rfl⟩
    rw [← hsame, findById_updateFirst_same _ donorId (recordRequest ctx.now r)
      (fun _ => rfl), h1]
    rfl
  · refine ⟨recordDonation ctx.now r u, ?_, rfl, rfl⟩
    rw [findById_updateFirst_other _ r.requester donorId (recordRequest ctx.now r)
      (fun _ => rfl) hsame, h1]

/-- C17, as stated, fails: on a cancelled request whose donor A has an accepted
entry, `completeDonation` by the requester succeeds; the entry becomes
completed and donor A gets a `lastDonation` and a `donationHistory` entry. -/
theorem complete_on_cancelled_succeeds :
    (sampleAccepted RequestStatus.cancelled).status = RequestStatus.cancelled ∧
    (completeDonation (ctxAt 6) [donorA] 9 1 (sampleAccepted RequestStatus.cancelled)).code =
      200 ∧
    (completeDonation (ctxAt 6) [donorA] 9 1
      (sampleAccepted RequestStatus.cancelled)).request.donors ≠
      (sampleAccepted RequestStatus.cancelled).donors ∧
    donorA.lastDonation = none ∧
    (completeDonation (ctxAt 6) [donorA] 9 1 (sampleAccepted RequestStatus.cancelled)).users =
      [{ donorA with
         lastDonation := some 6,
         donationHistory := [{ requestId := 7, donatedAt := 6, recipientId := 9 }] }] := by
  decide

/-- C17, amended: `completeDonation` is not gated on the status of the request.
On a request of any status, cancelled and expired included, called by the
requester for a donor whose entry is accepted, it succeeds, sets that entry to
completed and writes the donor's `lastDonation` and `donationHistory`; for a
donor without an accepted entry it answers `404` and the request and the user
collection are unchanged. -/
theorem complete_ignores_status (ctx : Ctx) (users : List User) (donorId : ObjectId)
    (r : BloodRequest) :
    ((∃ e ∈ r.donors, e.donor = donorId ∧ e.status = DonorStatus.accepted) →
      (completeDonation ctx users r.requester donorId r).code = 200 ∧
      (completeDonation ctx users r.requester donorId r).request.donors =
        updateFirst (isAcceptedBy donorId) (markCompleted ctx.now) r.donors ∧
      (∃ e ∈ (completeDonation ctx users r.requester donorId r).request.donors,
        e.donor = donorId ∧ e.status = DonorStatus.completed ∧
        e.completedAt = some ctx.now) ∧
      (∀ u, User.findById users donorId = some u →
        ∃ v, User.findById (completeDonation ctx users r.requester donorId r).users donorId =
            some v ∧
          v.lastDonation = some ctx.now ∧
          v.donationHistory = u.donationHistory ++
            [{ requestId := r._id, donatedAt := ctx.now, recipientId := r.requester }])) ∧
    ((¬ ∃ e ∈ r.donors, e.donor = donorId ∧ e.status = DonorStatus.accepted) →
      completeDonation ctx users r.requester donorId r =
        { code := 404, request := r, users := users }) := by
  constructor
  · intro hex
    rw [complete_success ctx users donorId r ((any_isAcceptedBy donorId r.donors).mpr hex)]
    refine ⟨rfl, by simp only [preSave_donors, completedDocument_donors], ?_,
      fun u hu => completedUsers_donor ctx users donorId r u hu⟩
    simp only [preSave_donors, completedDocument_donors]
    obtain ⟨i, e, _, hpe, _, hat, _⟩ :=
      updateFirst_at (isAcceptedBy donorId) (markCompleted ctx.now) r.donors
        (by
          obtain ⟨e, he, hd, hst⟩ := hex
          exact ⟨e, he, by simp [isAcceptedBy, hd, hst]⟩)
    simp only [isAcceptedBy, Bool.and_eq_true, beq_iff_eq] at hpe
    exact ⟨markCompleted ctx.now e, List.getElem?_mem hat, hpe.1, rfl, rfl⟩
  · intro hno
    apply complete_not_accepted
    by_contra h
    exact hno ((any_isAcceptedBy donorId r.donors).mp (by simpa using h))

/-- Witness for C17, amended: the completion on the cancelled sample request. -/
theorem complete_ignores_status_witness :
    (completeDonation (ctxAt 6) [donorA] 9 1 (sampleAccepted RequestStatus.cancelled)).code =
      200 ∧
    completeDonation (ctxAt 6) [donorA] 9 2 (sampleAccepted RequestStatus.expired) =
      { code := 404, request := sampleAccepted RequestStatus.expired, users := [donorA] } :=
  ⟨((complete_ignores_status (ctxAt 6) [donorA] 1
      (sampleAccepted RequestStatus.cancelled)).1 (by decide)).1,
   (complete_ignores_status (ctxAt 6) [donorA] 2
      (sampleAccepted RequestStatus.expired)).2 (by decide)⟩

/-! ## Creation -/

theorem notifyDonors_ready (ctx : Ctx) (donors : List User) (r : BloodRequest)
    (hio : ctx.ioReady = true) :
    notifyDonors ctx donors r = donors.map (newRequestEvent r) := by
  unfold notifyDonors
  rw [if_pos hio]
  rfl

/-- C12: for every valid input, with the socket server started,
`createBloodRequest` answers `201` and stores a request with status active, no
donor entries, `expiresAt = getExpiryDate(urgency)` and `notifiedDonors` equal to
the ids of the Donor Locator's candidates in their order; `potentialDonorsCount`
is the number of candidates; the events emitted are one `new_blood_request` per
candidate, to the candidate's room, in the same order, and nothing else.  For
group `O-` and urgency `critical` the expiry is `now` plus three hours, the
radius 10 km and every candidate has group `O-`. -/
theorem create_postcondition (ctx : Ctx) (users : List User)
    (dist : Coordinates → Coordinates → Nat) (newId caller : ObjectId) (body : CreateBody)
    (hvalid : validate (newDocument ctx newId caller body) = true)
    (hio : ctx.ioReady = true) :
    ∃ (found : List User) (r0 : BloodRequest),
      findPotentialDonors users dist body.bloodGroup body.hospital.coordinates
        (getRadiusByUrgency body.urgency) = some found ∧
      (createBloodRequest ctx users dist newId caller body).code = 201 ∧
      (createBloodRequest ctx users dist newId caller body).request = some r0 ∧
      r0._id = newId ∧ r0.requester = caller ∧
      r0.status = RequestStatus.active ∧ r0.donors = [] ∧
      r0.expiresAt = getExpiryDate ctx.now body.urgency ∧
      r0.notifiedDonors = found.map (fun d => d._id) ∧
      (createBloodRequest ctx users dist newId caller body).potentialDonorsCount =
        found.length ∧
      (createBloodRequest ctx users dist newId caller body).events =
        found.map (newRequestEvent r0) ∧
      ((createBloodRequest ctx users dist newId caller body).events.map Event.room =
        found.map (fun d => d._id)) ∧
      (∀ e ∈ (createBloodRequest ctx users dist newId caller body).events,
        e.name = "new_blood_request") ∧
      (body.bloodGroup = "O-" → body.urgency = some "critical" →
        r0.expiresAt = ctx.now + 3 * msPerHour ∧
        getRadiusByUrgency body.urgency = 10 ∧
        ∀ u ∈ found, u.bloodGroup = "O-") := by
  have hgroup : body.bloodGroup ∈ bloodGroups := by
    simp only [validate, newDocument, Bool.and_eq_true, decide_eq_true_eq] at hvalid
    exact hvalid.1.1.1.1.2
  obtain ⟨groups, hgroups⟩ := getCompatibleDonors_canonical body.bloodGroup hgroup
  have hfind := findPotentialDonors_of_array users dist body.bloodGroup
    body.hospital.coordinates (getRadiusByUrgency body.urgency) groups hgroups
  have hcreate := create_of_found ctx users dist newId caller body _ hvalid hfind
  have hlive : preSave ctx.now (newDocument ctx newId caller body) =
      newDocument ctx newId caller body :=
    preSave_of_live _ _ (getExpiryDate_gt _ _) rfl
  rw [hlive] at hcreate
  rw [preSave_of_live _ _ (getExpiryDate_gt _ _) rfl] at hcreate
  rw [notifyDonors_ready ctx _ _ hio] at hcreate
  refine ⟨_, _, hfind, congrArg CreateOutcome.code hcreate,
    congrArg CreateOutcome.request hcreate, rfl, rfl, rfl, rfl, rfl, rfl,
    congrArg CreateOutcome.potentialDonorsCount hcreate,
    congrArg CreateOutcome.events hcreate, ?_, ?_, ?_⟩
  · rw [congrArg CreateOutcome.events hcreate, List.map_map]
    rfl
  · intro e he
    rw [congrArg CreateOutcome.events hcreate] at he
    obtain ⟨d, _, hd⟩ := List.mem_map.mp he
    rw [← hd]
    rfl
  · intro hO hcrit
    refine ⟨?_, by rw [hcrit]; rfl, ?_⟩
    · show getExpiryDate ctx.now body.urgency = _
      rw [hcrit]
      rfl
    · intro u hu
      rw [hO] at hgroups
      have hg2 : groups = ["O-"] := by
        have : getCompatibleDonors "O-" = JsValue.array ["O-"] := by decide
        rw [this] at hgroups
        exact (JsValue.array.inj hgroups).symm
      rw [(List.perm_insertionSort _ _).mem_iff, List.mem_filter] at hu
      have hb := hu.2
      simp only [isCandidate, Bool.and_eq_true, decide_eq_true_eq] at hb
      have := hb.1.1.1
      rw [hg2] at this
      simpa using this

/-- Witness for C12: the request for one unit of `O-`, urgency `critical`. -/
theorem create_postcondition_witness :
    ∃ (found : List User) (r0 : BloodRequest),
      (createBloodRequest (ctxAt 0) [donorA, donorB] zeroDist 7 9
        { sampleBody1 with bloodGroup := "O-" }).request = some r0 ∧
      r0.status = RequestStatus.active ∧ r0.donors = [] ∧
      r0.expiresAt = (ctxAt 0).now + 3 * msPerHour ∧
      r0.notifiedDonors = found.map (fun d => d._id) ∧
      (createBloodRequest (ctxAt 0) [donorA, donorB] zeroDist 7 9
        { sampleBody1 with bloodGroup := "O-" }).events.map Event.room =
        found.map (fun d => d._id) ∧
      (∀ u ∈ found, u.bloodGroup = "O-") := by
  obtain ⟨found, r0, _, _, h3, _, _, h6, h7, _, h9, _, _, h12, _, h14⟩ :=
    create_postcondition (ctxAt 0) [donorA, donorB] zeroDist 7 9
      { sampleBody1 with bloodGroup := "O-" } (by decide) (by decide)
  exact ⟨found, r0, h3, h6, h7, (h14 rfl rfl).1, h9, h12, (h14 rfl rfl).2.2⟩

/-! ## The respond route -/

/-- C20, as stated, fails: a decline from a donor who donated five
milliseconds ago, sent through the respond route to an active request that has
not expired, is answered `403`; no entry is recorded. -/
theorem route_rejects_ineligible_decline :
    recentDonor.isDonor = true ∧
    checkDonationEligibility (ctxAt 5).now recentDonor = false ∧
    sampleRequest.status = RequestStatus.active ∧
    (ctxAt 5).now < sampleRequest.expiresAt ∧
    respondRoute (ctxAt 5) (some recentDonor) "decline" sampleRequest =
      { code := 403, request := sampleRequest, events := [] } := by
  decide

/-- C20, amended: through the respond route, for a donor with `isDonor = true`,
a response of either kind is rejected for ineligibility, with `403` and no
change to the request, exactly when `checkDonationEligibility` is false; for an
eligible donor the route answers as the controller does.  The controller alone
records a decline of an ineligible donor on an active request as a declined
entry and answers with success. -/
theorem respond_route_eligibility (ctx : Ctx) (user : User) (response : String)
    (r : BloodRequest) (hdonor : user.isDonor = true) :
    (checkDonationEligibility ctx.now user = false →
      respondRoute ctx (some user) response r =
        { code := 403, request := r, events := [] }) ∧
    (checkDonationEligibility ctx.now user = true →
      respondRoute ctx (some user) response r =
        respondToBloodRequest ctx user response r) ∧
    (checkDonationEligibility ctx.now user = false → r.status = RequestStatus.active →
      (respondToBloodRequest ctx user "decline" r).code = 200 ∧
      ∃ e ∈ (respondToBloodRequest ctx user "decline" r).request.donors,
        e.donor = user._id ∧ e.status = DonorStatus.declined) := by
  refine ⟨?_, ?_, ?_⟩
  · intro hne
    simp [respondRoute, authMiddleware.isDonor, authMiddleware.isEligibleToDonate, hdonor, hne]
  · intro helig
    simp [respondRoute, authMiddleware.isDonor, authMiddleware.isEligibleToDonate, hdonor,
      helig]
  · intro _ hact
    rw [respond_success ctx user "decline" r (Or.inr rfl) hact
      (fun h => absurd h (by decide))]
    refine ⟨rfl, ?_⟩
    simp only [preSave_donors, respondedDocument_donors]
    by_cases hex : ∃ x ∈ r.donors, x.donor = user._id
    · rw [upsertResponse_of_mem _ _ _ _ hex]
      obtain ⟨i, e, _, hpe, _, hat, _⟩ :=
        updateFirst_at (fun d => d.donor == user._id) (overwrite ctx.now "decline") r.donors
          (by
            obtain ⟨x, hx, hxd⟩ := hex
            exact ⟨x, hx, by simp [hxd]⟩)
      simp only [beq_iff_eq] at hpe
      exact ⟨overwrite ctx.now "decline" e, List.getElem?_mem hat, hpe, rfl⟩
    · rw [upsertResponse_of_not_mem _ _ _ _ (fun x hx hxd => hex ⟨x, hx, hxd⟩)]
      exact ⟨_, List.mem_append_right _ (List.mem_singleton.mpr rfl), rfl, rfl⟩

/-- Witness for C20, amended: the recent donor is turned away by the route, and
donor A's decline goes through. -/
theorem respond_route_eligibility_witness :
    respondRoute (ctxAt 5) (some recentDonor) "accept" sampleRequest =
      { code := 403, request := sampleRequest, events := [] } ∧
    respondRoute (ctxAt 5) (some donorA) "decline" sampleRequest =
      respondToBloodRequest (ctxAt 5) donorA "decline" sampleRequest :=
  ⟨(respond_route_eligibility (ctxAt 5) recentDonor "accept" sampleRequest (by decide)).1
      (by decide),
   (respond_route_eligibility (ctxAt 5) donorA "decline" sampleRequest (by decide)).2.1
      (by decide)⟩

/-! ## The expiry step -/

/-- C24: the expiry step changes only the status, only from active to expired
and only when `expiresAt <= now`; it leaves fulfilled, cancelled and expired
requests as they are; applying it twice at the same instant is applying it
once, applying it at an instant and again at a later one is applying it once at
the later one, and once a request is expired no later application changes it. -/
theorem expiry_step_idempotent (now : Date) (r : BloodRequest) :
    (preSave now r = r ∨
      (r.status = RequestStatus.active ∧ r.expiresAt ≤ now ∧
        preSave now r = { r with status := RequestStatus.expired })) ∧
    (r.status = RequestStatus.active → r.expiresAt ≤ now →
      preSave now r = { r with status := RequestStatus.expired }) ∧
    (r.status = RequestStatus.active → now < r.expiresAt → preSave now r = r) ∧
    (r.status ≠ RequestStatus.active → preSave now r = r) ∧
    preSave now (preSave now r) = preSave now r ∧
    (∀ later : Date, now ≤ later → preSave later (preSave now r) = preSave later r) ∧
    (∀ later : Date, (preSave now r).status = RequestStatus.expired →
      preSave later (preSave now r) = preSave now r) := by
  have hna : r.status ≠ RequestStatus.active → preSave now r = r :=
    preSave_of_not_active now r
  have hstale : r.status = RequestStatus.active → r.expiresAt ≤ now →
      preSave now r = { r with status := RequestStatus.expired } :=
    fun hs h => preSave_of_stale now r h hs
  have hlive : r.status = RequestStatus.active → now < r.expiresAt → preSave now r = r :=
    fun hs h => preSave_of_live now r h hs
  refine ⟨?_, hstale, hlive, hna, ?_, ?_, ?_⟩
  · by_cases hs : r.status = RequestStatus.active
    · by_cases he : r.expiresAt ≤ now
      · exact Or.inr ⟨hs, he, hstale hs he⟩
      · exact Or.inl (hlive hs (not_le.mp he))
    · exact Or.inl (hna hs)
  · by_cases hs : r.status = RequestStatus.active
    · by_cases he : r.expiresAt ≤ now
      · rw [hstale hs he]
        exact preSave_of_not_active _ _ (by simp)
      · rw [hlive hs (not_le.mp he), hlive hs (not_le.mp he)]
    · rw [hna hs, hna hs]
  · intro later hle
    by_cases hs : r.status = RequestStatus.active
    · by_cases he : r.expiresAt ≤ now
      · rw [hstale hs he, preSave_of_stale later r (le_trans he hle) hs]
        exact preSave_of_not_active _ _ (by simp)
      · rw [hlive hs (not_le.mp he)]
    · rw [hna hs]
  · intro later hexp
    exact preSave_of_not_active _ _ (by rw [hexp]; decide)

/-- Witness for C24: the sample request, expiring at `100`, saved at `200` and
again at `300`. -/
theorem expiry_step_idempotent_witness :
    preSave 200 sampleRequest = { sampleRequest with status := RequestStatus.expired } ∧
    preSave 300 (preSave 200 sampleRequest) = preSave 300 sampleRequest :=
  ⟨(expiry_step_idempotent 200 sampleRequest).2.1 (by decide) (by decide),
   (expiry_step_idempotent 200 sampleRequest).2.2.2.2.2.1 300 (by decide)⟩

/-! ## The compatibility order -/

/-- C30: on the eight canonical groups, `d` can donate to `r` is a partial
order (reflexive, antisymmetric, transitive); every list of the table is
duplicate-free; and a recipient group ending in `-` lists no donor group ending
in `+`. -/
theorem canDonate_partial_order :
    (∀ g ∈ bloodGroups, canDonate g g = true) ∧
    (∀ d ∈ bloodGroups, ∀ r ∈ bloodGroups,
      canDonate d r = true → canDonate r d = true → d = r) ∧
    (∀ d ∈ bloodGroups, ∀ m ∈ bloodGroups, ∀ r ∈ bloodGroups,
      canDonate d m = true → canDonate m r = true → canDonate d r = true) ∧
    (∀ r ∈ bloodGroups, ∃ groups, getCompatibleDonors r = JsValue.array groups ∧
      groups.Nodup) ∧
    (∀ r ∈ ["A-", "B-", "AB-", "O-"], ∀ d ∈ ["A+", "B+", "AB+", "O+"],
      canDonate d r = false) := by
  refine ⟨by decide, by decide, by decide, ?_, by decide⟩
  intro r hr
  simp only [bloodGroups, List.mem_cons, List.mem_singleton, List.not_mem_nil,
    or_false] at hr
  rcases hr with h | h | h | h | h | h | h | h <;> subst h <;> exact ⟨_, rfl, by decide⟩

/-! ## Urgency, expiry and radius at creation -/

/-- A successful `createBloodRequest` passed validation and found candidates. -/
theorem create_code_201 (ctx : Ctx) (users : List User)
    (dist : Coordinates → Coordinates → Nat) (newId caller : ObjectId) (body : CreateBody)
    (hok : (createBloodRequest ctx users dist newId caller body).code = 201) :
    validate (newDocument ctx newId caller body) = true ∧
    ∃ found, findPotentialDonors users dist body.bloodGroup body.hospital.coordinates
      (getRadiusByUrgency body.urgency) = some found := by
  have hvalid : validate (newDocument ctx newId caller body) = true := by
    by_contra hv
    unfold createBloodRequest at hok
    simp only [hv] at hok
    simp at hok
  refine ⟨hvalid, ?_⟩
  have hgroup : body.bloodGroup ∈ bloodGroups := by
    simp only [validate, newDocument, Bool.and_eq_true, decide_eq_true_eq] at hvalid
    exact hvalid.1.1.1.1.2
  obtain ⟨groups, hgroups⟩ := getCompatibleDonors_canonical body.bloodGroup hgroup
  exact ⟨_, findPotentialDonors_of_array users dist body.bloodGroup
    body.hospital.coordinates (getRadiusByUrgency body.urgency) groups hgroups⟩

/-- The document a successful `createBloodRequest` stores. -/
theorem create_stored_document (ctx : Ctx) (users : List User)
    (dist : Coordinates → Coordinates → Nat) (newId caller : ObjectId) (body : CreateBody)
    (found : List User) (hvalid : validate (newDocument ctx newId caller body) = true)
    (hfind : findPotentialDonors users dist body.bloodGroup body.hospital.coordinates
      (getRadiusByUrgency body.urgency) = some found) :
    (createBloodRequest ctx users dist newId caller body).request =
      some { newDocument ctx newId caller body with
             notifiedDonors := found.map (fun d => d._id) } := by
  have hcreate := create_of_found ctx users dist newId caller body found hvalid hfind
  rw [preSave_of_live _ (newDocument ctx newId caller body) (getExpiryDate_gt _ _) rfl,
    preSave_of_live _ _ (getExpiryDate_gt _ _) rfl] at hcreate
  exact congrArg CreateOutcome.request hcreate

/-- C29, as stated, fails: for a body without urgency the stored urgency is
`medium`, whose window is 12 hours and whose radius is 5 km, but the request
expires 24 hours after its creation and the search uses 3 km: two donors 4 km
away are not candidates. -/
theorem omitted_urgency_uses_defaults :
    (createBloodRequest (ctxAt 0) [donorA, donorB] fourKm 7 9 sampleBodyNoUrgency).code =
      201 ∧
    (createBloodRequest (ctxAt 0) [donorA, donorB] fourKm 7 9 sampleBodyNoUrgency).request =
      some sampleCreatedNoUrgency ∧
    sampleCreatedNoUrgency.urgency = "medium" ∧
    sampleCreatedNoUrgency.expiresAt - sampleCreatedNoUrgency.createdAt = 24 * msPerHour ∧
    getExpiryDate sampleCreatedNoUrgency.createdAt (some sampleCreatedNoUrgency.urgency) -
      sampleCreatedNoUrgency.createdAt = 12 * msPerHour ∧
    getRadiusByUrgency sampleBodyNoUrgency.urgency = 3 ∧
    getRadiusByUrgency (some sampleCreatedNoUrgency.urgency) = 5 ∧
    sampleCreatedNoUrgency.notifiedDonors = [] ∧
    (findPotentialDonors [donorA, donorB] fourKm "A+" (0, 0) 5).map
      (List.map (fun d => d._id)) = some [1, 2] := by
  decide

/-- C29, amended: for every request produced by `createBloodRequest` from an
input that carries an urgency, the stored urgency is that urgency, `expiresAt`
is the creation time plus the window of the stored urgency (3, 6, 12, 24 hours)
and the Donor Locator searched with the radius of the stored urgency (10, 7, 5,
3 km). -/
theorem explicit_urgency_agrees (ctx : Ctx) (users : List User)
    (dist : Coordinates → Coordinates → Nat) (newId caller : ObjectId) (body : CreateBody)
    (u : String) (hu : body.urgency = some u)
    (hok : (createBloodRequest ctx users dist newId caller body).code = 201) :
    ∃ (found : List User) (r0 : BloodRequest),
      (createBloodRequest ctx users dist newId caller body).request = some r0 ∧
      r0.urgency = u ∧ r0.urgency ∈ urgencies ∧ r0.createdAt = ctx.now ∧
      r0.expiresAt = getExpiryDate r0.createdAt (some r0.urgency) ∧
      findPotentialDonors users dist body.bloodGroup body.hospital.coordinates
        (getRadiusByUrgency (some r0.urgency)) = some found ∧
      r0.notifiedDonors = found.map (fun d => d._id) ∧
      (r0.urgency = "critical" →
        r0.expiresAt - r0.createdAt = 3 * msPerHour ∧
        getRadiusByUrgency (some r0.urgency) = 10) ∧
      (r0.urgency = "high" →
        r0.expiresAt - r0.createdAt = 6 * msPerHour ∧
        getRadiusByUrgency (some r0.urgency) = 7) ∧
      (r0.urgency = "medium" →
        r0.expiresAt - r0.createdAt = 12 * msPerHour ∧
        getRadiusByUrgency (some r0.urgency) = 5) ∧
      (r0.urgency = "low" →
        r0.expiresAt - r0.createdAt = 24 * msPerHour ∧
        getRadiusByUrgency (some r0.urgency) = 3) := by
  obtain ⟨hvalid, found, hfind⟩ := create_code_201 ctx users dist newId caller body hok
  have hstored := create_stored_document ctx users dist newId caller body found hvalid hfind
  have hurg : (newDocument ctx newId caller body).urgency = u := by
    simp [newDocument, hu]
  have hmem : u ∈ urgencies := by
    have hv := hvalid
    simp only [validate, Bool.and_eq_true, decide_eq_true_eq] at hv
    rw [← hurg]
    exact hv.1.1.2
  have hexp : (newDocument ctx newId caller body).expiresAt =
      getExpiryDate ctx.now (some u) := by
    simp [newDocument, hu]
  rw [hu] at hfind
  refine ⟨found, _, hstored, hurg, by rw [show _ = u from hurg]; exact hmem, rfl, ?_, ?_,
    rfl, ?_, ?_, ?_, ?_⟩
  · show (newDocument ctx newId caller body).expiresAt =
      getExpiryDate ctx.now (some (newDocument ctx newId caller body).urgency)
    rw [hexp, hurg]
  · show findPotentialDonors users dist body.bloodGroup body.hospital.coordinates
      (getRadiusByUrgency (some (newDocument ctx newId caller body).urgency)) = some found
    rw [hurg]
    exact hfind
  all_goals
    intro hcase
    have hlit : u = _ := hurg.symm.trans hcase
    refine ⟨?_, by rw [hcase]; rfl⟩
    show (newDocument ctx newId caller body).expiresAt -
      (newDocument ctx newId caller body).createdAt = _
    rw [hexp, hlit]
    simp [newDocument, getExpiryDate]

/-- Witness for C29, amended: the request created with urgency `critical`. -/
theorem explicit_urgency_agrees_witness :
    ∃ (found : List User) (r0 : BloodRequest),
      (createBloodRequest (ctxAt 0) [donorA, donorB] zeroDist 7 9 sampleBody1).request =
        some r0 ∧
      r0.urgency = "critical" ∧
      r0.expiresAt = getExpiryDate r0.createdAt (some r0.urgency) ∧
      findPotentialDonors [donorA, donorB] zeroDist sampleBody1.bloodGroup
        sampleBody1.hospital.coordinates (getRadiusByUrgency (some r0.urgency)) =
        some found := by
  obtain ⟨found, r0, h1, h2, _, _, h5, h6, _⟩ :=
    explicit_urgency_agrees (ctxAt 0) [donorA, donorB] zeroDist 7 9 sampleBody1 "critical"
      rfl (by decide)
  exact ⟨found, r0, h1, h2, h5, h6⟩

/-! ## Who can accept -/

/-- After the upsert the donor has an entry with the recorded status. -/
theorem upsertResponse_has_entry (now : Date) (donorId : ObjectId) (response : String)
    (l : List DonorEntry) :
    ∃ e ∈ upsertResponse now donorId response l,
      e.donor = donorId ∧ e.status = responseStatus response := by
  by_cases hex : ∃ x ∈ l, x.donor = donorId
  · rw [upsertResponse_of_mem _ _ _ _ hex]
    obtain ⟨i, e, _, hpe, _, hat, _⟩ :=
      updateFirst_at (fun d => d.donor == donorId) (overwrite now response) l
        (by
          obtain ⟨x, hx, hxd⟩ := hex
          exact ⟨x, hx, by simp [hxd]⟩)
    simp only [beq_iff_eq] at hpe
    exact ⟨overwrite now response e, List.getElem?_mem hat, hpe, rfl⟩
  · rw [upsertResponse_of_not_mem _ _ _ _ (fun x hx hxd => hex ⟨x, hx, hxd⟩)]
    exact ⟨_, List.mem_append_right _ (List.mem_singleton.mpr rfl), rfl, rfl⟩

/-- C26, as stated, fails: donor C has group `AB+`, which cannot donate to the
`A+` request, and was not notified; the accept passes the route and fulfils the
request. -/
theorem incompatible_unnotified_accept :
    (createBloodRequest (ctxAt 0) [donorA, donorB, donorC] zeroDist 7 9 sampleBody1).request =
      some sampleCreated1 ∧
    canDonate donorC.bloodGroup sampleCreated1.bloodGroup = false ∧
    donorC._id ∉ sampleCreated1.notifiedDonors ∧
    (respondRoute (ctxAt 5) (some donorC) "accept" sampleCreated1).code = 200 ∧
    (run [Op.respond (ctxAt 5) donorC "accept"] sampleCreated1).donors =
      [{ donor := 3, status := DonorStatus.accepted, respondedAt := 5, completedAt := none }] ∧
    (run [Op.respond (ctxAt 5) donorC "accept"] sampleCreated1).status =
      RequestStatus.fulfilled := by
  decide

/-- C26, amended: the respond route checks neither the blood group of the
caller nor `notifiedDonors`: for every active request, an accept by any user
with `isDonor = true` for whom `checkDonationEligibility` holds passes the
route, is answered with success and leaves an accepted entry for that user,
whatever the user's blood group and whether or not the user was notified. -/
theorem accept_open_to_any_donor (ctx : Ctx) (user : User) (r : BloodRequest)
    (hdonor : user.isDonor = true)
    (helig : checkDonationEligibility ctx.now user = true)
    (hact : r.status = RequestStatus.active) :
    respondRoute ctx (some user) "accept" r = respondToBloodRequest ctx user "accept" r ∧
    (respondToBloodRequest ctx user "accept" r).code = 200 ∧
    (∃ e ∈ (respondToBloodRequest ctx user "accept" r).request.donors,
      e.donor = user._id ∧ e.status = DonorStatus.accepted) ∧
    (∀ g : String,
      respondToBloodRequest ctx { user with bloodGroup := g } "accept" r =
        respondToBloodRequest ctx user "accept" r) := by
  refine ⟨?_, ?_, ?_, fun g => rfl⟩
  · simp [respondRoute, authMiddleware.isDonor, authMiddleware.isEligibleToDonate, hdonor,
      helig]
  · rw [respond_success ctx user "accept" r (Or.inl rfl) hact (fun _ => helig)]
  · rw [respond_success ctx user "accept" r (Or.inl rfl) hact (fun _ => helig)]
    simp only [preSave_donors, respondedDocument_donors]
    exact upsertResponse_has_entry ctx.now user._id "accept" r.donors

/-- Witness for C26, amended: donor C accepts the sample request. -/
theorem accept_open_to_any_donor_witness :
    (respondToBloodRequest (ctxAt 5) donorC "accept" sampleCreated1).code = 200 ∧
    ∃ e ∈ (respondToBloodRequest (ctxAt 5) donorC "accept" sampleCreated1).request.donors,
      e.donor = donorC._id ∧ e.status = DonorStatus.accepted :=
  ⟨(accept_open_to_any_donor (ctxAt 5) donorC sampleCreated1 (by decide) (by decide)
      (by decide)).2.1,
   (accept_open_to_any_donor (ctxAt 5) donorC sampleCreated1 (by decide) (by decide)
      (by decide)).2.2.1⟩

/-! ## The notified-donors snapshot -/

theorem preSave_id (now : Date) (r : BloodRequest) : (preSave now r)._id = r._id := by
  unfold preSave
  split <;> rfl

theorem applyUpdate_snapshot (ctx : Ctx) (body : UpdateBody) (r : BloodRequest) :
    (applyUpdate ctx body r).notifiedDonors = r.notifiedDonors ∧
    (applyUpdate ctx body r)._id = r._id ∧
    (applyUpdate ctx body r).donors = r.donors := by
  unfold applyUpdate
  simp only
  split <;> exact ⟨rfl, rfl, rfl⟩

/-- No controller changes `notifiedDonors` or the identifier of a stored
request. -/
theorem apply_snapshot (op : Op) (r : BloodRequest) :
    (op.apply r).notifiedDonors = r.notifiedDonors ∧ (op.apply r)._id = r._id := by
  cases op with
  | respond ctx user response =>
    show (respondToBloodRequest ctx user response r).request.notifiedDonors = _ ∧
      (respondToBloodRequest ctx user response r).request._id = _
    unfold respondToBloodRequest
    split
    · exact ⟨rfl, rfl⟩
    · split
      · exact ⟨rfl, rfl⟩
      · split
        · exact ⟨rfl, rfl⟩
        · simp only [preSave_notifiedDonors, preSave_id]
          split <;> exact ⟨rfl, rfl⟩
  | complete ctx users caller donorId =>
    show (completeDonation ctx users caller donorId r).request.notifiedDonors = _ ∧
      (completeDonation ctx users caller donorId r).request._id = _
    unfold completeDonation
    split
    · exact ⟨rfl, rfl⟩
    · split
      · exact ⟨rfl, rfl⟩
      · simp only [preSave_notifiedDonors, preSave_id]
        split <;> exact ⟨rfl, rfl⟩
  | update ctx caller body =>
    show (updateBloodRequest ctx caller body r).request.notifiedDonors = _ ∧
      (updateBloodRequest ctx caller body r).request._id = _
    unfold updateBloodRequest
    split
    · exact ⟨rfl, rfl⟩
    · split
      · exact ⟨rfl, rfl⟩
      · dsimp only
        split
        · exact ⟨rfl, rfl⟩
        · simp only [preSave_notifiedDonors, preSave_id]
          exact ⟨(applyUpdate_snapshot ctx body r).1, (applyUpdate_snapshot ctx body r).2.1⟩
  | cancel ctx caller =>
    show (cancelBloodRequest ctx caller r).request.notifiedDonors = _ ∧
      (cancelBloodRequest ctx caller r).request._id = _
    unfold cancelBloodRequest
    split
    · exact ⟨rfl, rfl⟩
    · split
      · exact ⟨rfl, rfl⟩
      · refine ⟨?_, ?_⟩ <;> simp only [preSave_notifiedDonors, preSave_id]

theorem run_snapshot (ops : List Op) :
    ∀ r : BloodRequest, (run ops r).notifiedDonors = r.notifiedDonors ∧
      (run ops r)._id = r._id := by
  induction ops with
  | nil => exact fun _ => ⟨rfl, rfl⟩
  | cons op rest ih =>
    intro r
    have h1 := ih (op.apply r)
    have h2 := apply_snapshot op r
    exact ⟨h1.1.trans h2.1, h1.2.trans h2.2⟩

/-- The success path of `cancelBloodRequest`. -/
theorem cancel_code_200 (ctx : Ctx) (caller : ObjectId) (r : BloodRequest)
    (hok : (cancelBloodRequest ctx caller r).code = 200) :
    cancelBloodRequest ctx caller r =
      { code := 200
        request := { r with status := RequestStatus.cancelled }
        events := notifyDonorsOfCancellation ctx
          { r with status := RequestStatus.cancelled } } := by
  unfold cancelBloodRequest at hok ⊢
  split
  · rename_i h
    rw [if_pos h] at hok
    simp at hok
  · rename_i h
    rw [if_neg h] at hok
    split
    · rename_i h2
      rw [if_pos h2] at hok
      simp at hok
    · simp only [preSave_of_not_active ctx.now { r with status := RequestStatus.cancelled }
        (by simp)]

/-! ## User records after a completion -/

/-- The requester's user document after a successful `completeDonation`. -/
theorem completedUsers_requester (ctx : Ctx) (users : List User) (donorId : ObjectId)
    (r : BloodRequest) (u : User) (hu : User.findById users r.requester = some u) :
    ∃ v, User.findById (completedUsers ctx users donorId r) r.requester = some v ∧
      v.requestHistory = u.requestHistory ++
        [{ requestId := r._id, requestedAt := ctx.now, status := "fulfilled" }] ∧
      (donorId ≠ r.requester →
        v.donationHistory = u.donationHistory ∧ v.lastDonation = u.lastDonation) := by
  unfold completedUsers
  rw [findById_updateFirst_same _ r.requester (recordRequest ctx.now r) (fun _ => rfl)]
  by_cases hsame : donorId = r.requester
  · rw [hsame, findById_updateFirst_same users r.requester (recordDonation ctx.now r)
      (fun _ => rfl), hu]
    exact ⟨_, rfl, rfl, fun h => absurd rfl h⟩
  · rw [findById_updateFirst_other users donorId r.requester (recordDonation ctx.now r)
      (fun _ => rfl) (Ne.symm hsame), hu]
    exact ⟨_, rfl, rfl, fun _ => ⟨rfl, rfl⟩⟩

/-- Every other user document after a `completeDonation`. -/
theorem completedUsers_other (ctx : Ctx) (users : List User) (donorId : ObjectId)
    (r : BloodRequest) (k : ObjectId) (hd : k ≠ donorId) (hr : k ≠ r.requester) :
    User.findById (completedUsers ctx users donorId r) k = User.findById users k := by
  unfold completedUsers
  rw [findById_updateFirst_other _ r.requester k (recordRequest ctx.now r) (fun _ => rfl) hr,
    findById_updateFirst_other users donorId k (recordDonation ctx.now r) (fun _ => rfl) hd]

/-- A completion writes none of the fields the donor query reads. -/
theorem completedUsers_selection (ctx : Ctx) (users : List User) (donorId : ObjectId)
    (r : BloodRequest) :
    (completedUsers ctx users donorId r).map selection = users.map selection := by
  unfold completedUsers
  rw [updateFirst_map (fun u => u._id == r.requester) (recordRequest ctx.now r) selection
      (fun _ => rfl),
    updateFirst_map (fun u => u._id == donorId) (recordDonation ctx.now r) selection
      (fun _ => rfl)]

/-- The user collection after any call of `completeDonation`. -/
theorem complete_users (ctx : Ctx) (users : List User) (caller donorId : ObjectId)
    (r : BloodRequest) :
    (completeDonation ctx users caller donorId r).users = users ∨
    (completeDonation ctx users caller donorId r).users =
      completedUsers ctx users donorId r := by
  unfold completeDonation
  split
  · exact Or.inl rfl
  · split
    · exact Or.inl rfl
    · exact Or.inr rfl

/-- C21, as stated, fails: after the first of two units is completed the
request is still active, but the entry appended to the requester's
`requestHistory` has status `fulfilled`. -/
theorem history_entry_not_a_snapshot :
    (completeDonation (ctxAt 6) [donorA, requesterU] 9 1 sampleAccepted2).code = 200 ∧
    (completeDonation (ctxAt 6) [donorA, requesterU] 9 1 sampleAccepted2).request.status =
      RequestStatus.active ∧
    (User.findById
        (completeDonation (ctxAt 6) [donorA, requesterU] 9 1 sampleAccepted2).users 9).map
      (fun u => u.requestHistory) =
      some [{ requestId := 7, requestedAt := 6, status := "fulfilled" }] := by
  decide

/-- C21, amended: every successful `completeDonation` for donor `d` on request
`q` appends exactly one entry with `requestId = q` and `recipientId =
q.requester` to `d`'s `donationHistory` and sets `d.lastDonation = now`, and
appends exactly one entry with `requestId = q` to the requester's
`requestHistory`, whose status is `fulfilled` when the request is fulfilled
after the completion; the earlier entries of both lists are kept in order and
no other user's record changes. -/
theorem completion_appends_history (ctx : Ctx) (users : List User) (donorId : ObjectId)
    (r : BloodRequest)
    (hex : ∃ e ∈ r.donors, e.donor = donorId ∧ e.status = DonorStatus.accepted) :
    (∀ u, User.findById users donorId = some u →
      ∃ v, User.findById (completeDonation ctx users r.requester donorId r).users donorId =
          some v ∧
        v.lastDonation = some ctx.now ∧
        v.donationHistory = u.donationHistory ++
          [{ requestId := r._id, donatedAt := ctx.now, recipientId := r.requester }]) ∧
    (∀ u, User.findById users r.requester = some u →
      ∃ v entry,
        User.findById (completeDonation ctx users r.requester donorId r).users r.requester =
          some v ∧
        v.requestHistory = u.requestHistory ++ [entry] ∧ entry.requestId = r._id ∧
        ((completeDonation ctx users r.requester donorId r).request.status =
            RequestStatus.fulfilled → entry.status = "fulfilled") ∧
        (donorId ≠ r.requester →
          v.donationHistory = u.donationHistory ∧ v.lastDonation = u.lastDonation)) ∧
    (∀ k, k ≠ donorId → k ≠ r.requester →
      User.findById (completeDonation ctx users r.requester donorId r).users k =
        User.findById users k) ∧
    ((completeDonation ctx users r.requester donorId r).users.map (fun u => u._id) =
      users.map (fun u => u._id)) := by
  rw [complete_success ctx users donorId r ((any_isAcceptedBy donorId r.donors).mpr hex)]
  refine ⟨fun u hu => completedUsers_donor ctx users donorId r u hu, ?_,
    fun k hd hr => completedUsers_other ctx users donorId r k hd hr, ?_⟩
  · intro u hu
    obtain ⟨v, hv, hhist, hrest⟩ := completedUsers_requester ctx users donorId r u hu
    exact ⟨v, _, hv, hhist, rfl, fun _ => rfl, hrest⟩
  · have h := congrArg (List.map (fun t : ObjectId × String × Coordinates × Bool × Bool => t.1))
      (completedUsers_selection ctx users donorId r)
    simpa [List.map_map, selection, Function.comp] using h

/-- Witness for C21, amended: the completion of donor A's donation on the sample
request. -/
theorem completion_appends_history_witness :
    ∃ v, User.findById
        (completeDonation (ctxAt 6) [donorA, requesterU] 9 1
          (sampleAccepted RequestStatus.active)).users 1 = some v ∧
      v.lastDonation = some 6 ∧
      v.donationHistory = [{ requestId := 7, donatedAt := 6, recipientId := 9 }] :=
  (completion_appends_history (ctxAt 6) [donorA, requesterU] 1
    (sampleAccepted RequestStatus.active) (by decide)).1 donorA (by decide)

/-! ## The stored eligibility flag -/

theorem isCandidate_selection (dist : Coordinates → Coordinates → Nat)
    (groups : List String) (p : Coordinates) (km : Nat) :
    isCandidate dist groups p km = selected dist groups p km ∘ selection := rfl

/-- Two user collections that agree on the fields the donor query reads give the
same candidate ids. -/
theorem findPotentialDonors_of_selection (users users2 : List User)
    (dist : Coordinates → Coordinates → Nat) (g : String) (p : Coordinates) (km : Nat)
    (found : List User) (hsel : users2.map selection = users.map selection)
    (hfind : findPotentialDonors users dist g p km = some found) :
    ∃ found2, findPotentialDonors users2 dist g p km = some found2 ∧
      ∀ id : ObjectId, id ∈ found2.map (fun u => u._id) ↔ id ∈ found.map (fun u => u._id) := by
  cases hg : getCompatibleDonors g with
  | array groups =>
    rw [findPotentialDonors_of_array users dist g p km groups hg] at hfind
    rw [findPotentialDonors_of_array users2 dist g p km groups hg]
    refine ⟨_, rfl, ?_⟩
    intro id
    rw [← Option.some.inj hfind]
    have hfil : (users2.filter (isCandidate dist groups p km)).map selection =
        (users.filter (isCandidate dist groups p km)).map selection := by
      rw [isCandidate_selection, ← List.filter_map, ← List.filter_map, hsel]
    have hids : (users2.filter (isCandidate dist groups p km)).map (fun u => u._id) =
        (users.filter (isCandidate dist groups p km)).map (fun u => u._id) := by
      have h := congrArg
        (List.map (fun t : ObjectId × String × Coordinates × Bool × Bool => t.1)) hfil
      simpa [List.map_map, selection, Function.comp] using h
    rw [((List.perm_insertionSort _ _).map _).mem_iff,
      ((List.perm_insertionSort _ _).map _).mem_iff, hids]
  | undefined =>
    unfold findPotentialDonors at hfind
    simp [hg, inOperand] at hfind
  | inherited key =>
    unfold findPotentialDonors at hfind
    simp [hg, inOperand] at hfind

/-- C22, as stated, fails: after the completion of donor A's donation at
instant `6` the stored flag of donor A is still true although
`checkDonationEligibility` is false, and the Donor Locator still selects donor
A. -/
theorem flag_not_refreshed :
    (completeDonation (ctxAt 6) [donorA, requesterU] 9 1
      (sampleAccepted RequestStatus.active)).code = 200 ∧
    (User.findById
        (completeDonation (ctxAt 6) [donorA, requesterU] 9 1
          (sampleAccepted RequestStatus.active)).users 1).map
      (fun u => (u.lastDonation, u.isEligibleToDonate, checkDonationEligibility 7 u)) =
      some (some 6, true, false) ∧
    (findPotentialDonors
        (completeDonation (ctxAt 6) [donorA, requesterU] 9 1
          (sampleAccepted RequestStatus.active)).users zeroDist "A+" (0, 0) 10).map
      (List.map (fun u => u._id)) = some [1] := by
  decide

/-- C22, amended: `completeDonation` sets the donor's `lastDonation` but writes
no user's `isEligibleToDonate` flag (nor any other field the donor query
reads), and `createBloodRequest` and `respondToBloodRequest` write no user
record; so the stored flag is not derived from `lastDonation`: after a
completion `checkDonationEligibility` is false for the donor for 90 days while
the flag keeps its value, and `findPotentialDonors` selects the same users as
before the completion. -/
theorem flag_untouched_by_completion (ctx : Ctx) (users : List User)
    (caller donorId : ObjectId) (r : BloodRequest) :
    (completeDonation ctx users caller donorId r).users.map selection =
      users.map selection ∧
    (∀ (dist : Coordinates → Coordinates → Nat) (g : String) (p : Coordinates) (km : Nat)
      (found : List User), findPotentialDonors users dist g p km = some found →
      ∃ found2,
        findPotentialDonors (completeDonation ctx users caller donorId r).users dist g p km =
          some found2 ∧
        ∀ id : ObjectId,
          id ∈ found2.map (fun u => u._id) ↔ id ∈ found.map (fun u => u._id)) ∧
    (∀ u, (completeDonation ctx users caller donorId r).code = 200 →
      User.findById users donorId = some u →
      ∃ v, User.findById (completeDonation ctx users caller donorId r).users donorId =
          some v ∧
        v.lastDonation = some ctx.now ∧
        v.isEligibleToDonate = u.isEligibleToDonate ∧
        ∀ t : Date, t ≤ ctx.now + 90 * msPerDay → checkDonationEligibility t v = false) := by
  have hsel : (completeDonation ctx users caller donorId r).users.map selection =
      users.map selection := by
    rcases complete_users ctx users caller donorId r with h | h
    · rw [h]
    · rw [h, completedUsers_selection]
  refine ⟨hsel, ?_, ?_⟩
  · intro dist g p km found hfind
    exact findPotentialDonors_of_selection users _ dist g p km found hsel hfind
  · intro u hok hu
    have hreq : r.requester = caller := by
      by_contra hne
      unfold completeDonation at hok
      rw [if_pos hne] at hok
      simp at hok
    subst hreq
    have hany : r.donors.any (isAcceptedBy donorId) = true := by
      by_contra hno
      rw [complete_not_accepted ctx users donorId r (by simpa using hno)] at hok
      simp at hok
    rw [complete_success ctx users donorId r hany]
    obtain ⟨v, hv, hlast, _⟩ := completedUsers_donor ctx users donorId r u hu
    refine ⟨v, hv, hlast, ?_, ?_⟩
    · have hfu : (User.findById users donorId).map (fun x => x.isEligibleToDonate) =
          (User.findById (completedUsers ctx users donorId r) donorId).map
            (fun x => x.isEligibleToDonate) := by
        unfold completedUsers
        by_cases hsame : donorId = r.requester
        · rw [← hsame, findById_updateFirst_same _ donorId (recordRequest ctx.now r)
            (fun _ => rfl), findById_updateFirst_same users donorId
            (recordDonation ctx.now r) (fun _ => rfl)]
          cases User.findById users donorId <;> rfl
        · rw [findById_updateFirst_other _ r.requester donorId (recordRequest ctx.now r)
            (fun _ => rfl) hsame, findById_updateFirst_same users donorId
            (recordDonation ctx.now r) (fun _ => rfl)]
          cases User.findById users donorId <;> rfl
      rw [hu, hv] at hfu
      exact (Option.some.inj hfu).symm
    · intro t ht
      unfold checkDonationEligibility
      rw [hlast]
      have hle : ¬ ctx.now < t - 90 * msPerDay :=
        not_lt.mpr (sub_le_iff_le_add.mpr ht)
      simpa using hle

/-- Witness for C22, amended: donor A keeps the flag after the completion. -/
theorem flag_untouched_by_completion_witness :
    ∃ v, User.findById
        (completeDonation (ctxAt 6) [donorA, requesterU] 9 1
          (sampleAccepted RequestStatus.active)).users 1 = some v ∧
      v.lastDonation = some (ctxAt 6).now ∧
      v.isEligibleToDonate = donorA.isEligibleToDonate := by
  obtain ⟨v, h1, h2, h3, _⟩ :=
    (flag_untouched_by_completion (ctxAt 6) [donorA, requesterU] 9 1
      (sampleAccepted RequestStatus.active)).2.2 donorA (by decide) (by decide)
  exact ⟨v, h1, h2, h3⟩

/-! ## The sequential quota invariant -/

/-- An in-place update whose result passes a filter raises the count of the
filter by at most one and does not lower it. -/
theorem updateFirst_count_true {α : Type} (p q : α → Bool) (f : α → α)
    (hq : ∀ x, p x = true → q (f x) = true) (l : List α) :
    (l.filter q).length ≤ ((updateFirst p f l).filter q).length ∧
    ((updateFirst p f l).filter q).length ≤ (l.filter q).length + 1 := by
  induction l with
  | nil => exact ⟨Nat.le_refl _, Nat.zero_le _⟩
  | cons x xs ih =>
    by_cases hx : p x = true
    · by_cases hqx : q x = true
      · simp [updateFirst, hx, List.filter_cons, hq x hx, hqx]
      · simp [updateFirst, hx, List.filter_cons, hq x hx, hqx]
    · by_cases hqx : q x = true
      · simp only [updateFirst, hx, Bool.false_eq_true, if_false, List.filter_cons, hqx,
          if_true, List.length_cons]
        omega
      · simp only [updateFirst, hx, Bool.false_eq_true, if_false, List.filter_cons, hqx]
        exact ih

/-- An in-place update whose result fails a filter does not raise the count of
the filter. -/
theorem updateFirst_count_false {α : Type} (p q : α → Bool) (f : α → α)
    (hq : ∀ x, p x = true → q (f x) = false) (l : List α) :
    ((updateFirst p f l).filter q).length ≤ (l.filter q).length := by
  induction l with
  | nil => exact Nat.le_refl _
  | cons x xs ih =>
    by_cases hx : p x = true
    · by_cases hqx : q x = true
      · simp [updateFirst, hx, List.filter_cons, hq x hx, hqx]
      · simp [updateFirst, hx, List.filter_cons, hq x hx, hqx]
    · by_cases hqx : q x = true
      · simp only [updateFirst, hx, Bool.false_eq_true, if_false, List.filter_cons, hqx,
          if_true, List.length_cons]
        omega
      · simp only [updateFirst, hx, Bool.false_eq_true, if_false, List.filter_cons, hqx]
        exact ih

/-- An accept raises the number of accepted-or-completed entries by at most
one and does not lower it. -/
theorem acceptedDonors_upsert_accept (now : Date) (donorId : ObjectId)
    (l : List DonorEntry) :
    (acceptedDonors l).length ≤ (acceptedDonors (upsertResponse now donorId "accept" l)).length ∧
    (acceptedDonors (upsertResponse now donorId "accept" l)).length ≤
      (acceptedDonors l).length + 1 := by
  by_cases hex : ∃ x ∈ l, x.donor = donorId
  · rw [upsertResponse_of_mem _ _ _ _ hex]
    unfold acceptedDonors
    exact updateFirst_count_true _ _ _ (fun _ _ => rfl) l
  · rw [upsertResponse_of_not_mem _ _ _ _ (fun x hx hxd => hex ⟨x, hx, hxd⟩)]
    unfold acceptedDonors
    simp [List.filter_append, List.filter_cons, responseStatus]

/-- A response other than an accept does not raise the number of
accepted-or-completed entries. -/
theorem acceptedDonors_upsert_decline (now : Date) (donorId : ObjectId) (response : String)
    (hr : response ≠ "accept") (l : List DonorEntry) :
    (acceptedDonors (upsertResponse now donorId response l)).length ≤
      (acceptedDonors l).length := by
  have hst : responseStatus response = DonorStatus.declined := by
    unfold responseStatus
    rw [if_neg hr]
  by_cases hex : ∃ x ∈ l, x.donor = donorId
  · rw [upsertResponse_of_mem _ _ _ _ hex]
    unfold acceptedDonors
    apply updateFirst_count_false
    intro x _
    simp [overwrite, hst]
  · rw [upsertResponse_of_not_mem _ _ _ _ (fun x hx hxd => hex ⟨x, hx, hxd⟩)]
    unfold acceptedDonors
    simp [List.filter_append, List.filter_cons, hst]

theorem preSave_not_fulfilled (now : Date) (r : BloodRequest)
    (h : r.status ≠ RequestStatus.fulfilled) :
    (preSave now r).status ≠ RequestStatus.fulfilled := by
  intro hf
  have hp := preSave_fulfilled now r hf
  rw [hp] at hf
  exact h hf

theorem preSave_acceptedCount (now : Date) (r : BloodRequest) :
    acceptedCount (preSave now r) = acceptedCount r := by
  unfold acceptedCount
  rw [preSave_donors]

/-- A response that is not answered with `200` writes nothing. -/
theorem respond_rejected (ctx : Ctx) (user : User) (response : String) (r : BloodRequest)
    (h : (respondToBloodRequest ctx user response r).code ≠ 200) :
    (respondToBloodRequest ctx user response r).request = r := by
  unfold respondToBloodRequest at h ⊢
  split
  · rfl
  · split
    · rfl
    · split
      · rfl
      · rename_i h1 h2 h3
        rw [if_neg h1, if_neg h2, if_neg h3] at h
        exact absurd rfl h

theorem respond_quotaExact (ctx : Ctx) (user : User) (response : String) (r : BloodRequest)
    (h : QuotaExact r) : QuotaExact (respondToBloodRequest ctx user response r).request := by
  by_cases hc : (respondToBloodRequest ctx user response r).code = 200
  · obtain ⟨hresp, hact, helig⟩ := respond_code_200 ctx user response r hc
    rw [respond_success ctx user response r hresp hact helig]
    have hlt : acceptedCount r < r.units := h.2 (by rw [hact]; decide)
    unfold acceptedCount at hlt
    by_cases hq : response = "accept" ∧
        r.units ≤ (acceptedDonors (upsertResponse ctx.now user._id response r.donors)).length
    · have hst : (respondedDocument ctx user response r).status = RequestStatus.fulfilled := by
        unfold respondedDocument
        simp only
        rw [if_pos hq]
      rw [preSave_of_not_active _ _ (by rw [hst]; decide)]
      refine ⟨fun _ => ?_, fun hne => absurd hst hne⟩
      unfold acceptedCount
      rw [respondedDocument_donors, respondedDocument_units]
      have hub := (acceptedDonors_upsert_accept ctx.now user._id r.donors).2
      have hq2 := hq.2
      rw [hq.1] at hq2
      rw [hq.1]
      omega
    · have hst : (respondedDocument ctx user response r).status = RequestStatus.active := by
        unfold respondedDocument
        simp only
        rw [if_neg hq]
        exact hact
      refine ⟨fun hf => absurd hf (preSave_not_fulfilled _ _ (by rw [hst]; decide)),
        fun _ => ?_⟩
      rw [preSave_acceptedCount, preSave_units]
      unfold acceptedCount
      rw [respondedDocument_donors, respondedDocument_units]
      by_cases ha : response = "accept"
      · have hnq : ¬ r.units ≤
            (acceptedDonors (upsertResponse ctx.now user._id response r.donors)).length :=
          fun hle => hq ⟨ha, hle⟩
        omega
      · have := acceptedDonors_upsert_decline ctx.now user._id response ha r.donors
        omega
  · rw [respond_rejected ctx user response r hc]
    exact h

/-- A completion that is not answered with `200` writes nothing to the
request. -/
theorem complete_rejected (ctx : Ctx) (users : List User) (caller donorId : ObjectId)
    (r : BloodRequest) (h : (completeDonation ctx users caller donorId r).code ≠ 200) :
    (completeDonation ctx users caller donorId r).request = r := by
  unfold completeDonation at h ⊢
  split
  · rfl
  · split
    · rfl
    · rename_i h1 h2
      rw [if_neg h1, if_neg h2] at h
      exact absurd rfl h

/-- A completion answered with `200` was called by the requester for a donor
with an accepted entry. -/
theorem complete_code_200 (ctx : Ctx) (users : List User) (caller donorId : ObjectId)
    (r : BloodRequest) (h : (completeDonation ctx users caller donorId r).code = 200) :
    r.requester = caller ∧ r.donors.any (isAcceptedBy donorId) = true := by
  unfold completeDonation at h
  split at h
  · simp at h
  · rename_i h1
    split at h
    · simp at h
    · rename_i h2
      exact ⟨not_not.mp h1, by simpa using h2⟩

theorem completedDocument_acceptedCount (ctx : Ctx) (donorId : ObjectId) (r : BloodRequest) :
    acceptedCount (completedDocument ctx donorId r) = acceptedCount r := by
  unfold acceptedCount
  rw [completedDocument_donors]
  exact acceptedDonors_complete ctx.now donorId r.donors

theorem getFulfilledUnits_le_acceptedCount (r : BloodRequest) :
    getFulfilledUnits r ≤ acceptedCount r :=
  completed_le_accepted r.donors

theorem complete_quotaExact (ctx : Ctx) (users : List User) (caller donorId : ObjectId)
    (r : BloodRequest) (h : QuotaExact r) :
    QuotaExact (completeDonation ctx users caller donorId r).request := by
  by_cases hc : (completeDonation ctx users caller donorId r).code = 200
  · obtain ⟨hreq, hany⟩ := complete_code_200 ctx users caller donorId r hc
    subst hreq
    rw [complete_success ctx users donorId r hany]
    have hst := completedDocument_status ctx donorId r
    have hcount := completedDocument_acceptedCount ctx donorId r
    have hle := getFulfilledUnits_le_acceptedCount (completedDocument ctx donorId r)
    have hunits := completedDocument_units ctx donorId r
    by_cases hful : r.status = RequestStatus.fulfilled
    · have heq := h.1 hful
      have hst2 : (completedDocument ctx donorId r).status = RequestStatus.fulfilled := by
        rw [hst]
        split
        · rfl
        · exact hful
      rw [preSave_of_not_active _ _ (by rw [hst2]; decide)]
      exact ⟨fun _ => by rw [hcount, hunits]; exact heq, fun hne => absurd hst2 hne⟩
    · have hlt := h.2 hful
      have hnq : ¬ r.units ≤ getFulfilledUnits (completedDocument ctx donorId r) := by
        intro hq
        omega
      rw [if_neg hnq] at hst
      have hst2 : (completedDocument ctx donorId r).status ≠ RequestStatus.fulfilled := by
        rw [hst]
        exact hful
      refine ⟨fun hf => absurd hf (preSave_not_fulfilled _ _ hst2), fun _ => ?_⟩
      rw [preSave_acceptedCount, preSave_units, hcount, hunits]
      exact hlt
  · rw [complete_rejected ctx users caller donorId r hc]
    exact h

theorem cancel_quotaExact (ctx : Ctx) (caller : ObjectId) (r : BloodRequest)
    (h : QuotaExact r) : QuotaExact (cancelBloodRequest ctx caller r).request := by
  unfold cancelBloodRequest
  split
  · exact h
  · split
    · exact h
    · rename_i _ hfc
      have hnf : r.status ≠ RequestStatus.fulfilled := fun hf => hfc (Or.inl hf)
      simp only [preSave_of_not_active ctx.now { r with status := RequestStatus.cancelled }
        (by simp)]
      exact ⟨fun hf => RequestStatus.noConfusion hf, fun _ => h.2 hnf⟩

theorem apply_quotaExact (op : Op) (r : BloodRequest) (hno : op.isUpdate = false)
    (h : QuotaExact r) : QuotaExact (op.apply r) := by
  cases op with
  | respond ctx user response => exact respond_quotaExact ctx user response r h
  | complete ctx users caller donorId => exact complete_quotaExact ctx users caller donorId r h
  | update ctx caller body => simp [Op.isUpdate] at hno
  | cancel ctx caller => exact cancel_quotaExact ctx caller r h

theorem run_quotaExact (ops : List Op) :
    ∀ r : BloodRequest, (∀ op ∈ ops, op.isUpdate = false) → QuotaExact r →
      QuotaExact (run ops r) := by
  induction ops with
  | nil => exact fun _ _ h => h
  | cons op rest ih =>
    intro r hno h
    exact ih (op.apply r) (fun o ho => hno o (List.mem_cons_of_mem _ ho))
      (apply_quotaExact op r (hno op (List.mem_cons_self _ _)) h)

/-- C27: for a request created by `createBloodRequest` (so with `units` in
1..10) and every state reached from it by respond, complete and cancel calls
executed one at a time, with no edit, the number of accepted or completed
entries is at most `units`, strictly less than `units` while the status is
active, and exactly `units` when the status is fulfilled. -/
theorem sequential_quota_invariant (ctx : Ctx) (users : List User)
    (dist : Coordinates → Coordinates → Nat) (newId caller : ObjectId) (body : CreateBody)
    (r0 : BloodRequest) (ops : List Op)
    (hcreate : (createBloodRequest ctx users dist newId caller body).request = some r0)
    (hno : ∀ op ∈ ops, op.isUpdate = false) :
    1 ≤ r0.units ∧ r0.units ≤ 10 ∧
    acceptedCount (run ops r0) ≤ (run ops r0).units ∧
    ((run ops r0).status = RequestStatus.active →
      acceptedCount (run ops r0) < (run ops r0).units) ∧
    ((run ops r0).status = RequestStatus.fulfilled →
      acceptedCount (run ops r0) = (run ops r0).units) := by
  obtain ⟨hact, hdon, _, hpos, hmax, _, _⟩ :=
    create_stored ctx users dist newId caller body r0 hcreate
  have h0 : QuotaExact r0 := by
    refine ⟨fun hf => ?_, fun _ => ?_⟩
    · rw [hact] at hf
      exact RequestStatus.noConfusion hf
    · unfold acceptedCount acceptedDonors
      rw [hdon]
      exact hpos
  have h := run_quotaExact ops r0 hno h0
  refine ⟨hpos, hmax, ?_, fun ha => h.2 (by rw [ha]; decide), h.1⟩
  by_cases hf : (run ops r0).status = RequestStatus.fulfilled
  · exact le_of_eq (h.1 hf)
  · exact le_of_lt (h.2 hf)

/-- Witness for C27: the request for two units after the accepts of donors A
and B. -/
theorem sequential_quota_invariant_witness :
    acceptedCount (run [Op.respond (ctxAt 5) donorA "accept",
      Op.respond (ctxAt 6) donorB "accept"] sampleCreated2) = 2 :=
  (sequential_quota_invariant (ctxAt 0) [donorA, donorB] zeroDist 7 9 sampleBody2
    sampleCreated2 [Op.respond (ctxAt 5) donorA "accept", Op.respond (ctxAt 6) donorB "accept"]
    (by decide) (by decide)).2.2.2.2 (by decide)

/-! ## Completed entries -/

/-- An in-place update that keeps passing elements passing does not lower the
count of a filter. -/
theorem updateFirst_count_mono {α : Type} (p q : α → Bool) (f : α → α)
    (hq : ∀ x, p x = true → q x = true → q (f x) = true) (l : List α) :
    (l.filter q).length ≤ ((updateFirst p f l).filter q).length := by
  induction l with
  | nil => exact Nat.le_refl _
  | cons x xs ih =>
    by_cases hx : p x = true
    · by_cases hqx : q x = true
      · simp [updateFirst, hx, List.filter_cons, hq x hx hqx, hqx]
      · by_cases hqf : q (f x) = true
        · simp [updateFirst, hx, List.filter_cons, hqx, hqf]
        · simp [updateFirst, hx, List.filter_cons, hqx, hqf]
    · by_cases hqx : q x = true
      · simp only [updateFirst, hx, Bool.false_eq_true, if_false, List.filter_cons, hqx,
          if_true, List.length_cons]
        omega
      · simp only [updateFirst, hx, Bool.false_eq_true, if_false, List.filter_cons, hqx]
        exact ih

/-- The upsert leaves the entries of the other donors in place. -/
theorem upsertResponse_other (now : Date) (donorId : ObjectId) (response : String)
    (l : List DonorEntry) (i : Nat) (e : DonorEntry) (he : l[i]? = some e)
    (hd : e.donor ≠ donorId) : (upsertResponse now donorId response l)[i]? = some e := by
  by_cases hex : ∃ x ∈ l, x.donor = donorId
  · rw [upsertResponse_of_mem _ _ _ _ hex]
    exact updateFirst_getElem? _ _ _ _ _ he (by simpa using hd)
  · rw [upsertResponse_of_not_mem _ _ _ _ (fun x hx hxd => hex ⟨x, hx, hxd⟩)]
    have hlt : i < l.length := by
      by_contra hge
      rw [List.getElem?_eq_none (not_lt.mp hge)] at he
      exact Option.noConfusion he
    rw [List.getElem?_append_left hlt]
    exact he

/-- The upsert keeps the completed entries when the responder has none. -/
theorem upsertResponse_completed (now : Date) (donorId : ObjectId) (response : String)
    (l : List DonorEntry)
    (hno : ∀ e ∈ l, e.donor = donorId → e.status ≠ DonorStatus.completed) :
    (upsertResponse now donorId response l).filter
        (fun d => d.status == DonorStatus.completed) =
      l.filter (fun d => d.status == DonorStatus.completed) ∨
    ((upsertResponse now donorId response l).filter
        (fun d => d.status == DonorStatus.completed)).length =
      (l.filter (fun d => d.status == DonorStatus.completed)).length := by
  right
  have hrs : ∀ s : String, (responseStatus s == DonorStatus.completed) = false := by
    intro s
    unfold responseStatus
    split <;> rfl
  by_cases hex : ∃ x ∈ l, x.donor = donorId
  · rw [upsertResponse_of_mem _ _ _ _ hex]
    clear hex
    induction l with
    | nil => rfl
    | cons y ys ih =>
      have hys : ∀ e ∈ ys, e.donor = donorId → e.status ≠ DonorStatus.completed :=
        fun e he => hno e (List.mem_cons_of_mem _ he)
      by_cases hy : y.donor = donorId
      · have hyc : (y.status == DonorStatus.completed) = false := by
          have := hno y (List.mem_cons_self _ _) hy
          simpa using this
        simp [updateFirst, hy, List.filter_cons, overwrite, hrs, hyc]
      · by_cases hyc : (y.status == DonorStatus.completed) = true
        · simp only [updateFirst, beq_iff_eq, hy, if_false, List.filter_cons, hyc, if_true,
            List.length_cons]
          rw [ih hys]
        · simp only [updateFirst, beq_iff_eq, hy, if_false, List.filter_cons, hyc]
          exact ih hys
  · rw [upsertResponse_of_not_mem _ _ _ _ (fun x hx hxd => hex ⟨x, hx, hxd⟩)]
    simp [List.filter_append, List.filter_cons, hrs]

theorem applyUpdate_donors (ctx : Ctx) (body : UpdateBody) (r : BloodRequest) :
    (applyUpdate ctx body r).donors = r.donors :=
  (applyUpdate_snapshot ctx body r).2.2

/-- C28, as stated, fails: donor A's donation on the request for two units was
completed at instant `6`; 91 days later the request is still stored active and
donor A, eligible again, declines through the respond route: the completed
entry becomes declined and `getFulfilledUnits` drops from 1 to 0. -/
theorem completed_entry_overwritten :
    getFulfilledUnits sampleCompleted2 = 1 ∧
    sampleCompleted2.status = RequestStatus.active ∧
    (respondRoute { now := ninetyOneDaysLater, ioReady := true } (some donorAfterDonation)
      "decline" sampleCompleted2).code = 200 ∧
    (respondToBloodRequest { now := ninetyOneDaysLater, ioReady := true } donorAfterDonation
      "decline" sampleCompleted2).request.donors =
      [{ donor := 1, status := DonorStatus.declined, respondedAt := ninetyOneDaysLater,
         completedAt := some 6 }] ∧
    getFulfilledUnits (respondToBloodRequest { now := ninetyOneDaysLater, ioReady := true }
      donorAfterDonation "decline" sampleCompleted2).request = 0 := by
  decide

/-- C28, amended: `completeDonation`, `updateBloodRequest` and
`cancelBloodRequest` leave every completed donor entry as it is, and so does
`respondToBloodRequest` for every completed entry of a donor other than the
responder; under these three controllers, and under a response by a donor who
has no completed entry, `getFulfilledUnits` does not decrease. -/
theorem completed_entries_kept (r : BloodRequest) (i : Nat) (e : DonorEntry)
    (he : r.donors[i]? = some e) (hc : e.status = DonorStatus.completed) :
    (∀ (ctx : Ctx) (users : List User) (caller donorId : ObjectId),
      (completeDonation ctx users caller donorId r).request.donors[i]? = some e ∧
      getFulfilledUnits r ≤
        getFulfilledUnits (completeDonation ctx users caller donorId r).request) ∧
    (∀ (ctx : Ctx) (caller : ObjectId) (body : UpdateBody),
      (updateBloodRequest ctx caller body r).request.donors = r.donors) ∧
    (∀ (ctx : Ctx) (caller : ObjectId),
      (cancelBloodRequest ctx caller r).request.donors = r.donors) ∧
    (∀ (ctx : Ctx) (user : User) (response : String), e.donor ≠ user._id →
      (respondToBloodRequest ctx user response r).request.donors[i]? = some e) ∧
    (∀ (ctx : Ctx) (user : User) (response : String),
      (∀ d ∈ r.donors, d.donor = user._id → d.status ≠ DonorStatus.completed) →
      getFulfilledUnits (respondToBloodRequest ctx user response r).request =
        getFulfilledUnits r) := by
  refine ⟨?_, ?_, ?_, ?_, ?_⟩
  · intro ctx users caller donorId
    by_cases hok : (completeDonation ctx users caller donorId r).code = 200
    · obtain ⟨hreq, hany⟩ := complete_code_200 ctx users caller donorId r hok
      subst hreq
      rw [complete_success ctx users donorId r hany]
      unfold getFulfilledUnits
      simp only [preSave_donors, completedDocument_donors]
      refine ⟨updateFirst_getElem? _ _ _ _ _ he (by simp [isAcceptedBy, hc]), ?_⟩
      apply updateFirst_count_mono
      intro x _ _
      rfl
    · rw [complete_rejected ctx users caller donorId r hok]
      exact ⟨he, Nat.le_refl _⟩
  · intro ctx caller body
    unfold updateBloodRequest
    split
    · rfl
    · split
      · rfl
      · dsimp only
        split
        · rfl
        · simp only [preSave_donors, applyUpdate_donors]
  · intro ctx caller
    unfold cancelBloodRequest
    split
    · rfl
    · split
      · rfl
      · simp only [preSave_donors]
  · intro ctx user response hne
    by_cases hok : (respondToBloodRequest ctx user response r).code = 200
    · obtain ⟨hresp, hact, helig⟩ := respond_code_200 ctx user response r hok
      rw [respond_success ctx user response r hresp hact helig]
      simp only [preSave_donors, respondedDocument_donors]
      exact upsertResponse_other ctx.now user._id response r.donors i e he hne
    · rw [respond_rejected ctx user response r hok]
      exact he
  · intro ctx user response hno
    by_cases hok : (respondToBloodRequest ctx user response r).code = 200
    · obtain ⟨hresp, hact, helig⟩ := respond_code_200 ctx user response r hok
      rw [respond_success ctx user response r hresp hact helig]
      unfold getFulfilledUnits
      simp only [preSave_donors, respondedDocument_donors]
      rcases upsertResponse_completed ctx.now user._id response r.donors hno with h | h
      · rw [h]
      · exact h
    · rw [respond_rejected ctx user response r hok]

/-- Witness for C28, amended: donor A's completed entry stays in place when
donor B accepts and when the requester completes or cancels. -/
theorem completed_entries_kept_witness :
    (respondToBloodRequest (ctxAt 7) donorB "accept" sampleCompleted2).request.donors[0]? =
      some { donor := 1, status := DonorStatus.completed, respondedAt := 5,
             completedAt := some 6 } ∧
    (cancelBloodRequest (ctxAt 7) 9 sampleCompleted2).request.donors =
      sampleCompleted2.donors :=
  ⟨(completed_entries_kept sampleCompleted2 0
      { donor := 1, status := DonorStatus.completed, respondedAt := 5, completedAt := some 6 }
      (by decide) rfl).2.2.2.1 (ctxAt 7) donorB "accept" (by decide),
   (completed_entries_kept sampleCompleted2 0
      { donor := 1, status := DonorStatus.completed, respondedAt := 5, completedAt := some 6 }
      (by decide) rfl).2.2.1 (ctxAt 7) 9⟩

/-! ## Dates moved on the local clock -/

/-- A date moved by local days is the date moved by that many times 24 hours,
plus the change of the UTC offset between the two. -/
theorem addLocalDays_eq (zone : TimeZone) (now : Date) (days : Int) :
    addLocalDays zone now days =
      now + days * msPerDay + offsetShift zone now (days * msPerDay) := by
  unfold addLocalDays offsetShift TimeZone.utc TimeZone.localTime
  ring

/-- A date moved by local hours is the date moved by that many hours, plus the
change of the UTC offset between the two. -/
theorem addLocalHours_eq (zone : TimeZone) (now : Date) (hours : Int) :
    addLocalHours zone now hours =
      now + hours * msPerHour + offsetShift zone now (hours * msPerHour) := by
  unfold addLocalHours offsetShift TimeZone.utc TimeZone.localTime
  ring

/-- Where the UTC offset does not change, `getExpiryDateIn` is `getExpiryDate`. -/
theorem getExpiryDateIn_of_no_shift (zone : TimeZone) (now : Date) (urgency : Option String)
    (h : ∀ delta : Int, offsetShift zone now delta = 0) :
    getExpiryDateIn zone now urgency = getExpiryDate now urgency := by
  unfold getExpiryDateIn getExpiryDate
  split <;> simp [addLocalHours_eq, h]

/-- Where the UTC offset does not change, `checkDonationEligibilityIn` is
`checkDonationEligibility`. -/
theorem checkDonationEligibilityIn_of_no_shift (zone : TimeZone) (now : Date) (u : User)
    (h : ∀ delta : Int, offsetShift zone now delta = 0) :
    checkDonationEligibilityIn zone now u = checkDonationEligibility now u := by
  unfold checkDonationEligibilityIn checkDonationEligibility
  cases u.lastDonation with
  | none => rfl
  | some last =>
    simp only [addLocalDays_eq, h]
    congr 1
    simp only [eq_iff_iff]
    constructor <;> intro hlt <;> linarith

/-- C10, as stated, fails: thirty days after the clocks of the server's zone
went forward, the instant 90 local days before `now` is one hour later than
`now` minus 90 times 24 hours, so a user whose last donation was exactly 90
times 24 hours ago is eligible. -/
theorem eligibility_threshold_follows_local_days :
    addLocalDays springForwardZone thirtyDaysAfter (-90) =
      thirtyDaysAfter - 90 * msPerDay + 1 * msPerHour ∧
    checkDonationEligibilityIn springForwardZone thirtyDaysAfter
      { donorA with lastDonation := some (thirtyDaysAfter - 90 * msPerDay) } = true ∧
    ¬ (thirtyDaysAfter - 90 * msPerDay < thirtyDaysAfter - 90 * msPerDay) := by
  decide

/-- C10, amended: `checkDonationEligibility` is true exactly when
`lastDonation` is null or strictly earlier than the instant 90 local calendar
days before `now`, which is `now` minus 90 times 24 hours plus the change of
the server's UTC offset between the two instants.  Where the offset is the
same, a last donation exactly 90 times 24 hours ago is not eligible; where the
offsets differ by less than a day, 91 times 24 hours ago is eligible and 89
times 24 hours ago is not; `null` is eligible. -/
theorem checkDonationEligibilityIn_iff (zone : TimeZone) (now : Date) (u : User) :
    (checkDonationEligibilityIn zone now u = true ↔
      (u.lastDonation = none ∨
        ∃ last, u.lastDonation = some last ∧ last < addLocalDays zone now (-90))) ∧
    addLocalDays zone now (-90) =
      now - 90 * msPerDay + offsetShift zone now (-90 * msPerDay) ∧
    (offsetShift zone now (-90 * msPerDay) = 0 →
      checkDonationEligibilityIn zone now
        { u with lastDonation := some (now - 90 * msPerDay) } = false) ∧
    (-msPerDay < offsetShift zone now (-90 * msPerDay) →
      offsetShift zone now (-90 * msPerDay) < msPerDay →
      checkDonationEligibilityIn zone now
        { u with lastDonation := some (now - 91 * msPerDay) } = true ∧
      checkDonationEligibilityIn zone now
        { u with lastDonation := some (now - 89 * msPerDay) } = false) ∧
    checkDonationEligibilityIn zone now { u with lastDonation := none } = true := by
  have hthr : addLocalDays zone now (-90) =
      now - 90 * msPerDay + offsetShift zone now (-90 * msPerDay) := by
    rw [addLocalDays_eq]
    ring
  refine ⟨?_, hthr, ?_, ?_, rfl⟩
  · cases h : u.lastDonation <;> simp [checkDonationEligibilityIn, h]
  · intro h0
    simp only [checkDonationEligibilityIn, hthr, h0, decide_eq_false_iff_not, not_lt]
    linarith
  · intro hlo hhi
    constructor
    · simp only [checkDonationEligibilityIn, hthr, decide_eq_true_eq]
      have : msPerDay = 86400000 := rfl
      linarith
    · simp only [checkDonationEligibilityIn, hthr, decide_eq_false_iff_not, not_lt]
      have : msPerDay = 86400000 := rfl
      linarith

/-- Witness for C10, amended: in a zone five and a half hours ahead of UTC
at all times, a last donation exactly 90 times 24 hours ago is not eligible and
one 91 times 24 hours ago is. -/
theorem checkDonationEligibilityIn_iff_witness :
    checkDonationEligibilityIn (fixedZone 19800000) thirtyDaysAfter
      { donorA with lastDonation := some (thirtyDaysAfter - 90 * msPerDay) } = false ∧
    checkDonationEligibilityIn (fixedZone 19800000) thirtyDaysAfter
      { donorA with lastDonation := some (thirtyDaysAfter - 91 * msPerDay) } = true :=
  ⟨(checkDonationEligibilityIn_iff (fixedZone 19800000) thirtyDaysAfter donorA).2.2.1
      (by decide),
   ((checkDonationEligibilityIn_iff (fixedZone 19800000) thirtyDaysAfter donorA).2.2.2.1
      (by decide) (by decide)).1⟩

/-- C11, evaluated on the code: at 20:00 local time on the evening before the
clocks of the server's zone go forward, `getExpiryDate` gives `now` plus 11
hours for `medium`, not 12, `now` plus 5 hours for `high` and `now` plus 23
hours for `low`: `setHours(getHours() + h)` moves the local clock by `h` hours
and the skipped hour is lost.  In a zone without clock changes the same call
gives `now` plus 12 hours. -/
theorem getExpiryDate_across_clock_change :
    getExpiryDateIn springForwardZone eveningBefore (some "medium") =
      eveningBefore + 11 * msPerHour ∧
    getExpiryDateIn springForwardZone eveningBefore (some "medium") ≠
      eveningBefore + 12 * msPerHour ∧
    getExpiryDateIn springForwardZone eveningBefore (some "high") =
      eveningBefore + 5 * msPerHour ∧
    getExpiryDateIn springForwardZone eveningBefore (some "low") =
      eveningBefore + 23 * msPerHour ∧
    getExpiryDateIn springForwardZone eveningBefore (some "critical") =
      eveningBefore + 3 * msPerHour ∧
    getExpiryDateIn (fixedZone 0) eveningBefore (some "medium") =
      eveningBefore + 12 * msPerHour := by
  decide

/-! ## What the controllers do to a terminal request -/

/-- C3, as stated, fails twice: the requester can cancel an expired request,
which then is cancelled; and the completion of an accepted donation on a
cancelled or on an expired request of one unit makes the request fulfilled. -/
theorem terminal_states_left :
    ({ sampleRequest with status := RequestStatus.expired } : BloodRequest).status =
      RequestStatus.expired ∧
    (cancelBloodRequest (ctxAt 200) 9
      { sampleRequest with status := RequestStatus.expired }).code = 200 ∧
    (cancelBloodRequest (ctxAt 200) 9
      { sampleRequest with status := RequestStatus.expired }).request.status =
      RequestStatus.cancelled ∧
    (sampleAccepted RequestStatus.cancelled).status = RequestStatus.cancelled ∧
    (completeDonation (ctxAt 6) [donorA] 9 1 (sampleAccepted RequestStatus.cancelled)).code =
      200 ∧
    (completeDonation (ctxAt 6) [donorA] 9 1
      (sampleAccepted RequestStatus.cancelled)).request.status = RequestStatus.fulfilled ∧
    (completeDonation (ctxAt 6) [donorA] 9 1
      (sampleAccepted RequestStatus.expired)).request.status = RequestStatus.fulfilled := by
  decide

/-- C3, amended: on a request whose status is fulfilled, cancelled or expired,
`updateBloodRequest`, `respondToBloodRequest` and the pre-save hook leave the
stored request as it is, for every caller and argument; `cancelBloodRequest`
leaves a fulfilled or cancelled request as it is, and an expired one too unless
the caller is the requester, for whom it succeeds and stores status cancelled;
`completeDonation` leaves the status of a fulfilled request fulfilled, and
leaves the status of a cancelled or expired request as it is unless the
completion succeeds and brings the number of completed entries to `units` or
more, in which case the request becomes fulfilled. -/
theorem terminal_status_preserved (r : BloodRequest)
    (hs : r.status = RequestStatus.fulfilled ∨ r.status = RequestStatus.cancelled ∨
      r.status = RequestStatus.expired) :
    (∀ (ctx : Ctx) (caller : ObjectId) (body : UpdateBody),
      (updateBloodRequest ctx caller body r).request = r) ∧
    (∀ (ctx : Ctx) (user : User) (response : String),
      (respondToBloodRequest ctx user response r).request = r) ∧
    (∀ now : Date, preSave now r = r) ∧
    (∀ (ctx : Ctx) (caller : ObjectId), r.status ≠ RequestStatus.expired →
      (cancelBloodRequest ctx caller r).request = r) ∧
    (∀ (ctx : Ctx) (caller : ObjectId), caller ≠ r.requester →
      (cancelBloodRequest ctx caller r).request = r) ∧
    (∀ ctx : Ctx, r.status = RequestStatus.expired →
      (cancelBloodRequest ctx r.requester r).code = 200 ∧
      (cancelBloodRequest ctx r.requester r).request =
        { r with status := RequestStatus.cancelled }) ∧
    (∀ (ctx : Ctx) (users : List User) (caller donorId : ObjectId),
      r.status = RequestStatus.fulfilled →
      (completeDonation ctx users caller donorId r).request.status =
        RequestStatus.fulfilled) ∧
    (∀ (ctx : Ctx) (users : List User) (caller donorId : ObjectId),
      (completeDonation ctx users caller donorId r).request.status =
        if (completeDonation ctx users caller donorId r).code = 200 ∧
          r.units ≤ getFulfilledUnits (completeDonation ctx users caller donorId r).request
        then RequestStatus.fulfilled else r.status) := by
  have hna : r.status ≠ RequestStatus.active := by
    rcases hs with h | h | h <;> simp [h]
  have hcomplete : ∀ (ctx : Ctx) (users : List User) (caller donorId : ObjectId),
      (completeDonation ctx users caller donorId r).request.status =
        if (completeDonation ctx users caller donorId r).code = 200 ∧
          r.units ≤ getFulfilledUnits (completeDonation ctx users caller donorId r).request
        then RequestStatus.fulfilled else r.status := by
    intro ctx users caller donorId
    by_cases hok : (completeDonation ctx users caller donorId r).code = 200
    · obtain ⟨hreq, hany⟩ := complete_code_200 ctx users caller donorId r hok
      subst hreq
      rw [complete_success ctx users donorId r hany]
      have hst := completedDocument_status ctx donorId r
      have hnact : (completedDocument ctx donorId r).status ≠ RequestStatus.active := by
        rw [hst]
        split
        · decide
        · exact hna
      rw [preSave_of_not_active _ _ hnact]
      simp only [true_and]
      exact hst
    · rw [complete_rejected ctx users caller donorId r hok]
      have hne : ¬ ((completeDonation ctx users caller donorId r).code = 200 ∧
          r.units ≤ getFulfilledUnits r) := fun h => hok h.1
      rw [if_neg hne]
  refine ⟨?_, ?_, ?_, ?_, ?_, ?_, ?_, hcomplete⟩
  · intro ctx caller body
    unfold updateBloodRequest
    by_cases hreq : r.requester ≠ caller
    · rw [if_pos hreq]
    · rw [if_neg hreq, if_pos hs]
  · intro ctx user response
    rw [respond_of_not_active ctx user response r hna]
  · exact fun now => preSave_of_not_active now r hna
  · intro ctx caller hne
    have hfc : r.status = RequestStatus.fulfilled ∨ r.status = RequestStatus.cancelled := by
      rcases hs with h | h | h
      · exact Or.inl h
      · exact Or.inr h
      · exact absurd h hne
    unfold cancelBloodRequest
    by_cases hreq : r.requester ≠ caller
    · rw [if_pos hreq]
    · rw [if_neg hreq, if_pos hfc]
  · intro ctx caller hne
    unfold cancelBloodRequest
    rw [if_pos (Ne.symm hne)]
  · intro ctx hexp
    have hfc : ¬ (r.status = RequestStatus.fulfilled ∨ r.status = RequestStatus.cancelled) := by
      simp [hexp]
    unfold cancelBloodRequest
    rw [if_neg (not_not.mpr rfl), if_neg hfc]
    simp only [preSave_of_not_active ctx.now { r with status := RequestStatus.cancelled }
      (by simp), and_self]
  · intro ctx users caller donorId hful
    rw [hcomplete ctx users caller donorId]
    split
    · rfl
    · exact hful

/-- Witness for C3, amended: an edit of a fulfilled request is refused, and
the completion of the one unit of a cancelled request fulfils it. -/
theorem terminal_status_preserved_witness :
    (updateBloodRequest (ctxAt 5) 9
      { patient := none, bloodGroup := none, units := some 3, urgency := none,
        hospital := none, reason := none, additionalNotes := none }
      { sampleRequest with status := RequestStatus.fulfilled }).request =
      { sampleRequest with status := RequestStatus.fulfilled } ∧
    (completeDonation (ctxAt 6) [donorA] 9 1
      (sampleAccepted RequestStatus.cancelled)).request.status = RequestStatus.fulfilled := by
  refine ⟨(terminal_status_preserved { sampleRequest with status := RequestStatus.fulfilled }
    (Or.inl rfl)).1 (ctxAt 5) 9 _, ?_⟩
  rw [(terminal_status_preserved (sampleAccepted RequestStatus.cancelled)
    (Or.inr (Or.inl rfl))).2.2.2.2.2.2.2 (ctxAt 6) [donorA] 9 1]
  decide

/-! ## Cancellation and the snapshot -/

theorem applyUpdate_requester (ctx : Ctx) (body : UpdateBody) (r : BloodRequest) :
    (applyUpdate ctx body r).requester = r.requester := by
  unfold applyUpdate
  simp only
  split <;> rfl

theorem preSave_requester (now : Date) (r : BloodRequest) :
    (preSave now r).requester = r.requester := by
  unfold preSave
  split <;> rfl

/-- No controller changes the requester of a stored request. -/
theorem apply_requester (op : Op) (r : BloodRequest) :
    (op.apply r).requester = r.requester := by
  cases op with
  | respond ctx user response =>
    show (respondToBloodRequest ctx user response r).request.requester = _
    unfold respondToBloodRequest
    split
    · rfl
    · split
      · rfl
      · split
        · rfl
        · simp only [preSave_requester]
          split <;> rfl
  | complete ctx users caller donorId =>
    show (completeDonation ctx users caller donorId r).request.requester = _
    unfold completeDonation
    split
    · rfl
    · split
      · rfl
      · simp only [preSave_requester]
        split <;> rfl
  | update ctx caller body =>
    show (updateBloodRequest ctx caller body r).request.requester = _
    unfold updateBloodRequest
    split
    · rfl
    · split
      · rfl
      · dsimp only
        split
        · rfl
        · simp only [preSave_requester, applyUpdate_requester]
  | cancel ctx caller =>
    show (cancelBloodRequest ctx caller r).request.requester = _
    unfold cancelBloodRequest
    split
    · rfl
    · split
      · rfl
      · simp only [preSave_requester]

theorem run_requester (ops : List Op) :
    ∀ r : BloodRequest, (run ops r).requester = r.requester := by
  induction ops with
  | nil => exact fun _ => rfl
  | cons op rest ih =>
    intro r
    exact (ih (op.apply r)).trans (apply_requester op r)

/-- When `cancelBloodRequest` answers `200`. -/
theorem cancel_code_iff (ctx : Ctx) (caller : ObjectId) (r : BloodRequest) :
    (cancelBloodRequest ctx caller r).code = 200 ↔
      (caller = r.requester ∧ r.status ≠ RequestStatus.fulfilled ∧
        r.status ≠ RequestStatus.cancelled) := by
  unfold cancelBloodRequest
  by_cases hreq : r.requester ≠ caller
  · rw [if_pos hreq]
    constructor
    · intro h
      simp at h
    · intro h
      exact absurd h.1.symm hreq
  · rw [if_neg hreq]
    by_cases hfc : r.status = RequestStatus.fulfilled ∨ r.status = RequestStatus.cancelled
    · rw [if_pos hfc]
      constructor
      · intro h
        simp at h
      · intro h
        rcases hfc with hf | hc
        · exact absurd hf h.2.1
        · exact absurd hc h.2.2
    · rw [if_neg hfc]
      constructor
      · intro _
        exact ⟨(not_not.mp hreq).symm, fun hf => hfc (Or.inl hf), fun hc => hfc (Or.inr hc)⟩
      · intro _
        rfl

/-- A cancel that is not answered with `200` writes nothing and emits nothing. -/
theorem cancel_rejected (ctx : Ctx) (caller : ObjectId) (r : BloodRequest)
    (h : (cancelBloodRequest ctx caller r).code ≠ 200) :
    (cancelBloodRequest ctx caller r).request = r ∧
    (cancelBloodRequest ctx caller r).events = [] := by
  unfold cancelBloodRequest at h ⊢
  split
  · exact ⟨rfl, rfl⟩
  · split
    · exact ⟨rfl, rfl⟩
    · rename_i h1 h2
      rw [if_neg h1, if_neg h2] at h
      exact absurd rfl h

/-- C23: no controller writes `notifiedDonors` after creation.  For a request
created with candidate list `found`, after any sequence of edits, responses
and completions, `cancelBloodRequest` succeeds exactly when it is called by the
requester on a request that is neither fulfilled nor cancelled; it then stores
status cancelled, changes no other field (the donors list included) and, with
the socket server started, emits one `request_cancelled` event carrying the
request id to the room of each member of `found`, in order, and no other
event; a cancel that does not succeed writes and emits nothing. -/
theorem cancel_targets_snapshot (ctx0 : Ctx) (users : List User)
    (dist : Coordinates → Coordinates → Nat) (newId caller0 : ObjectId) (body : CreateBody)
    (found : List User) (r0 : BloodRequest) (ops : List Op) (ctx : Ctx)
    (hcreated : (createBloodRequest ctx0 users dist newId caller0 body).code = 201)
    (hfind : findPotentialDonors users dist body.bloodGroup body.hospital.coordinates
      (getRadiusByUrgency body.urgency) = some found)
    (hr0 : (createBloodRequest ctx0 users dist newId caller0 body).request = some r0)
    (hio : ctx.ioReady = true) :
    r0.notifiedDonors = found.map (fun d => d._id) ∧
    (∀ (op : Op) (r : BloodRequest), (op.apply r).notifiedDonors = r.notifiedDonors) ∧
    (run ops r0).notifiedDonors = found.map (fun d => d._id) ∧
    (∀ caller : ObjectId, (cancelBloodRequest ctx caller (run ops r0)).code = 200 ↔
      (caller = caller0 ∧ (run ops r0).status ≠ RequestStatus.fulfilled ∧
        (run ops r0).status ≠ RequestStatus.cancelled)) ∧
    ((run ops r0).status ≠ RequestStatus.fulfilled →
      (run ops r0).status ≠ RequestStatus.cancelled →
      cancelBloodRequest ctx caller0 (run ops r0) =
        { code := 200
          request := { run ops r0 with status := RequestStatus.cancelled }
          events := found.map (fun d => Event.requestCancelled d._id newId) }) ∧
    (∀ caller : ObjectId, (cancelBloodRequest ctx caller (run ops r0)).code ≠ 200 →
      (cancelBloodRequest ctx caller (run ops r0)).request = run ops r0 ∧
      (cancelBloodRequest ctx caller (run ops r0)).events = []) := by
  obtain ⟨hvalid, _⟩ := create_code_201 ctx0 users dist newId caller0 body hcreated
  have hstored := create_stored_document ctx0 users dist newId caller0 body found hvalid hfind
  rw [hstored] at hr0
  have hr0eq := (Option.some.inj hr0).symm
  have hnot : r0.notifiedDonors = found.map (fun d => d._id) := by rw [hr0eq]
  have hid : r0._id = newId := by rw [hr0eq]; rfl
  have hrq : r0.requester = caller0 := by rw [hr0eq]; rfl
  have hrun := run_snapshot ops r0
  have hrunq := run_requester ops r0
  have hiff : ∀ caller : ObjectId, (cancelBloodRequest ctx caller (run ops r0)).code = 200 ↔
      (caller = caller0 ∧ (run ops r0).status ≠ RequestStatus.fulfilled ∧
        (run ops r0).status ≠ RequestStatus.cancelled) := by
    intro caller
    rw [cancel_code_iff, hrunq, hrq]
  refine ⟨hnot, fun op r => (apply_snapshot op r).1, hrun.1.trans hnot, hiff, ?_,
    fun caller h => cancel_rejected ctx caller (run ops r0) h⟩
  intro hnf hnc
  have hok := (hiff caller0).mpr ⟨rfl, hnf, hnc⟩
  rw [cancel_code_200 ctx caller0 _ hok]
  simp only [notifyDonorsOfCancellation, hio, if_true, hrun.1, hrun.2, hnot, hid,
    List.map_map]
  rfl

/-- Witness for C23: the requester cancels the request for two units after
donor A accepted it; the cancel succeeds and the two donors notified at
creation get the event. -/
theorem cancel_targets_snapshot_witness :
    cancelBloodRequest (ctxAt 8) 9
        (run [Op.respond (ctxAt 5) donorA "accept"] sampleCreated2) =
      { code := 200
        request :=
          { run [Op.respond (ctxAt 5) donorA "accept"] sampleCreated2 with
            status := RequestStatus.cancelled }
        events := [donorA, donorB].map (fun d => Event.requestCancelled d._id 7) } :=
  (cancel_targets_snapshot (ctxAt 0) [donorA, donorB] zeroDist 7 9 sampleBody2
    [donorA, donorB] sampleCreated2 [Op.respond (ctxAt 5) donorA "accept"] (ctxAt 8)
    (by decide) (by decide) (by decide) (by decide)).2.2.2.2.1 (by decide) (by decide)

end Raktlink
